import Mathlib

/-!
libsms: frame sequencer, spectrum engine and resynthesis scheduler.

A shallow embedding of the parts of `src/sms.c`, `src/spectrum.c` and
`tools/smsSynth.c` that the specification talks about, followed by the
theorems that settle the specification's claims against that embedding.

Conventions of the embedding:

* C `int` values are mathematical integers (`Int`); signed overflow is
  undefined in C and is made explicit (`wrap32`) only where a claim depends on
  it (`sms_power2`).
* `sfloat` and `float` values are exact rationals (`ℚ`), or elements of an
  ordered field where functions of libm are involved. Where a claim depends on
  the rounding of the floating operations, the embedded function takes the
  rounding `fl` of the floating type as a parameter: `f32` is IEEE single
  precision, the identity is exact arithmetic. A function embedded without
  that parameter is its exact-arithmetic reading.
* An array of the frame sequencer is a `List`; an access outside the array has
  no defined result and the embedded function then returns `none`. An array of
  the spectrum engine is a map from the `int` offset to the value stored there.
-/

namespace LibSms

/-! ## Data model (`sms.h`) -/

/-- Frame status, `enum SMS_FRAME_STATUS` of `sms.h`, in declaration order. -/
inductive SMS_FRAME_STATUS where
  | SMS_FRAME_EMPTY
  | SMS_FRAME_READY
  | SMS_FRAME_PEAKS_FOUND
  | SMS_FRAME_FUND_FOUND
  | SMS_FRAME_TRAJ_FOUND
  | SMS_FRAME_CLEANED
  | SMS_FRAME_RECOMPUTED
  | SMS_FRAME_DETER_SYNTH
  | SMS_FRAME_STOC_COMPUTED
  | SMS_FRAME_DONE
  | SMS_FRAME_END
  deriving DecidableEq, Repr

open SMS_FRAME_STATUS

/-- `SMS_OK`, the first member of `enum SMS_ERRORS`. -/
def SMS_OK : Int := 0

/-- `SMS_MAX_WINDOW`, the maximum size of an analysis window. -/
def SMS_MAX_WINDOW : Int := 8190

/-- A spectral peak, `SMS_Peak`. -/
structure SMS_Peak where
  fFreq : ℚ
  fMag : ℚ
  fPhase : ℚ
  deriving DecidableEq, Repr

/-- The deterministic part of `SMS_Data` that the frame sequencer touches. -/
structure SMS_Data where
  pFSinFreq : List ℚ
  pFSinAmp : List ℚ
  pFSinPha : List ℚ
  deriving DecidableEq, Repr

/-- The sound buffer bookkeeping of `SMS_SndBuffer` (the samples themselves are
not needed by the functions embedded here). -/
structure SMS_SndBuffer where
  sizeBuffer : Int
  iMarker : Int
  iFirstGood : Int
  deriving DecidableEq, Repr

/-- An analysis frame, `SMS_AnalFrame`. -/
structure SMS_AnalFrame where
  iFrameSample : Int
  iFrameSize : Int
  iFrameNum : Int
  pSpectralPeaks : List SMS_Peak
  nPeaks : Int
  fFundamental : ℚ
  deterministic : SMS_Data
  iStatus : SMS_FRAME_STATUS
  deriving DecidableEq, Repr

/-- The fields of `SMS_AnalParams` read or written by the frame sequencer.
`ppFrames` is the ring of frame slots as seen through the pointer table:
entry `i` is the frame `ppFrames[i]` points to. The fields after `ppFrames`
carry the values `sms_initAnalParams` gives them unless they are set
otherwise. -/
structure SMS_AnalParams where
  sizeHop : Int
  iSizeSound : Int
  nGuides : Nat
  iMaxPeaks : Nat
  soundBuffer : SMS_SndBuffer
  ppFrames : List SMS_AnalFrame
  iSamplingRate : Int := 44100
  iDefaultSizeWindow : Int := 1001
  fSizeWindow : ℚ := 7 / 2
  minGoodFrames : Int := 3
  iFrameRate : Int := 300
  fDefaultFundamental : ℚ := 100
  iMaxDelayFrames : Int := 145
  deriving DecidableEq, Repr

/-- The file-scope error variables of `sms.c`: `error_message` and
`error_status`. -/
structure ErrorState where
  error_message : String
  error_status : Int
  deriving DecidableEq, Repr

/-- `sms_error`: store the message (at most 256 characters are copied) and
raise the flag. -/
def sms_error (pErrorMessage : String) (_e : ErrorState) : ErrorState :=
  { error_message := pErrorMessage.take 256, error_status := -1 }

/-! ## `sms_initFrame` -/

/-- `memset(p, 0, n * sizeof(sfloat))` on an array of rationals: the first `n`
entries become zero. -/
def memsetZero : Nat → List ℚ → List ℚ
  | 0, l => l
  | _ + 1, [] => []
  | n + 1, _ :: t => 0 :: memsetZero n t

/-- The peak clearing loop of `sms_initFrame`: the first `n` peaks get
frequency, magnitude and phase zero. -/
def clearPeaks : Nat → List SMS_Peak → List SMS_Peak
  | 0, l => l
  | _ + 1, [] => []
  | n + 1, _ :: t => { fFreq := 0, fMag := 0, fPhase := 0 } :: clearPeaks n t

/-- The half window `(sizeWindow+1)/2` of `sms_initFrame`, C integer division
(truncation towards zero). -/
def halfWindow (sizeWindow : Int) : Int := (sizeWindow + 1).tdiv 2

/-- What a call of `sms_initFrame` leaves behind: the returned `int`, the
analysis parameters and the error variables. -/
structure InitFrameResult where
  ret : Int
  params : SMS_AnalParams
  err : ErrorState
  deriving DecidableEq, Repr

/-- The body of `sms_initFrame` on the frame of the current slot `cur`, given
the frame `prev` of slot `iCurrentFrame - 1`. Returns the `int` result, the
new contents of the current slot and the error variables. -/
def initFrameBody (p : SMS_AnalParams) (e : ErrorState) (prev cur : SMS_AnalFrame)
    (sizeWindow : Int) : Int × SMS_AnalFrame × ErrorState :=
  /- clear deterministic data -/
  let cur := { cur with deterministic :=
    { pFSinFreq := memsetZero p.nGuides cur.deterministic.pFSinFreq,
      pFSinAmp := memsetZero p.nGuides cur.deterministic.pFSinAmp,
      pFSinPha := memsetZero p.nGuides cur.deterministic.pFSinPha } }
  /- clear peaks -/
  let cur := { cur with pSpectralPeaks := clearPeaks p.iMaxPeaks cur.pSpectralPeaks }
  let cur := { cur with nPeaks := 0 }
  let cur := { cur with fFundamental := 0 }
  let cur := { cur with iFrameNum := prev.iFrameNum + 1 }
  let cur := { cur with iFrameSize := sizeWindow }
  /- if first frame set center of data around 0, else increment by sizeHop -/
  let cur :=
    if cur.iFrameNum = 1 then { cur with iFrameSample := 0 }
    else { cur with iFrameSample := prev.iFrameSample + p.sizeHop }
  /- check for error -/
  if p.soundBuffer.iMarker > cur.iFrameSample - halfWindow sizeWindow then
    (-1, cur, sms_error "sms_initFrame: runoff on the sound buffer " e)
  /- check for end of sound -/
  else if cur.iFrameSample + halfWindow sizeWindow ≥ p.iSizeSound then
    (SMS_OK, { cur with iFrameNum := -1, iFrameSize := 0, iStatus := SMS_FRAME_END }, e)
  else
    /- good status, ready to start computing -/
    (SMS_OK, { cur with iStatus := SMS_FRAME_READY }, e)

/-- `sms_initFrame(iCurrentFrame, pAnalParams, sizeWindow)`. The function reads
slot `iCurrentFrame - 1` and writes slot `iCurrentFrame`; when either is
outside the ring the C code has no defined behaviour and the result is
`none`. -/
def sms_initFrame (iCurrentFrame : Nat) (p : SMS_AnalParams) (e : ErrorState)
    (sizeWindow : Int) : Option InitFrameResult :=
  match iCurrentFrame with
  | 0 => none
  | i + 1 =>
    match p.ppFrames[i]?, p.ppFrames[i + 1]? with
    | some prev, some cur =>
      let r := initFrameBody p e prev cur sizeWindow
      some { ret := r.1,
             params := { p with ppFrames := p.ppFrames.set (i + 1) r.2.1 },
             err := r.2.2 }
    | _, _ => none

/-! ## Ring initialisation (`sms_initAnalysis`, `sms_clearAnalysisFrame`) -/

/-- The body of `sms_clearAnalysisFrame` on the frame of the addressed slot:
deterministic data and peaks are cleared entry by entry, the scalar fields are
reset and the status becomes `SMS_FRAME_EMPTY`. -/
def clearAnalysisFrameBody (nGuides iMaxPeaks : Nat) (f : SMS_AnalFrame) : SMS_AnalFrame :=
  { iFrameSample := 0,
    iFrameSize := 0,
    iFrameNum := 0,
    pSpectralPeaks := clearPeaks iMaxPeaks f.pSpectralPeaks,
    nPeaks := 0,
    fFundamental := 0,
    deterministic :=
      { pFSinFreq := memsetZero nGuides f.deterministic.pFSinFreq,
        pFSinAmp := memsetZero nGuides f.deterministic.pFSinAmp,
        pFSinPha := memsetZero nGuides f.deterministic.pFSinPha },
    iStatus := SMS_FRAME_EMPTY }

/-- A frame as the allocation loop of `sms_initAnalysis` leaves it just before
it calls `sms_clearAnalysisFrame`: `iMaxPeaks` peaks, three arrays of `nGuides`
entries, sample, size and number zero, status `SMS_FRAME_EMPTY`. Memory that
`malloc` leaves unspecified is taken as zero; `sms_clearAnalysisFrame`
overwrites all of it. -/
def allocatedFrame (nGuides iMaxPeaks : Nat) : SMS_AnalFrame :=
  { iFrameSample := 0,
    iFrameSize := 0,
    iFrameNum := 0,
    pSpectralPeaks := List.replicate iMaxPeaks { fFreq := 0, fMag := 0, fPhase := 0 },
    nPeaks := 0,
    fFundamental := 0,
    deterministic :=
      { pFSinFreq := List.replicate nGuides 0,
        pFSinAmp := List.replicate nGuides 0,
        pFSinPha := List.replicate nGuides 0 },
    iStatus := SMS_FRAME_EMPTY }

/-- The ring of `iMaxDelayFrames` frame slots built by the loop
"initialize the frame pointers and allocate memory" of `sms_initAnalysis`. -/
def initAnalysisRing (iMaxDelayFrames nGuides iMaxPeaks : Nat) : List SMS_AnalFrame :=
  List.replicate iMaxDelayFrames
    (clearAnalysisFrameBody nGuides iMaxPeaks (allocatedFrame nGuides iMaxPeaks))

/-- Analysis parameters with a freshly initialised ring, for a given hop size,
sound size and sound buffer. -/
def freshParams (iMaxDelayFrames nGuides iMaxPeaks : Nat) (sizeHop iSizeSound : Int)
    (sb : SMS_SndBuffer) : SMS_AnalParams :=
  { sizeHop := sizeHop,
    iSizeSound := iSizeSound,
    nGuides := nGuides,
    iMaxPeaks := iMaxPeaks,
    soundBuffer := sb,
    ppFrames := initAnalysisRing iMaxDelayFrames nGuides iMaxPeaks }

/-- The first `n` calls `sms_initFrame(1, ..)`, `sms_initFrame(2, ..)`, ... on
consecutive slots with one window size; the sequence stops at the first call
that does not return `SMS_OK` and hands back that call's result. -/
def initFrameSeq (sizeWindow : Int) : Nat → SMS_AnalParams → ErrorState → Option InitFrameResult
  | 0, p, e => some { ret := SMS_OK, params := p, err := e }
  | n + 1, p, e =>
    match initFrameSeq sizeWindow n p e with
    | none => none
    | some r =>
      if r.ret = SMS_OK then sms_initFrame (n + 1) r.params r.err sizeWindow else some r

/-! ## `sms_power2` -/

/-- The value of a 32-bit two's complement `int` holding the mathematical
integer `x` modulo `2^32`. -/
def wrap32 (x : Int) : Int := (x + 2 ^ 31) % 2 ^ 32 - 2 ^ 31

/-- The loop `while(n) { n >>= 1; p++; }` of `sms_power2`, run for at most
`fuel` iterations; the result is the final `p`, or `none` when the loop has not
ended. The shift is the arithmetic shift of a signed `int`. -/
def power2Loop : Nat → Int → Int → Option Int
  | 0, n, p => if n = 0 then some p else none
  | fuel + 1, n, p => if n = 0 then some p else power2Loop fuel (n >>> (1 : Nat)) (p + 1)

/-- The C expression `1<<p` on a 32-bit `int`: defined here for shift counts
`0 .. 31`, with the bit pattern read back as a signed value; `none` for any
other count. -/
def shiftLeftOne (p : Int) : Option Int :=
  if 0 ≤ p ∧ p < 32 then some (wrap32 (2 ^ p.toNat)) else none

/-- `sms_power2(n)`. A 32-bit `int` has no more than 32 bits to shift out, so
32 iterations are all the loop can use on a non-negative argument; on a
negative argument the arithmetic shift never reaches zero and the result is
`none`. -/
def sms_power2 (n : Int) : Option Int :=
  let N := n
  match power2Loop 32 n (-1) with
  | none => none
  | some p =>
    match shiftLeftOne p with
    | none => none
    | some v =>
      if v = N then some N /- n was a power of 2 -/
      else shiftLeftOne (p + 1) /- make the new value larger than n -/

/-! ## `sms_spectrum`, `sms_quickSpectrum` (`spectrum.c`)

Arrays of the spectrum engine are maps from the `int` offset to the value
stored there, so that every index expression of the C code is kept as it is
written. -/

/-- `SMS_OVERLAP_FACTOR`. -/
def SMS_OVERLAP_FACTOR : Int := 2

/-- A counted loop `for (i = lo; i < hi; i++) s = body i s`, given by the
number of iterations already made. -/
def loopFrom (lo : Int) (body : Int → σ → σ) : Nat → σ → σ
  | 0, s => s
  | k + 1, s => body (lo + k) (loopFrom lo body k s)

/-- The loop `for (i = lo; i < hi; i++)`. -/
def forLoop (lo hi : Int) (body : Int → σ → σ) (s : σ) : σ :=
  loopFrom lo body (hi - lo).toNat s

/-- The transform size of `sms_spectrum`,
`(int) pow(2.0, 1 + floor(log(SMS_OVERLAP_FACTOR * sizeWindow) / LOG2))`, with
the logarithm taken exactly: `floor(log2 x)` is `Nat.log 2 x` for `x ≥ 1`. For
`sizeWindow = 0` the C expression is `pow(2.0, -inf) = 0`; a negative
`sizeWindow` has no logarithm and is given 0 as well. -/
def spectrumSizeFft (sizeWindow : Int) : Int :=
  if sizeWindow ≤ 0 then 0
  else 2 ^ (1 + Nat.log 2 (SMS_OVERLAP_FACTOR * sizeWindow).toNat)

/-- `memset(p, 0, n * sizeof(float))` on an array given as a map. -/
def memsetMap {K : Type} [LinearOrderedField K] (n : Int) (buf : Int → K) : Int → K :=
  fun k => if 0 ≤ k ∧ k < n then 0 else buf k

/-- The two centring loops of `sms_spectrum`, writing at `base + index` into
`buf`: `base = 0` is the FFTW path, `base = 1` the `realft` path. -/
def centerLoops (base : Int) (window wave : Int → ℚ) (sizeWindow sizeFft : Int)
    (buf : Int → ℚ) : Int → ℚ :=
  let iMiddleWindow := (sizeWindow + 1) >>> (1 : Nat)
  let iOffset := sizeFft - (iMiddleWindow - 1)
  let buf := forLoop 0 (iMiddleWindow - 1)
    (fun i b => Function.update b (base + (iOffset + i)) (window i * wave i)) buf
  let iOffset := iMiddleWindow - 1
  forLoop 0 iMiddleWindow
    (fun i b => Function.update b (base + i) (window (iOffset + i) * wave (iOffset + i))) buf

/-- The transform input of the FFTW path of `sms_spectrum`:
`fftw.pWaveform` after the `memset` and the two centring loops. -/
def spectrumBufferFftw (window wave : Int → ℚ) (sizeWindow sizeFft : Int)
    (pWaveform : Int → ℚ) : Int → ℚ :=
  centerLoops 0 window wave sizeWindow sizeFft (memsetMap sizeFft pWaveform)

/-- The transform input of the `realft` path of `sms_spectrum`: the
`calloc(sizeFft+1, ..)` buffer after the two centring loops. Outside the
allocated block the map keeps the surrounding memory `mem`. -/
def spectrumBufferRealft (window wave : Int → ℚ) (sizeWindow sizeFft : Int)
    (mem : Int → ℚ) : Int → ℚ :=
  centerLoops 1 window wave sizeWindow sizeFft (memsetMap (sizeFft + 1) mem)

/-- The library functions and the macro the polar conversion uses, over a
field `K` of values: `sqrt` and `atan2` of libm and `TO_DB`, whose definition
is not part of the sources. -/
structure PolarOpsOver (K : Type) where
  sqrt : K → K
  atan2 : K → K → K
  TO_DB : K → K

/-- The library functions of the polar conversion over the rationals. -/
abbrev PolarOps := PolarOpsOver ℚ

/-- The magnitude and phase output arrays, over a field `K` of values. -/
structure PolarOutOver (K : Type) where
  mag : Int → K
  phase : Int → K

/-- The magnitude and phase output arrays over the rationals. -/
abbrev PolarOut := PolarOutOver ℚ

/-- Rectangular to polar conversion of the FFTW path of `sms_spectrum`:
`re i`, `im i` are `pSpectrum[i][0]`, `pSpectrum[i][1]`. Bins `1 .. sizeMag-1`
are guarded, then DC and Nyquist are written into entry 0. -/
def spectrumPolarFftw (ops : PolarOps) (re im : Int → ℚ) (sizeMag : Int)
    (out : PolarOut) : PolarOut :=
  let out := forLoop 1 sizeMag (fun i o =>
    let fReal := re i
    let fImag := im i
    if fReal ≠ 0 ∨ fImag ≠ 0 then
      { mag := Function.update o.mag i (ops.TO_DB (ops.sqrt (fReal * fReal + fImag * fImag))),
        phase := Function.update o.phase i (-ops.atan2 (-fImag) fReal) }
    else o) out
  /- DC and Nyquist -/
  let fReal := re 0
  let fImag := re sizeMag
  { mag := Function.update out.mag 0 (ops.TO_DB (ops.sqrt (fReal * fReal + fImag * fImag))),
    phase := Function.update out.phase 0 (ops.atan2 (-fImag) fReal) }

/-- Rectangular to polar conversion of the `realft` path of `sms_spectrum`:
`buf` is `pFBuffer` after `realft`, bin `i` is read from `buf[2i+1]`,
`buf[2i+2]`. -/
def spectrumPolarRealft (ops : PolarOps) (buf : Int → ℚ) (sizeMag : Int)
    (out : PolarOut) : PolarOut :=
  forLoop 0 sizeMag (fun i o =>
    let it2 := 2 * i
    let fReal := buf (it2 + 1)
    let fImag := buf (it2 + 2)
    if fReal ≠ 0 ∨ fImag ≠ 0 then
      { mag := Function.update o.mag i (ops.TO_DB (ops.sqrt (fReal * fReal + fImag * fImag))),
        phase := Function.update o.phase i (ops.atan2 (-fImag) fReal) }
    else o) out

/-- Rectangular to polar conversion of the FFTW path of `sms_quickSpectrum`;
`hasPhase` says whether `pFPhaseSpectrum` is a non-null pointer. -/
def quickPolarFftw {K : Type} [LinearOrderedField K] (ops : PolarOpsOver K) (re im : Int → K)
    (sizeMag : Int) (hasPhase : Bool) (out : PolarOutOver K) : PolarOutOver K :=
  let out := forLoop 1 sizeMag (fun i o =>
    let fReal := re i
    let fImag := im i
    if fReal ≠ 0 ∨ fImag ≠ 0 then
      { mag := Function.update o.mag i (ops.sqrt (fReal * fReal + fImag * fImag)),
        phase := if hasPhase then Function.update o.phase i (ops.atan2 fImag fReal)
                 else o.phase }
    else o) out
  /- DC and Nyquist -/
  let fReal := re 0
  let fImag := re sizeMag
  { mag := Function.update out.mag 0 (ops.sqrt (fReal * fReal + fImag * fImag)),
    phase := if hasPhase then Function.update out.phase 0 (ops.atan2 fImag fReal)
             else out.phase }

/-- Rectangular to polar conversion of the `realft` path of
`sms_quickSpectrum`: bin `i` is read from `buf[2i]`, `buf[2i+1]`. -/
def quickPolarRealft {K : Type} [LinearOrderedField K] (ops : PolarOpsOver K) (buf : Int → K)
    (sizeMag : Int) (hasPhase : Bool) (out : PolarOutOver K) : PolarOutOver K :=
  forLoop 0 sizeMag (fun i o =>
    let it2 := 2 * i
    let fReal := buf it2
    let fImag := buf (it2 + 1)
    if fReal ≠ 0 ∨ fImag ≠ 0 then
      { mag := Function.update o.mag i (ops.sqrt (fReal * fReal + fImag * fImag)),
        phase := if hasPhase then Function.update o.phase i (ops.atan2 fImag fReal)
                 else o.phase }
    else o) out

/-- `sms_spectrum`, FFTW path. `window` is `sms_window_spec` as
`sms_getWindow` filled it for this window size, `pWaveform` the plan's input
buffer before the call and `fftwf_execute` the planned transform, giving the
real and imaginary parts of `pSpectrum` from the input buffer. The result is
the returned `int` with the two output arrays. -/
def sms_spectrum_fftw (ops : PolarOps)
    (fftwf_execute : (Int → ℚ) → (Int → ℚ) × (Int → ℚ))
    (window pFWaveform : Int → ℚ) (sizeWindow : Int) (out : PolarOut)
    (pWaveform : Int → ℚ) : Int × PolarOut :=
  let sizeFft := spectrumSizeFft sizeWindow
  let sizeMag := sizeFft >>> (1 : Nat)
  let buf := spectrumBufferFftw window pFWaveform sizeWindow sizeFft pWaveform
  let spec := fftwf_execute buf
  (sizeMag, spectrumPolarFftw ops spec.1 spec.2 sizeMag out)

/-- `sms_spectrum`, `realft` path. `callocOk` tells whether the allocation of
the transform buffer succeeded, `realft` is the in-place transform
`realft(pFBuffer, sizeMag, 1)` and `mem` the memory around the buffer. -/
def sms_spectrum_realft (ops : PolarOps) (realft : (Int → ℚ) → Int → (Int → ℚ))
    (window pFWaveform : Int → ℚ) (sizeWindow : Int) (out : PolarOut)
    (callocOk : Bool) (mem : Int → ℚ) : Int × PolarOut :=
  let sizeFft := spectrumSizeFft sizeWindow
  let sizeMag := sizeFft >>> (1 : Nat)
  if callocOk = false then (-1, out)
  else
    let buf := spectrumBufferRealft window pFWaveform sizeWindow sizeFft mem
    let buf := realft buf sizeMag
    (sizeMag, spectrumPolarRealft ops buf sizeMag out)

/-- The windowing loop of `sms_quickSpectrum`:
`buf[i] = pFWindow[i] * pFWaveform[i]` for `i < sizeWindow`. -/
def quickWindowLoop {K : Type} [LinearOrderedField K] (pFWindow pFWaveform : Int → K)
    (sizeWindow : Int) (buf : Int → K) : Int → K :=
  forLoop 0 sizeWindow (fun i b => Function.update b i (pFWindow i * pFWaveform i)) buf

/-- `sms_quickSpectrum`, FFTW path; `hasPhase` says whether `pFPhaseSpectrum`
is a non-null pointer. -/
def sms_quickSpectrum_fftw {K : Type} [LinearOrderedField K] (ops : PolarOpsOver K)
    (fftwf_execute : (Int → K) → (Int → K) × (Int → K))
    (pFWaveform pFWindow : Int → K) (sizeWindow : Int) (out : PolarOutOver K) (hasPhase : Bool)
    (sizeFft : Int) (pWaveform : Int → K) : Int × PolarOutOver K :=
  let sizeMag := sizeFft >>> (1 : Nat)
  let buf := quickWindowLoop pFWindow pFWaveform sizeWindow (memsetMap sizeFft pWaveform)
  let spec := fftwf_execute buf
  (sizeMag, quickPolarFftw ops spec.1 spec.2 sizeMag hasPhase out)

/-- `sms_quickSpectrum`, `realft` path; the transform is called on
`pFBuffer-1` and `realft` here gives the contents of `pFBuffer` afterwards. -/
def sms_quickSpectrum_realft {K : Type} [LinearOrderedField K] (ops : PolarOpsOver K)
    (realft : (Int → K) → Int → (Int → K))
    (pFWaveform pFWindow : Int → K) (sizeWindow : Int) (out : PolarOutOver K) (hasPhase : Bool)
    (sizeFft : Int) (callocOk : Bool) (mem : Int → K) : Int × PolarOutOver K :=
  let sizeMag := sizeFft >>> (1 : Nat)
  if callocOk = false then (-1, out)
  else
    let buf := quickWindowLoop pFWindow pFWaveform sizeWindow (memsetMap (sizeFft + 1) mem)
    let buf := realft buf sizeMag
    (sizeMag, quickPolarRealft ops buf sizeMag hasPhase out)

/-- Stand-ins for libm at the one argument the degenerate bin evaluates:
`sqrt(0) = 0` and `atan2(0, 0) = 0` as in C. `TO_DB` is passed through. -/
def zeroBinOps : PolarOps :=
  { sqrt := fun x => if x = 0 then 0 else x,
    atan2 := fun y x => if y = 0 ∧ x = 0 then 0 else y,
    TO_DB := fun x => x }

/-! ## Bracket frames of the resynthesis loop (`smsSynth.c`) -/

/-- The macro `MIN(a,b)` of `sms.h`: `((a) < (b) ? (a) : (b))`. -/
def MIN (a b : Int) : Int := if a < b then a else b

/-- The left and right bracket frames computed in the `doInterp` branch of the
synthesis loop for the frame location `fFrameLoc`. -/
def bracketFrames (nFrames : Int) (fFrameLoc : ℚ) : Int × Int :=
  let iLeftFrame := MIN (nFrames - 1) ⌊fFrameLoc⌋
  let iRightFrame := if iLeftFrame < nFrames - 2 then 1 + iLeftFrame else iLeftFrame
  (iLeftFrame, iRightFrame)

/-- Parameters for the examples: a fresh ring of three slots, hop 100, a sound
of 10000 samples and the sound buffer `sms_initAnalysis` sets up for a delay
of two frames. -/
def exampleParams : SMS_AnalParams :=
  freshParams 3 2 2 100 10000 { sizeBuffer := 8390, iMarker := -8390, iFirstGood := 8390 }

/-- The error variables at program start: no message, `error_status = 0`. -/
def noError : ErrorState := { error_message := "", error_status := 0 }

/-- The example ring with a sound buffer of three samples starting at sample
`-2`: it holds the samples `-2, -1, 0`. -/
def shortBufferParams : SMS_AnalParams :=
  freshParams 3 2 2 100 10000 { sizeBuffer := 3, iMarker := -2, iFirstGood := 3 }

/-- The example ring for an empty sound (`iSizeSound = 0`). -/
def emptySoundParams : SMS_AnalParams :=
  freshParams 3 2 2 100 0 { sizeBuffer := 8390, iMarker := -8390, iFirstGood := 8390 }

/-- The specification's sequencing example: a fresh ring of 101 slots for a
sound of 10000 samples analysed with hop 100; the sound buffer is the one
`sms_initAnalysis` sets up (`101 * 100 + SMS_MAX_WINDOW` samples, marker at
minus that size). -/
def sequencerParams : SMS_AnalParams :=
  freshParams 101 2 2 100 10000 { sizeBuffer := 18290, iMarker := -18290, iFirstGood := 18290 }

/-- An array holding zero everywhere. -/
def zeroMap : Int → ℚ := fun _ => 0

/-- Output arrays holding zero everywhere. -/
def zeroOut : PolarOut := { mag := zeroMap, phase := zeroMap }

/-- A sample window for the examples, `1, 2, 3, ...`. -/
def rampWindow : Int → ℚ := fun i => (i : ℚ) + 1

/-- A sample waveform for the examples, `1, 3, 5, ...`. -/
def rampWave : Int → ℚ := fun i => 2 * (i : ℚ) + 1

/-- Output arrays holding one everywhere. -/
def onesOut : PolarOut := { mag := fun _ => 1, phase := fun _ => 1 }

/-- A transform whose output is zero in every bin. -/
def zeroSpectrum : (Int → ℚ) → (Int → ℚ) × (Int → ℚ) := fun _ => (zeroMap, zeroMap)

/-! ## Synthesis set-up and sample scheduling (`sms_initSynth`, `smsSynth.c`) -/

/-- The fields of the file header `SMS_Header` that the synthesis set-up and
the scheduler read. -/
structure SMS_Header where
  nFrames : Int
  iSamplingRate : Int
  iFrameRate : Int
  iStochasticType : Int
  deriving DecidableEq, Repr

/-- The scalar fields of `SMS_SynthParams` that `sms_initSynth` and the
synthesis loop read or write (the scratch buffers are left out). -/
structure SMS_SynthParams where
  iSamplingRate : Int
  sizeHop : Int
  iOriginalSRate : Int
  origSizeHop : Int
  iStochasticType : Int
  deriving DecidableEq, Repr

/-- What `sms_initSynth` leaves behind: the returned `int`, the synthesis
parameters and the error variables. -/
structure InitSynthResult where
  ret : Int
  params : SMS_SynthParams
  err : ErrorState
  deriving DecidableEq, Repr

/-- `sms_initSynth(pSmsHeader, pSynthParams)`. `approxEnvelopeOk` tells
whether the last allocation, the only one the function checks, succeeded. The
result is `none` where the C code has no defined result: a division by a zero
frame rate, or `sms_power2` on a hop size it does not handle. -/
def sms_initSynth (pSmsHeader : SMS_Header) (pSynthParams : SMS_SynthParams)
    (e : ErrorState) (approxEnvelopeOk : Bool) : Option InitSynthResult :=
  if pSmsHeader.iFrameRate = 0 then none
  else
    /- set synthesis parameters from arguments and header -/
    let s := { pSynthParams with iOriginalSRate := pSmsHeader.iSamplingRate }
    let s := { s with origSizeHop := s.iOriginalSRate.tdiv pSmsHeader.iFrameRate }
    let s := { s with iStochasticType := pSmsHeader.iStochasticType }
    let s := if s.iSamplingRate ≤ 0 then { s with iSamplingRate := s.iOriginalSRate } else s
    /- make sure sizeHop is something to the power of 2 -/
    match sms_power2 s.sizeHop with
    | none => none
    | some sizeHop =>
      let s := if sizeHop ≠ s.sizeHop then { s with sizeHop := sizeHop } else s
      if approxEnvelopeOk = false then
        some { ret := -1, params := s,
               err := sms_error "Could not allocate memory for spectral approximation envelope" e }
      else some { ret := SMS_OK, params := s, err := e }

/-- The conversion `(long) x` or `(int) x` of a floating value: truncation
towards zero. -/
def truncToInt (q : ℚ) : Int := if 0 ≤ q then ⌊q⌋ else ⌈q⌉

/-! ## Rounding of the floating types

The type `float` (and `sfloat`, which is `float` unless `DOUBLE_PRECISION` is
defined) holds binary numbers with a significand of 24 bits. Every conversion
to `float` and every operation on `float` operands rounds its exact result to
the nearest such number, ties to the even significand. The models of the
floating computations below take this rounding as the parameter `fl`: `f32`
is the rounding of IEEE single precision, the identity is exact arithmetic.
Operations carried out in `double` are taken as exact. -/

/-- Rounding to the nearest integer, ties to the even one. -/
def roundHalfEven {K : Type} [LinearOrderedField K] [FloorRing K] (x : K) : Int :=
  if x - (⌊x⌋ : K) < 1 / 2 then ⌊x⌋
  else if 1 / 2 < x - (⌊x⌋ : K) then ⌊x⌋ + 1
  else if ⌊x⌋ % 2 = 0 then ⌊x⌋ else ⌊x⌋ + 1

/-- The exponent of the unit in the last place of the single precision numbers
around `q`: `floor(log2 |q|) - 23`, and `-149` in the subnormal range below
`2^-126`. -/
def ulpExp32 {K : Type} [LinearOrderedField K] [FloorRing K] (q : K) : Int :=
  max (Int.log 2 |q|) (-126) - 23

/-- Rounding to IEEE single precision: the nearest multiple of the unit in the
last place, ties to even. Overflow to infinity (from `2^128` on) is not
modelled. -/
def f32 {K : Type} [LinearOrderedField K] [FloorRing K] (q : K) : K :=
  if q = 0 then 0 else (roundHalfEven (q / 2 ^ ulpExp32 q) : K) * 2 ^ ulpExp32 q

/-! ## The sample schedule of `smsSynth.c` -/

/-- The ratio `fFsRatio = (float) synthParams.iSamplingRate /
pSmsHeader->iSamplingRate` of `smsSynth.c`: both rates are converted to
`float` and the quotient is a `float`. -/
def smsSynth_fFsRatio (fl : ℚ → ℚ) (pSmsHeader : SMS_Header) (synthParams : SMS_SynthParams) :
    ℚ :=
  fl (fl (synthParams.iSamplingRate : ℚ) / fl (pSmsHeader.iSamplingRate : ℚ))

/-- The number of output samples of `smsSynth.c`:
`nSamples = pSmsHeader->nFrames * synthParams.origSizeHop * timeFactor * fFsRatio`.
The product of the two `int`s is converted to `float`, the two products with
the `float` factors are `float` products, and the result is converted to
`long`. -/
def smsSynth_nSamples (fl : ℚ → ℚ) (pSmsHeader : SMS_Header) (synthParams : SMS_SynthParams)
    (timeFactor : ℚ) : Int :=
  truncToInt (fl (fl (fl ((pSmsHeader.nFrames * synthParams.origSizeHop : Int) : ℚ) *
    timeFactor) * smsSynth_fFsRatio fl pSmsHeader synthParams))

/-- The header of the specification's scheduling example: 100 frames analysed
at 44100 Hz with 100 frames per second, so that the original hop is 441. -/
def exampleHeader : SMS_Header :=
  { nFrames := 100, iSamplingRate := 44100, iFrameRate := 100, iStochasticType := 0 }

/-- The synthesis parameters `smsSynth.c` starts from when no option is given:
sampling rate 0 (take the original one) and hop `SMS_MIN_SIZE_FRAME = 128`;
the other fields are set by `sms_initSynth`. -/
def defaultSynthParams : SMS_SynthParams :=
  { iSamplingRate := 0, sizeHop := 128, iOriginalSRate := 0, origSizeHop := 0,
    iStochasticType := 0 }

/-- A long analysis for the examples: 69888 frames analysed at 44100 Hz with
100 frames per second. -/
def longHeader : SMS_Header :=
  { nFrames := 69888, iSamplingRate := 44100, iFrameRate := 100, iStochasticType := 0 }

/-- The synthesis parameters `sms_initSynth` produces from `longHeader` for an
output rate of 48000 Hz and an output hop of 4096: original hop 441. -/
def longSynthParams : SMS_SynthParams :=
  { iSamplingRate := 48000, sizeHop := 4096, iOriginalSRate := 44100, origSizeHop := 441,
    iStochasticType := 0 }

/-! ## Decibel conversion (`sms_magToDB`, `sms_dBToMag`, `sms_setMagThresh`)

The conversions use `log` and `pow` of libm, so they are embedded over an
arbitrary ordered field `K` of values with the library functions as
parameters; the real numbers with the real logarithm and power are the
intended reading. -/

/-- The functions of libm that the decibel conversions call, and the constant
`LOG10` of `sms.h` (`2.3025850929940459`, "natural logarithm of 10"), which
exact arithmetic reads as the logarithm of 10. -/
structure Libm (K : Type) where
  log : K → K
  pow : K → K → K
  LOG10 : K

/-- The file-scope variables `mag_thresh` and `inv_mag_thresh` of `sms.c`. -/
structure MagThresh (K : Type) where
  mag_thresh : K
  inv_mag_thresh : K

/-- The initial values of `mag_thresh` and `inv_mag_thresh`. -/
def initialMagThresh {K : Type} [LinearOrderedField K] : MagThresh K :=
  { mag_thresh := 0.00001, inv_mag_thresh := 100000 }

/-- `sms_setMagThresh(x)` in exact arithmetic (`sms_setMagThresh_fl` is the
function with the rounding of `sfloat`): the threshold is limited to `0.00001`
from below and its inverse is stored with it. -/
def sms_setMagThresh {K : Type} [LinearOrderedField K] (x : K) : MagThresh K :=
  let mag_thresh : K := if x < 0.00001 then 0.00001 else x
  { mag_thresh := mag_thresh, inv_mag_thresh := 1 / mag_thresh }

/-- The macro `TWENTY_OVER_LOG10` of `sms.c`: `(20. / LOG10)`. -/
def TWENTY_OVER_LOG10 {K : Type} [LinearOrderedField K] (m : Libm K) : K := 20 / m.LOG10

/-- `sms_magToDB(x)` in exact arithmetic (`sms_magToDB_fl` is the function with
the rounding of `sfloat`). -/
def sms_magToDB {K : Type} [LinearOrderedField K] (m : Libm K) (st : MagThresh K) (x : K) : K :=
  if x < st.mag_thresh then 0
  else TWENTY_OVER_LOG10 m * m.log (x * st.inv_mag_thresh)

/-- `sms_dBToMag(x)`. -/
def sms_dBToMag {K : Type} [LinearOrderedField K] (m : Libm K) (st : MagThresh K) (x : K) : K :=
  if x < 0.00001 then 0
  else st.mag_thresh * m.pow 10 (x * 0.05)

/-- `sms_setMagThresh(x)` with the rounding `fl` of `sfloat`: the `double`
constant `0.00001` is rounded when it is stored in `mag_thresh`, and the
`double` quotient `1. / mag_thresh` is rounded when it is stored in
`inv_mag_thresh`. -/
def sms_setMagThresh_fl {K : Type} [LinearOrderedField K] (fl : K → K) (x : K) : MagThresh K :=
  let mag_thresh : K := if x < 0.00001 then fl 0.00001 else x
  { mag_thresh := mag_thresh, inv_mag_thresh := fl (1 / mag_thresh) }

/-- `sms_magToDB(x)` with the rounding `fl` of `sfloat`: the product
`x * inv_mag_thresh` is an `sfloat` product, the logarithm and the product with
`TWENTY_OVER_LOG10` are `double` operations, and the returned value is
converted to `sfloat`. -/
def sms_magToDB_fl {K : Type} [LinearOrderedField K] (fl : K → K) (m : Libm K)
    (st : MagThresh K) (x : K) : K :=
  if x < st.mag_thresh then 0
  else fl (TWENTY_OVER_LOG10 m * m.log (fl (x * st.inv_mag_thresh)))

/-! ## `sms_fundDeviation` and `sms_sizeNextWindow` -/

/-- The first loop of `sms_fundDeviation`, "get the sum of the past few
fundamentals", from the counter value `i` with the partial sum `fSum`, run for
at most `fuel` iterations. The outer result is `none` when a frame outside the
ring is read (or the fuel does not suffice); the inner result is `none` when
the loop leaves the function with `return -1`, and the sum otherwise. -/
def fundSumLoop (ppFrames : List SMS_AnalFrame) (minGoodFrames iCurrentFrame : Int) :
    Nat → Nat → ℚ → Option (Option ℚ)
  | 0, i, fSum =>
    if (i : Int) < minGoodFrames ∧ iCurrentFrame - i ≥ 0 then none else some (some fSum)
  | fuel + 1, i, fSum =>
    if (i : Int) < minGoodFrames ∧ iCurrentFrame - i ≥ 0 then
      match ppFrames[(iCurrentFrame - i).toNat]? with
      | none => none
      | some frame =>
        let fFund := frame.fFundamental
        if fFund ≤ 0 then some none
        else fundSumLoop ppFrames minGoodFrames iCurrentFrame fuel (i + 1) (fSum + fFund)
    else some (some fSum)

/-- The second loop of `sms_fundDeviation`, "get the deviation from the
average", from the counter value `i` with the partial sum `fDeviation`. -/
def fundDevLoop (ppFrames : List SMS_AnalFrame) (minGoodFrames iCurrentFrame : Int)
    (fAverage : ℚ) : Nat → Nat → ℚ → Option ℚ
  | 0, i, fDeviation =>
    if (i : Int) < minGoodFrames ∧ iCurrentFrame - i ≥ 0 then none else some fDeviation
  | fuel + 1, i, fDeviation =>
    if (i : Int) < minGoodFrames ∧ iCurrentFrame - i ≥ 0 then
      match ppFrames[(iCurrentFrame - i).toNat]? with
      | none => none
      | some frame =>
        fundDevLoop ppFrames minGoodFrames iCurrentFrame fAverage fuel (i + 1)
          (fDeviation + |frame.fFundamental - fAverage|)
    else some fDeviation

/-- `sms_fundDeviation(pAnalParams, iCurrentFrame)`. Each loop makes at most
`minGoodFrames` iterations, which is the fuel given. The result is `none`
where the C code has no number to return: a frame outside the ring is read,
or the final division is by zero (no frame was examined). -/
def sms_fundDeviation (pAnalParams : SMS_AnalParams) (iCurrentFrame : Int) : Option ℚ :=
  if pAnalParams.minGoodFrames < 1 then some (-1)
  else
    /- get the sum of the past few fundamentals -/
    match fundSumLoop pAnalParams.ppFrames pAnalParams.minGoodFrames iCurrentFrame
        pAnalParams.minGoodFrames.toNat 0 0 with
    | none => none
    | some none => some (-1)
    | some (some fSum) =>
      /- find the average -/
      let fAverage := fSum / (pAnalParams.minGoodFrames : ℚ)
      /- get the deviation from the average -/
      match fundDevLoop pAnalParams.ppFrames pAnalParams.minGoodFrames iCurrentFrame fAverage
          pAnalParams.minGoodFrames.toNat 0 0 with
      | none => none
      | some fDeviation =>
        /- return the deviation from the average -/
        if (pAnalParams.minGoodFrames : ℚ) * fAverage = 0 then none
        else some (fDeviation / ((pAnalParams.minGoodFrames : ℚ) * fAverage))

/-- `sms_sizeNextWindow(iCurrentFrame, pAnalParams)` in exact arithmetic (no
rounding of the `sfloat` operations; `sms_sizeNextWindow_fl` is the function
with the rounding). The function reads the slots `iCurrentFrame` and
`iCurrentFrame - 1`; the result is `none` when either is outside the ring. A
division by a zero fundamental gives an infinite quotient in C, which is not
`<= .2`. -/
def sms_sizeNextWindow (iCurrentFrame : Nat) (pAnalParams : SMS_AnalParams) : Option Int :=
  match iCurrentFrame with
  | 0 => none
  | i + 1 =>
    match pAnalParams.ppFrames[i + 1]?, pAnalParams.ppFrames[i]? with
    | some cur, some prev =>
      let fFund := cur.fFundamental
      let fPrevFund := prev.fFundamental
      let sizeWindow : Int :=
        /- if the previous fundamental was stable use it to set the window size -/
        if fPrevFund > 0 ∧ fFund ≠ 0 ∧ |fPrevFund - fFund| / fFund ≤ 0.2 then
          truncToInt (((pAnalParams.iSamplingRate : ℚ) / fFund) *
            pAnalParams.fSizeWindow * 0.5) * 2 + 1
        /- otherwise use the default size window -/
        else pAnalParams.iDefaultSizeWindow
      some (if sizeWindow > SMS_MAX_WINDOW then SMS_MAX_WINDOW else sizeWindow)
    | _, _ => none

/-- `sms_sizeNextWindow(iCurrentFrame, pAnalParams)` with the rounding `fl` of
`sfloat`: the difference `fPrevFund - fFund`, the conversion of
`iSamplingRate`, the quotient `iSamplingRate / fFund` and its product with
`fSizeWindow` are `sfloat` results; `fabs`, the division by `fFund` in the test
and the product with `.5` are `double` operations. The result is `none` when a
slot read is outside the ring. -/
def sms_sizeNextWindow_fl (fl : ℚ → ℚ) (iCurrentFrame : Nat) (pAnalParams : SMS_AnalParams) :
    Option Int :=
  match iCurrentFrame with
  | 0 => none
  | i + 1 =>
    match pAnalParams.ppFrames[i + 1]?, pAnalParams.ppFrames[i]? with
    | some cur, some prev =>
      let fFund := cur.fFundamental
      let fPrevFund := prev.fFundamental
      let sizeWindow : Int :=
        /- if the previous fundamental was stable use it to set the window size -/
        if fPrevFund > 0 ∧ fFund ≠ 0 ∧ |fl (fPrevFund - fFund)| / fFund ≤ 0.2 then
          truncToInt (fl (fl (fl (pAnalParams.iSamplingRate : ℚ) / fFund) *
            pAnalParams.fSizeWindow) * 0.5) * 2 + 1
        /- otherwise use the default size window -/
        else pAnalParams.iDefaultSizeWindow
      some (if sizeWindow > SMS_MAX_WINDOW then SMS_MAX_WINDOW else sizeWindow)
    | _, _ => none

/-- A frame of the fresh ring with the fundamental set to `f`. -/
def frameWithFund (f : ℚ) : SMS_AnalFrame :=
  { clearAnalysisFrameBody 2 2 (allocatedFrame 2 2) with fFundamental := f }

/-- The example parameters with a ring whose slots hold the given
fundamentals. -/
def fundParams (fs : List ℚ) : SMS_AnalParams :=
  { exampleParams with ppFrames := fs.map frameWithFund }

/-- The example ring with the fundamental 240.625 in both slots and
`fSizeWindow = 5.5` (sampling rate 44100). -/
def roundingWindowParams : SMS_AnalParams :=
  { fundParams [1925 / 8, 1925 / 8] with fSizeWindow := 11 / 2 }

/-! ## `sms_clearAnalysisFrame` -/

/-- `sms_clearAnalysisFrame(iCurrentFrame, pAnalParams)`: the frame of the
addressed slot is reset and 0 is returned. The result is `none` when the slot
is outside the ring. -/
def sms_clearAnalysisFrame (iCurrentFrame : Nat) (pAnalParams : SMS_AnalParams) :
    Option (Int × SMS_AnalParams) :=
  match pAnalParams.ppFrames[iCurrentFrame]? with
  | none => none
  | some currentFrame =>
    some (0, { pAnalParams with
      ppFrames := pAnalParams.ppFrames.set iCurrentFrame
        (clearAnalysisFrameBody pAnalParams.nGuides pAnalParams.iMaxPeaks currentFrame) })

/-- A frame in the middle of an analysis: two guides and two peaks with
non-zero entries, fundamental 220, status `SMS_FRAME_DONE`. -/
def busyFrame : SMS_AnalFrame :=
  { iFrameSample := 500,
    iFrameSize := 201,
    iFrameNum := 6,
    pSpectralPeaks := [{ fFreq := 220, fMag := 60, fPhase := 1 },
                       { fFreq := 440, fMag := 50, fPhase := 2 }],
    nPeaks := 2,
    fFundamental := 220,
    deterministic := { pFSinFreq := [220, 440], pFSinAmp := [60, 50], pFSinPha := [1, 2] },
    iStatus := SMS_FRAME_DONE }

/-- The example parameters with a ring of three busy frames. -/
def busyParams : SMS_AnalParams :=
  { exampleParams with ppFrames := [busyFrame, busyFrame, busyFrame] }

/-! ## Error reporting (`sms_errorCheck`, `sms_errorString`) -/

/-- `sms_errorCheck()`: the value of `error_status`; the error variables are
handed back as they were. -/
def sms_errorCheck (e : ErrorState) : Int × ErrorState := (e.error_status, e)

/-- `sms_errorString()`: when the flag is set it is cleared and the message is
returned, otherwise `NULL` (`none`) is returned. -/
def sms_errorString (e : ErrorState) : Option String × ErrorState :=
  if e.error_status ≠ 0 then (some e.error_message, { e with error_status := 0 })
  else (none, e)

/-! ## The option `-d` of `smsSynth` -/

/-- `SMS_DET_IFFT`, the first member of `enum SMS_DetSynthType`. -/
def SMS_DET_IFFT : Int := 0

/-- `SMS_DET_SIN`, the second member of `enum SMS_DetSynthType`. -/
def SMS_DET_SIN : Int := 1

/-- The case `'d'` of the option switch of `smsSynth.c` for an argument that
`sscanf` reads as the integer `detSynthType`: `none` stands for the error
message followed by `exit(1)`, otherwise the result is the new value of
`synthParams.iDetSynthType`. -/
def smsSynth_optionD (detSynthType : Int) : Option Int :=
  if detSynthType < 1 ∨ detSynthType > 2 then none
  else some detSynthType

/-! ## `sms_initAnalysis` -/

/-- The fields of the sound header `SMS_SndHeader` that `sms_initAnalysis`
reads. -/
structure SMS_SndHeader where
  nSamples : Int
  iSamplingRate : Int
  deriving DecidableEq, Repr

/-- What `sms_initAnalysis` leaves behind: the returned `int`, the analysis
parameters and the error variables. -/
structure InitAnalysisResult where
  ret : Int
  params : SMS_AnalParams
  err : ErrorState
  deriving DecidableEq, Repr

/-- `sms_initAnalysis(pAnalParams, pSoundHeader)` on the fields embedded in
`SMS_AnalParams`: hop size, sound size, sampling rate, default window size,
sound buffer and the ring of frames (`nFrames`, the peak detection parameters,
the residual and the guides are left out). `allocOk` tells whether the
allocations succeed; a failure is reported as the first one, that of the sound
buffer. The result is `none` when a floating division is by zero (frame rate
or default fundamental equal to 0), where the conversion to `int` has no
defined value. -/
def sms_initAnalysis (pAnalParams : SMS_AnalParams) (pSoundHeader : SMS_SndHeader)
    (e : ErrorState) (allocOk : Bool) : Option InitAnalysisResult :=
  if pAnalParams.iFrameRate = 0 ∨ pAnalParams.fDefaultFundamental = 0 then none
  else
    /- define the hopsize for each record -/
    let p := { pAnalParams with
      sizeHop := truncToInt ((pSoundHeader.iSamplingRate : ℚ) / (pAnalParams.iFrameRate : ℚ)) }
    let p := { p with iSizeSound := pSoundHeader.nSamples }
    let p := { p with iSamplingRate := pSoundHeader.iSamplingRate }
    /- set the default size window to an odd length -/
    let iDefaultSizeWindow : Int :=
      truncToInt (((p.iSamplingRate : ℚ) / p.fDefaultFundamental) * p.fSizeWindow / 2) * 2 + 1
    let p := { p with iDefaultSizeWindow := iDefaultSizeWindow }
    let sizeBuffer : Int := (p.iMaxDelayFrames * p.sizeHop) + SMS_MAX_WINDOW
    /- sound buffer -/
    if allocOk = false then
      some { ret := -1, params := p, err := sms_error "could not allocate memory" e }
    else
      let pSoundBuf : SMS_SndBuffer :=
        { sizeBuffer := sizeBuffer, iMarker := -sizeBuffer, iFirstGood := sizeBuffer }
      let p := { p with soundBuffer := pSoundBuf }
      /- initialize the frame pointers and allocate memory -/
      let ring := initAnalysisRing p.iMaxDelayFrames.toNat p.nGuides p.iMaxPeaks
      let p := { p with ppFrames := ring }
      some { ret := 0, params := p, err := e }

/-- A sound of 10000 samples at 44100 Hz. -/
def exampleSndHeader : SMS_SndHeader := { nSamples := 10000, iSamplingRate := 44100 }

/-! ## The synthesis loop of `smsSynth.c` -/

/-- The state of the synthesis loop that its control depends on: the sample
counter `iSample`, the number of samples handed to `sms_writeSound` so far and
the number of iterations made. -/
structure SynthLoopState where
  iSample : Int
  written : Int
  iterations : Nat
  deriving DecidableEq, Repr

/-- The loop `while (iSample < nSamples) { ...; sms_writeSound (pFSynthesis,
synthParams.sizeHop); iSample += synthParams.sizeHop; }` of `smsSynth.c`, run
for at most `fuel` iterations; `none` when the loop has not ended by then. -/
def smsSynth_loop (sizeHop nSamples : Int) : Nat → SynthLoopState → Option SynthLoopState
  | 0, s => if s.iSample < nSamples then none else some s
  | fuel + 1, s =>
    if s.iSample < nSamples then
      smsSynth_loop sizeHop nSamples fuel
        { iSample := s.iSample + sizeHop, written := s.written + sizeHop,
          iterations := s.iterations + 1 }
    else some s

/-- The index, relative to the start of the transform buffer, at which the
centring loops of `sms_spectrum` store sample `j` of the windowed frame: the
first loop stores the samples before `iMiddleWindow - 1` at the end of the
buffer, the second loop stores the samples from `iMiddleWindow - 1` on at the
start. -/
def centrePos (sizeWindow sizeFft j : Int) : Int :=
  let iMiddleWindow := (sizeWindow + 1) >>> (1 : Nat)
  if j < iMiddleWindow - 1 then sizeFft - (iMiddleWindow - 1) + j
  else j - (iMiddleWindow - 1)

/-! ## `sms_init` and `sms_free` -/

/-- The macro `SIZE_TABLES` of `sms.c`. -/
def SIZE_TABLES : Int := 4096

/-- The table helpers `sms_init` and `sms_free` call, which are declared in
`sms.h` but defined outside the sources at hand, acting on a state `T` of the
tables: `sms_prepSine` and `sms_prepSinc` return their status together with
the new table state, `sms_clearSine` and `sms_clearSinc` return the new table
state. `init_gen_rand` is the seeding call compiled in under
`MERSENNE_TWISTER`; in a build without it, it is the identity. -/
structure TableOps (T : Type) where
  sms_prepSine : Int → T → Int × T
  sms_prepSinc : Int → T → Int × T
  sms_clearSine : T → T
  sms_clearSinc : T → T
  init_gen_rand : Int → T → T

/-- The file-scope state `sms_init` works on: the flag `initIsDone`, the error
variables and the state of the tables. -/
structure SmsGlobals (T : Type) where
  initIsDone : Int
  err : ErrorState
  tables : T

/-- `sms_init`: when `initIsDone` is zero, set it to one, then prepare the sine
table and the sinc table, returning `-1` with an error message as soon as one
preparation reports a nonzero status; otherwise return `0`. -/
def sms_init {T : Type} (ops : TableOps T) (g : SmsGlobals T) : Int × SmsGlobals T :=
  if g.initIsDone = 0 then
    let sine := ops.sms_prepSine SIZE_TABLES g.tables
    if sine.1 ≠ 0 then
      (-1, ⟨1, sms_error "cannot allocate memory for sine table" g.err, sine.2⟩)
    else
      let sinc := ops.sms_prepSinc SIZE_TABLES sine.2
      if sinc.1 ≠ 0 then
        (-1, ⟨1, sms_error "cannot allocate memory for sinc table" g.err, sinc.2⟩)
      else (0, ⟨1, g.err, ops.init_gen_rand 1234 sinc.2⟩)
  else (0, g)

/-- `sms_free`: reset `initIsDone` and clear both tables. -/
def sms_free {T : Type} (ops : TableOps T) (g : SmsGlobals T) : SmsGlobals T :=
  ⟨0, g.err, ops.sms_clearSinc (ops.sms_clearSine g.tables)⟩

/-- Example table helpers on a counter of preparation calls: the first sine
preparation fails, every later preparation succeeds, clearing and seeding
leave the counter as it is. -/
def failOnceOps : TableOps Nat :=
  ⟨fun _ t => (if t = 0 then 1 else 0, t + 1), fun _ t => (0, t + 1), id, id, fun _ t => t⟩

/-- The example start state: nothing initialised, no error, no preparation
call made. -/
def freshGlobals : SmsGlobals Nat := ⟨0, noError, 0⟩

/-! ## `sms_invQuickSpectrum` -/

theorem sms_initFrame_eq (i : Nat) (p : SMS_AnalParams) (e : ErrorState) (w : Int)
    (prev cur : SMS_AnalFrame) (hprev : p.ppFrames[i]? = some prev)
    (hcur : p.ppFrames[i + 1]? = some cur) :
    sms_initFrame (i + 1) p e w =
      some { ret := (initFrameBody p e prev cur w).1,
             params := { p with ppFrames := p.ppFrames.set (i + 1) (initFrameBody p e prev cur w).2.1 },
             err := (initFrameBody p e prev cur w).2.2 } := by
  simp [sms_initFrame, hprev, hcur]

theorem initFrameBody_sample (p : SMS_AnalParams) (e : ErrorState) (prev cur : SMS_AnalFrame)
    (w : Int) :
    (initFrameBody p e prev cur w).2.1.iFrameSample =
      if prev.iFrameNum + 1 = 1 then 0 else prev.iFrameSample + p.sizeHop := by
  unfold initFrameBody
  by_cases h : prev.iFrameNum + 1 = 1 <;> simp only [h, if_true, if_false] <;>
    split_ifs <;> rfl

theorem initFrameBody_runoff (p : SMS_AnalParams) (e : ErrorState) (prev cur : SMS_AnalFrame)
    (w : Int)
    (h : p.soundBuffer.iMarker > (initFrameBody p e prev cur w).2.1.iFrameSample - halfWindow w) :
    (initFrameBody p e prev cur w).1 = -1 ∧
      (initFrameBody p e prev cur w).2.2 =
        sms_error "sms_initFrame: runoff on the sound buffer " e ∧
      (initFrameBody p e prev cur w).2.1.iStatus = cur.iStatus ∧
      (initFrameBody p e prev cur w).2.1.iFrameNum = prev.iFrameNum + 1 ∧
      (initFrameBody p e prev cur w).2.1.iFrameSize = w := by
  rw [initFrameBody_sample] at h
  unfold initFrameBody
  dsimp only
  split_ifs at h ⊢ <;> first | (exfalso; dsimp only at *; omega) | simp [SMS_OK]

theorem initFrameBody_end (p : SMS_AnalParams) (e : ErrorState) (prev cur : SMS_AnalFrame)
    (w : Int)
    (h : ¬ p.soundBuffer.iMarker > (initFrameBody p e prev cur w).2.1.iFrameSample - halfWindow w)
    (h2 : (initFrameBody p e prev cur w).2.1.iFrameSample + halfWindow w ≥ p.iSizeSound) :
    (initFrameBody p e prev cur w).1 = SMS_OK ∧
      (initFrameBody p e prev cur w).2.2 = e ∧
      (initFrameBody p e prev cur w).2.1.iStatus = SMS_FRAME_END ∧
      (initFrameBody p e prev cur w).2.1.iFrameNum = -1 ∧
      (initFrameBody p e prev cur w).2.1.iFrameSize = 0 := by
  rw [initFrameBody_sample] at h h2
  unfold initFrameBody
  dsimp only
  split_ifs at h h2 ⊢ <;> first | (exfalso; dsimp only at *; omega) | simp [SMS_OK]

theorem initFrameBody_ready (p : SMS_AnalParams) (e : ErrorState) (prev cur : SMS_AnalFrame)
    (w : Int)
    (h : ¬ p.soundBuffer.iMarker > (initFrameBody p e prev cur w).2.1.iFrameSample - halfWindow w)
    (h2 : ¬ (initFrameBody p e prev cur w).2.1.iFrameSample + halfWindow w ≥ p.iSizeSound) :
    (initFrameBody p e prev cur w).1 = SMS_OK ∧
      (initFrameBody p e prev cur w).2.2 = e ∧
      (initFrameBody p e prev cur w).2.1.iStatus = SMS_FRAME_READY ∧
      (initFrameBody p e prev cur w).2.1.iFrameNum = prev.iFrameNum + 1 ∧
      (initFrameBody p e prev cur w).2.1.iFrameSize = w := by
  rw [initFrameBody_sample] at h h2
  unfold initFrameBody
  dsimp only
  split_ifs at h h2 ⊢ <;> first | (exfalso; dsimp only at *; omega) | simp [SMS_OK]

theorem sms_initFrame_spec (i : Nat) (p : SMS_AnalParams) (e : ErrorState) (w : Int)
    (hi : 1 ≤ i) (hlen : i < p.ppFrames.length) :
    ∃ prev cur r, p.ppFrames[i - 1]? = some prev ∧ p.ppFrames[i]? = some cur ∧
      sms_initFrame i p e w = some r ∧
      r.ret = (initFrameBody p e prev cur w).1 ∧
      r.err = (initFrameBody p e prev cur w).2.2 ∧
      r.params = { p with ppFrames := p.ppFrames.set i (initFrameBody p e prev cur w).2.1 } ∧
      r.params.ppFrames[i]? = some (initFrameBody p e prev cur w).2.1 ∧
      r.params.ppFrames[i - 1]? = some prev := by
  obtain ⟨j, rfl⟩ : ∃ j, i = j + 1 := ⟨i - 1, by omega⟩
  have hj : j < p.ppFrames.length := by omega
  refine ⟨p.ppFrames[j], p.ppFrames[j + 1], _, ?_, ?_,
    sms_initFrame_eq j p e w _ _ ?_ ?_, rfl, rfl, rfl, ?_, ?_⟩
  · simp [List.getElem?_eq_getElem hj]
  · exact List.getElem?_eq_getElem hlen
  · exact List.getElem?_eq_getElem hj
  · exact List.getElem?_eq_getElem hlen
  · simp [List.getElem?_set, hlen]
  · simp [List.getElem?_set, List.getElem?_eq_getElem hj]

/-- C1: a call of `sms_initFrame` on a slot `i ≥ 1` of the ring returns, and
when it does not report runoff (result other than `-1`) the slot's status is
`SMS_FRAME_END` if and only if `center + (w+1)/2 ≥ iSizeSound`, with `center`
the slot's new `iFrameSample`; otherwise the status is `SMS_FRAME_READY`. -/
theorem initFrame_status_end_iff (i : Nat) (p : SMS_AnalParams) (e : ErrorState) (w : Int)
    (hi : 1 ≤ i) (hlen : i < p.ppFrames.length) :
    ∃ r f, sms_initFrame i p e w = some r ∧ r.params.ppFrames[i]? = some f ∧
      (r.ret ≠ -1 →
        (f.iStatus = SMS_FRAME_END ↔ f.iFrameSample + halfWindow w ≥ p.iSizeSound) ∧
        (¬ f.iFrameSample + halfWindow w ≥ p.iSizeSound → f.iStatus = SMS_FRAME_READY)) := by
  obtain ⟨prev, cur, r, -, -, hr, hret, -, -, hf, -⟩ := sms_initFrame_spec i p e w hi hlen
  refine ⟨r, _, hr, hf, fun hne => ?_⟩
  by_cases hrun :
      p.soundBuffer.iMarker > (initFrameBody p e prev cur w).2.1.iFrameSample - halfWindow w
  · exact absurd (hret.trans (initFrameBody_runoff p e prev cur w hrun).1) hne
  · by_cases hend : (initFrameBody p e prev cur w).2.1.iFrameSample + halfWindow w ≥ p.iSizeSound
    · have h := initFrameBody_end p e prev cur w hrun hend
      exact ⟨⟨fun _ => hend, fun _ => h.2.2.1⟩, fun hn => absurd hend hn⟩
    · have h := initFrameBody_ready p e prev cur w hrun hend
      refine ⟨⟨fun hs => ?_, fun hn => absurd hn hend⟩, fun _ => h.2.2.1⟩
      rw [h.2.2.1] at hs
      exact absurd hs (by decide)

theorem initFrame_status_end_iff_witness :
    1 ≤ 1 ∧ 1 < exampleParams.ppFrames.length ∧
    ∃ r f, sms_initFrame 1 exampleParams noError 201 = some r ∧
      r.params.ppFrames[1]? = some f ∧
      (r.ret ≠ -1 →
        (f.iStatus = SMS_FRAME_END ↔
          f.iFrameSample + halfWindow 201 ≥ exampleParams.iSizeSound) ∧
        (¬ f.iFrameSample + halfWindow 201 ≥ exampleParams.iSizeSound →
          f.iStatus = SMS_FRAME_READY)) :=
  ⟨by decide, by decide,
    initFrame_status_end_iff 1 exampleParams noError 201 (by decide) (by decide)⟩

/-- C2, counterexample: the sound buffer holds the samples `-2 .. 0`, the first
frame with window size 3 has centre 0 and half window 2, so the upper end
`0 + 2` lies outside the buffer `[-2, 1)`; `sms_initFrame` nevertheless returns
`SMS_OK` and leaves the error status at 0. -/
theorem initFrame_upper_end_not_checked :
    ∃ r f, sms_initFrame 1 shortBufferParams noError 3 = some r ∧
      r.params.ppFrames[1]? = some f ∧
      ¬ (f.iFrameSample + halfWindow 3 <
          shortBufferParams.soundBuffer.iMarker + shortBufferParams.soundBuffer.sizeBuffer) ∧
      r.ret = SMS_OK ∧ r.err.error_status = 0 := by
  refine ⟨_, _, rfl, rfl, ?_, ?_, ?_⟩ <;> decide

/-- C2, amended: `sms_initFrame` on a slot `i ≥ 1` of the ring returns `-1`
with the error status set exactly when the lower end of the window is before
the buffer, `iMarker > center - (w+1)/2`; in every other case, whatever the
upper end of the buffer, it returns `SMS_OK` and leaves the error variables
alone. -/
theorem initFrame_runoff_iff_lower_end (i : Nat) (p : SMS_AnalParams) (e : ErrorState)
    (w : Int) (hi : 1 ≤ i) (hlen : i < p.ppFrames.length) :
    ∃ r f, sms_initFrame i p e w = some r ∧ r.params.ppFrames[i]? = some f ∧
      (p.soundBuffer.iMarker > f.iFrameSample - halfWindow w →
        r.ret = -1 ∧ r.err.error_status = -1) ∧
      (¬ p.soundBuffer.iMarker > f.iFrameSample - halfWindow w →
        r.ret = SMS_OK ∧ r.err = e) := by
  obtain ⟨prev, cur, r, -, -, hr, hret, herr, -, hf, -⟩ := sms_initFrame_spec i p e w hi hlen
  refine ⟨r, _, hr, hf, fun hrun => ?_, fun hrun => ?_⟩
  · have h := initFrameBody_runoff p e prev cur w hrun
    refine ⟨hret.trans h.1, ?_⟩
    rw [herr, h.2.1]
    rfl
  · by_cases hend : (initFrameBody p e prev cur w).2.1.iFrameSample + halfWindow w ≥ p.iSizeSound
    · have h := initFrameBody_end p e prev cur w hrun hend
      exact ⟨hret.trans h.1, herr.trans h.2.1⟩
    · have h := initFrameBody_ready p e prev cur w hrun hend
      exact ⟨hret.trans h.1, herr.trans h.2.1⟩

theorem initFrame_runoff_iff_lower_end_witness :
    1 ≤ 1 ∧ 1 < shortBufferParams.ppFrames.length ∧
    ∃ r f, sms_initFrame 1 shortBufferParams noError 5 = some r ∧
      r.params.ppFrames[1]? = some f ∧
      (shortBufferParams.soundBuffer.iMarker > f.iFrameSample - halfWindow 5 →
        r.ret = -1 ∧ r.err.error_status = -1) ∧
      (¬ shortBufferParams.soundBuffer.iMarker > f.iFrameSample - halfWindow 5 →
        r.ret = SMS_OK ∧ r.err = noError) :=
  ⟨by decide, by decide,
    initFrame_runoff_iff_lower_end 1 shortBufferParams noError 5 (by decide) (by decide)⟩

/-- C3: a call of `sms_initFrame` on a slot `i ≥ 1` of the ring returns and
sets the slot's centre `iFrameSample` to 0 when the new frame number (that of
slot `i-1` plus one) is 1, and otherwise to the centre of slot `i-1` plus
`sizeHop`; slot `i-1` itself is not changed. -/
theorem initFrame_center (i : Nat) (p : SMS_AnalParams) (e : ErrorState) (w : Int)
    (hi : 1 ≤ i) (hlen : i < p.ppFrames.length) :
    ∃ r f prev, sms_initFrame i p e w = some r ∧ p.ppFrames[i - 1]? = some prev ∧
      r.params.ppFrames[i - 1]? = some prev ∧ r.params.ppFrames[i]? = some f ∧
      (prev.iFrameNum + 1 = 1 → f.iFrameSample = 0) ∧
      (prev.iFrameNum + 1 ≠ 1 → f.iFrameSample = prev.iFrameSample + p.sizeHop) := by
  obtain ⟨prev, cur, r, hprev, -, hr, -, -, -, hf, hprev2⟩ :=
    sms_initFrame_spec i p e w hi hlen
  refine ⟨r, _, prev, hr, hprev, hprev2, hf, fun h => ?_, fun h => ?_⟩
  · rw [initFrameBody_sample, if_pos h]
  · rw [initFrameBody_sample, if_neg h]

theorem initFrame_center_witness :
    1 ≤ 1 ∧ 1 < exampleParams.ppFrames.length ∧
    ∃ r f prev, sms_initFrame 1 exampleParams noError 201 = some r ∧
      exampleParams.ppFrames[1 - 1]? = some prev ∧
      r.params.ppFrames[1 - 1]? = some prev ∧ r.params.ppFrames[1]? = some f ∧
      (prev.iFrameNum + 1 = 1 → f.iFrameSample = 0) ∧
      (prev.iFrameNum + 1 ≠ 1 → f.iFrameSample = prev.iFrameSample + exampleParams.sizeHop) :=
  ⟨by decide, by decide, initFrame_center 1 exampleParams noError 201 (by decide) (by decide)⟩

/-- C4, counterexample: on an empty sound the first frame is past the end of
the sound; `sms_initFrame` returns `SMS_OK`, but the slot's frame number is
`-1`, not the number of slot 0 plus one, and its frame size is 0, not the
requested window size 3. -/
theorem initFrame_end_resets_number :
    ∃ r f prev, sms_initFrame 1 emptySoundParams noError 3 = some r ∧
      r.params.ppFrames[1]? = some f ∧ r.params.ppFrames[0]? = some prev ∧
      r.ret = SMS_OK ∧ f.iFrameNum ≠ prev.iFrameNum + 1 ∧ f.iFrameSize ≠ 3 := by
  refine ⟨_, _, _, rfl, rfl, rfl, ?_, ?_, ?_⟩ <;> decide

/-- C4, amended: when a call of `sms_initFrame` on a slot `i ≥ 1` returns
`SMS_OK` and the frame does not reach the end of the sound
(`center + (w+1)/2 < iSizeSound`, status `SMS_FRAME_READY`), the slot's frame
number is that of slot `i-1` plus one and its frame size is the requested
window size; when it returns `SMS_OK` and the frame reaches the end of the
sound, the frame number is `-1` and the frame size 0. -/
theorem initFrame_number_size (i : Nat) (p : SMS_AnalParams) (e : ErrorState) (w : Int)
    (hi : 1 ≤ i) (hlen : i < p.ppFrames.length) :
    ∃ r f prev, sms_initFrame i p e w = some r ∧ p.ppFrames[i - 1]? = some prev ∧
      r.params.ppFrames[i]? = some f ∧
      (r.ret = SMS_OK → f.iFrameSample + halfWindow w < p.iSizeSound →
        f.iFrameNum = prev.iFrameNum + 1 ∧ f.iFrameSize = w ∧ f.iStatus = SMS_FRAME_READY) ∧
      (r.ret = SMS_OK → f.iFrameSample + halfWindow w ≥ p.iSizeSound →
        f.iFrameNum = -1 ∧ f.iFrameSize = 0 ∧ f.iStatus = SMS_FRAME_END) := by
  obtain ⟨prev, cur, r, hprev, -, hr, hret, -, -, hf, -⟩ :=
    sms_initFrame_spec i p e w hi hlen
  refine ⟨r, _, prev, hr, hprev, hf, ?_, ?_⟩
  · intro hok hlt
    by_cases hrun :
        p.soundBuffer.iMarker > (initFrameBody p e prev cur w).2.1.iFrameSample - halfWindow w
    · have h := (initFrameBody_runoff p e prev cur w hrun).1
      rw [← hret, hok] at h
      exact absurd h (by decide)
    · have h := initFrameBody_ready p e prev cur w hrun (by omega)
      exact ⟨h.2.2.2.1, h.2.2.2.2, h.2.2.1⟩
  · intro hok hge
    by_cases hrun :
        p.soundBuffer.iMarker > (initFrameBody p e prev cur w).2.1.iFrameSample - halfWindow w
    · have h := (initFrameBody_runoff p e prev cur w hrun).1
      rw [← hret, hok] at h
      exact absurd h (by decide)
    · have h := initFrameBody_end p e prev cur w hrun hge
      exact ⟨h.2.2.2.1, h.2.2.2.2, h.2.2.1⟩

theorem initFrame_number_size_witness :
    1 ≤ 1 ∧ 1 < exampleParams.ppFrames.length ∧
    ∃ r f prev, sms_initFrame 1 exampleParams noError 201 = some r ∧
      exampleParams.ppFrames[1 - 1]? = some prev ∧
      r.params.ppFrames[1]? = some f ∧
      (r.ret = SMS_OK → f.iFrameSample + halfWindow 201 < exampleParams.iSizeSound →
        f.iFrameNum = prev.iFrameNum + 1 ∧ f.iFrameSize = 201 ∧
          f.iStatus = SMS_FRAME_READY) ∧
      (r.ret = SMS_OK → f.iFrameSample + halfWindow 201 ≥ exampleParams.iSizeSound →
        f.iFrameNum = -1 ∧ f.iFrameSize = 0 ∧ f.iStatus = SMS_FRAME_END) :=
  ⟨by decide, by decide,
    initFrame_number_size 1 exampleParams noError 201 (by decide) (by decide)⟩

/-! ## Consecutive frames from a fresh ring -/

theorem initFrameSeq_inv (m g k0 : Nat) (h N w : Int) (sb : SMS_SndBuffer) (e : ErrorState)
    (hh : 0 < h) (hmark : sb.iMarker ≤ -halfWindow w) :
    ∀ n : Nat, n < m →
      ∃ r, initFrameSeq w n (freshParams m g k0 h N sb) e = some r ∧ r.ret = SMS_OK ∧
        r.err = e ∧ r.params.sizeHop = h ∧ r.params.iSizeSound = N ∧
        r.params.soundBuffer = sb ∧ r.params.ppFrames.length = m ∧
        ∀ k : Nat, k ≤ n → ∃ f, r.params.ppFrames[k]? = some f ∧
          (k = 0 → f.iFrameNum = 0) ∧
          (1 ≤ k → f.iFrameSample = ((k : Int) - 1) * h ∧
            (((k : Int) - 1) * h + halfWindow w < N →
              f.iStatus = SMS_FRAME_READY ∧ f.iFrameNum = k) ∧
            (((k : Int) - 1) * h + halfWindow w ≥ N →
              f.iStatus = SMS_FRAME_END ∧ f.iFrameNum = -1)) := by
  intro n
  induction n with
  | zero =>
    intro hm
    refine ⟨_, rfl, rfl, rfl, rfl, rfl, rfl, ?_, ?_⟩
    · simp [freshParams, initAnalysisRing]
    · intro k hk
      obtain rfl : k = 0 := by omega
      refine ⟨clearAnalysisFrameBody g k0 (allocatedFrame g k0), ?_, fun _ => rfl,
        fun h1 => absurd h1 (by decide)⟩
      simp [freshParams, initAnalysisRing, List.getElem?_replicate, hm]
  | succ n ih =>
    intro hm
    obtain ⟨r, hr, hret, herr, hhop, hN, hsb, hlen, hfr⟩ := ih (by omega)
    obtain ⟨prev, cur, r', hprev, -, hr', hret', herr', hpar', hf', -⟩ :=
      sms_initFrame_spec (n + 1) r.params r.err w (by omega) (by omega)
    have hseq : initFrameSeq w (n + 1) (freshParams m g k0 h N sb) e = some r' := by
      simp only [initFrameSeq, hr, hret, if_true]
      exact hr'
    simp only [Nat.add_sub_cancel] at hprev
    obtain ⟨f, hf, hf0, hf1⟩ := hfr n (le_refl n)
    obtain rfl : f = prev := by rw [hf] at hprev; exact Option.some.inj hprev
    have hmul : ((n : Int) - 1) * h = (n : Int) * h - h := by ring
    /- the new frame number is 1 exactly for the first frame -/
    have hfirst : f.iFrameNum + 1 = 1 ↔ n = 0 := by
      rcases Nat.eq_zero_or_pos n with h0 | hpos
      · rw [hf0 h0]
        exact ⟨fun _ => h0, fun _ => rfl⟩
      · by_cases hin : ((n : Int) - 1) * h + halfWindow w < N
        · rw [((hf1 hpos).2.1 hin).2]
          omega
        · rw [((hf1 hpos).2.2 (by omega)).2]
          omega
    have hsample : (initFrameBody r.params r.err f cur w).2.1.iFrameSample = (n : Int) * h := by
      rw [initFrameBody_sample, hhop]
      rcases Nat.eq_zero_or_pos n with h0 | hpos
      · rw [if_pos (hfirst.2 h0), h0]
        simp
      · rw [if_neg (fun hc => absurd (hfirst.1 hc) (by omega)), (hf1 hpos).1]
        ring
    have hnh : 0 ≤ (n : Int) * h := mul_nonneg (Int.ofNat_nonneg n) (le_of_lt hh)
    have hrun : ¬ r.params.soundBuffer.iMarker >
        (initFrameBody r.params r.err f cur w).2.1.iFrameSample - halfWindow w := by
      rw [hsample, hsb]
      omega
    have hcast : ((n + 1 : Nat) : Int) - 1 = (n : Int) := by push_cast; ring
    have hbody : (initFrameBody r.params r.err f cur w).1 = SMS_OK ∧
        (initFrameBody r.params r.err f cur w).2.2 = r.err ∧
        ((n : Int) * h + halfWindow w < N →
          (initFrameBody r.params r.err f cur w).2.1.iStatus = SMS_FRAME_READY ∧
          (initFrameBody r.params r.err f cur w).2.1.iFrameNum = ((n + 1 : Nat) : Int)) ∧
        ((n : Int) * h + halfWindow w ≥ N →
          (initFrameBody r.params r.err f cur w).2.1.iStatus = SMS_FRAME_END ∧
          (initFrameBody r.params r.err f cur w).2.1.iFrameNum = -1) := by
      by_cases hend :
          (initFrameBody r.params r.err f cur w).2.1.iFrameSample + halfWindow w ≥
            r.params.iSizeSound
      · have hb := initFrameBody_end r.params r.err f cur w hrun hend
        rw [hsample, hN] at hend
        exact ⟨hb.1, hb.2.1, fun hlt => absurd hend (by omega),
          fun _ => ⟨hb.2.2.1, hb.2.2.2.1⟩⟩
      · have hb := initFrameBody_ready r.params r.err f cur w hrun hend
        rw [hsample, hN] at hend
        refine ⟨hb.1, hb.2.1, fun hlt => ⟨hb.2.2.1, ?_⟩, fun hge => absurd hge hend⟩
        /- the previous frame lies inside the sound as well, so its number is `n` -/
        have hnum : f.iFrameNum = n := by
          rcases Nat.eq_zero_or_pos n with h0 | hpos
          · rw [hf0 h0, h0]
            rfl
          · exact ((hf1 hpos).2.1 (by omega)).2
        rw [hb.2.2.2.1, hnum]
        push_cast
        ring
    refine ⟨r', hseq, hret'.trans hbody.1, (herr'.trans hbody.2.1).trans herr, ?_, ?_, ?_, ?_, ?_⟩
    · rw [hpar']; exact hhop
    · rw [hpar']; exact hN
    · rw [hpar']; exact hsb
    · rw [hpar']; simpa using hlen
    · intro k hk
      rcases Nat.lt_or_ge k (n + 1) with hlt | hge
      · obtain ⟨fk, hfk, hk0, hk1⟩ := hfr k (by omega)
        refine ⟨fk, ?_, hk0, hk1⟩
        rw [hpar']
        simp only [List.getElem?_set]
        rw [if_neg (by omega)]
        exact hfk
      · obtain rfl : k = n + 1 := by omega
        refine ⟨_, hf', fun h0 => absurd h0 (by omega), fun _ => ?_⟩
        rw [hcast]
        exact ⟨hsample, hbody.2.2.1, hbody.2.2.2⟩

/-- C5: from a freshly initialised ring (all slots `SMS_FRAME_EMPTY`, frame
number 0), with hop `h > 0`, sound size `N`, a fixed window size `w` and a
sound buffer that covers the lower end of the first window, the calls of
`sms_initFrame` on the consecutive slots `1 .. n` all return `SMS_OK` (no
runoff); the `k`-th frame has centre `(k-1)*h`, every frame with
`(k-1)*h + (w+1)/2 < N` is `SMS_FRAME_READY` and every frame with
`(k-1)*h + (w+1)/2 ≥ N`, the first such frame included, is `SMS_FRAME_END`. -/
theorem initFrameSeq_ready_until_end (m g k0 n : Nat) (h N w : Int) (sb : SMS_SndBuffer)
    (e : ErrorState) (hh : 0 < h) (hn : n < m) (hmark : sb.iMarker ≤ -halfWindow w) :
    ∃ r, initFrameSeq w n (freshParams m g k0 h N sb) e = some r ∧ r.ret = SMS_OK ∧
      ∀ k : Nat, 1 ≤ k → k ≤ n → ∃ f, r.params.ppFrames[k]? = some f ∧
        f.iFrameSample = ((k : Int) - 1) * h ∧
        (((k : Int) - 1) * h + halfWindow w < N → f.iStatus = SMS_FRAME_READY) ∧
        (((k : Int) - 1) * h + halfWindow w ≥ N → f.iStatus = SMS_FRAME_END) := by
  obtain ⟨r, hr, hret, -, -, -, -, -, hfr⟩ :=
    initFrameSeq_inv m g k0 h N w sb e hh hmark n hn
  refine ⟨r, hr, hret, fun k hk1 hkn => ?_⟩
  obtain ⟨f, hf, -, hf1⟩ := hfr k hkn
  exact ⟨f, hf, (hf1 hk1).1, fun hlt => ((hf1 hk1).2.1 hlt).1,
    fun hge => ((hf1 hk1).2.2 hge).1⟩

theorem initFrameSeq_ready_until_end_witness :
    (0 : Int) < 100 ∧ 100 < 101 ∧
    sequencerParams.soundBuffer.iMarker ≤ -halfWindow 201 ∧
    ∃ r, initFrameSeq 201 100 sequencerParams noError = some r ∧ r.ret = SMS_OK ∧
      (∀ k : Nat, 1 ≤ k → k ≤ 99 → ∃ f, r.params.ppFrames[k]? = some f ∧
        f.iFrameSample = ((k : Int) - 1) * 100 ∧ f.iStatus = SMS_FRAME_READY) ∧
      ∃ f, r.params.ppFrames[100]? = some f ∧ f.iFrameSample = 9900 ∧
        f.iStatus = SMS_FRAME_END := by
  have hw : halfWindow 201 = 101 := by decide
  obtain ⟨r, hr, hret, hfr⟩ :=
    initFrameSeq_ready_until_end 101 2 2 100 100 10000 201
      { sizeBuffer := 18290, iMarker := -18290, iFirstGood := 18290 } noError
      (by decide) (by decide) (by decide)
  refine ⟨by decide, by decide, by decide, r, hr, hret, fun k h1 h2 => ?_, ?_⟩
  · obtain ⟨f, hf, hs, hready, -⟩ := hfr k h1 (by omega)
    exact ⟨f, hf, hs, hready (by rw [hw]; omega)⟩
  · obtain ⟨f, hf, hs, -, hend⟩ := hfr 100 (by decide) (by decide)
    exact ⟨f, hf, by rw [hs]; norm_num, hend (by rw [hw]; norm_num)⟩

/-! ## `sms_power2` -/

theorem shiftRight_one_natCast (m : Nat) : ((m : Int) >>> (1 : Nat)) = ((m / 2 : Nat) : Int) := by
  rw [Int.shiftRight_eq_div_pow]
  norm_num

theorem shiftRight_one_eq (x : Int) : x >>> (1 : Nat) = x / 2 := by
  rw [Int.shiftRight_eq_div_pow]
  norm_num

theorem wrap32_eq (x : Int) (h1 : -2147483648 ≤ x) (h2 : x < 2147483648) : wrap32 x = x := by
  unfold wrap32
  omega

theorem power2Loop_natCast :
    ∀ (fuel m : Nat) (p : Int), m < 2 ^ fuel →
      power2Loop fuel (m : Int) p = some (p + (if m = 0 then 0 else (Nat.log 2 m + 1 : Nat))) := by
  intro fuel
  induction fuel with
  | zero =>
    intro m p hm
    have h0 : m = 0 := by simpa using hm
    subst h0
    simp [power2Loop]
  | succ fuel ih =>
    intro m p hm
    by_cases h0 : m = 0
    · subst h0
      simp [power2Loop]
    · have hne : ¬ ((m : Int) = 0) := by exact_mod_cast h0
      have hdiv : m / 2 < 2 ^ fuel := by
        rw [Nat.div_lt_iff_lt_mul (by decide)]
        rw [pow_succ] at hm
        exact hm
      simp only [power2Loop, if_neg hne, if_neg h0, shiftRight_one_natCast]
      rw [ih (m / 2) (p + 1) hdiv]
      by_cases h2 : m / 2 = 0
      · have h1 : m = 1 := by omega
        subst h1
        simp
      · have hle : 2 ≤ m := by omega
        rw [if_neg h2, Nat.log_of_one_lt_of_le (by decide) hle]
        push_cast
        ring_nf

theorem shiftLeftOne_natCast (k : Nat) (hk : k ≤ 30) :
    shiftLeftOne (k : Int) = some ((2 : Int) ^ k) := by
  have hpow : (2 : Int) ^ k ≤ 2 ^ 30 := pow_le_pow_right₀ (by norm_num) hk
  have hpos : (0 : Int) < 2 ^ k := by positivity
  have hc : (0 : Int) ≤ (k : Int) ∧ (k : Int) < 32 := by omega
  rw [shiftLeftOne, if_pos hc, Int.toNat_ofNat, wrap32_eq _ (by omega) (by norm_num at hpow; omega)]

theorem sms_power2_natCast (m : Nat) (h0 : 0 < m) (h1 : m ≤ 2 ^ 30) :
    sms_power2 (m : Int) =
      some (if 2 ^ Nat.log 2 m = m then (m : Int) else (2 : Int) ^ (Nat.log 2 m + 1)) := by
  have hm0 : m ≠ 0 := by omega
  have hlt : m < 2 ^ 32 := by
    have : (2 : Nat) ^ 30 < 2 ^ 32 := by norm_num
    omega
  have hlog : Nat.log 2 m ≤ 30 := by
    have hp := Nat.pow_log_le_self 2 hm0
    by_contra hcon
    have h31 : (2 : Nat) ^ 31 ≤ 2 ^ Nat.log 2 m := Nat.pow_le_pow_right (by decide) (by omega)
    have : (2 : Nat) ^ 30 < 2 ^ 31 := by norm_num
    omega
  have hloop : power2Loop 32 (m : Int) (-1) = some ((Nat.log 2 m : Nat) : Int) := by
    rw [power2Loop_natCast 32 m (-1) hlt, if_neg hm0]
    push_cast
    ring_nf
  unfold sms_power2
  simp only [hloop, shiftLeftOne_natCast _ hlog]
  by_cases hpow : 2 ^ Nat.log 2 m = m
  · have hpowZ : (2 : Int) ^ Nat.log 2 m = (m : Int) := by exact_mod_cast hpow
    rw [if_pos hpowZ, if_pos hpow]
  · have hpowZ : ¬ ((2 : Int) ^ Nat.log 2 m = (m : Int)) := by exact_mod_cast hpow
    rw [if_neg hpowZ, if_neg hpow]
    have hlt30 : Nat.log 2 m + 1 ≤ 30 := by
      by_contra hcon
      have h30 : Nat.log 2 m = 30 := by omega
      have hp := Nat.pow_log_le_self 2 hm0
      rw [h30] at hp hpow
      omega
    have := shiftLeftOne_natCast (Nat.log 2 m + 1) hlt30
    push_cast at this
    exact this

/-- C6, counterexample: `2^30 + 1` is a positive 32-bit `int`, and
`sms_power2` computes `1<<31` for it, which a 32-bit `int` reads as `-2^31`:
the result is below the argument, not a power of two at or above it. -/
theorem sms_power2_overflow :
    0 < (1073741825 : Int) ∧ (1073741825 : Int) < 2 ^ 31 ∧
      sms_power2 1073741825 = some (-2147483648) ∧ ¬ ((1073741825 : Int) ≤ -2147483648) := by
  decide

/-- C6, amended: for every `n` with `0 < n ≤ 2^30`, `sms_power2(n)` returns the
smallest power of two that is at least `n`. -/
theorem sms_power2_least (n : Int) (h0 : 0 < n) (h1 : n ≤ 2 ^ 30) :
    ∃ (v : Int) (k : Nat), sms_power2 n = some v ∧ v = 2 ^ k ∧ n ≤ v ∧
      ∀ j : Nat, n ≤ 2 ^ j → v ≤ 2 ^ j := by
  obtain ⟨m, rfl⟩ : ∃ m : Nat, n = (m : Int) := ⟨n.toNat, by omega⟩
  have hm0 : 0 < m := by exact_mod_cast h0
  have hm1 : m ≤ 2 ^ 30 := by exact_mod_cast h1
  have hne : m ≠ 0 := by omega
  have hle := Nat.pow_log_le_self 2 hne
  have hlt := Nat.lt_pow_succ_log_self (b := 2) (by decide) m
  rw [sms_power2_natCast m hm0 hm1]
  by_cases hpow : 2 ^ Nat.log 2 m = m
  · refine ⟨_, Nat.log 2 m, by rw [if_pos hpow], ?_, le_refl _, fun j hj => hj⟩
    exact_mod_cast hpow.symm
  · refine ⟨_, Nat.log 2 m + 1, by rw [if_neg hpow], rfl, ?_, fun j hj => ?_⟩
    · exact_mod_cast le_of_lt hlt
    · have hj' : m ≤ 2 ^ j := by exact_mod_cast hj
      have hlj : Nat.log 2 m < j := by
        by_contra hcon
        have h2 : 2 ^ j ≤ 2 ^ Nat.log 2 m := Nat.pow_le_pow_right (by decide) (by omega)
        omega
      exact_mod_cast Nat.pow_le_pow_right (by decide) hlj

theorem sms_power2_least_witness :
    (0 : Int) < 1001 ∧ (1001 : Int) ≤ 2 ^ 30 ∧
      sms_power2 1001 = some 1024 ∧ sms_power2 1024 = some 1024 ∧
      ∃ (v : Int) (k : Nat), sms_power2 1001 = some v ∧ v = 2 ^ k ∧ (1001 : Int) ≤ v ∧
        ∀ j : Nat, (1001 : Int) ≤ 2 ^ j → v ≤ 2 ^ j :=
  ⟨by decide, by decide, by decide, by decide,
    sms_power2_least 1001 (by decide) (by decide)⟩

/-! ## `sms_spectrum`: transform size -/

theorem spectrumSizeFft_natCast (m : Nat) (hm : 1 ≤ m) :
    spectrumSizeFft (m : Int) = (2 : Int) ^ (1 + Nat.log 2 (2 * m)) := by
  have h : ¬ ((m : Int) ≤ 0) := by omega
  have hc : (SMS_OVERLAP_FACTOR * (m : Int)).toNat = 2 * m := by
    unfold SMS_OVERLAP_FACTOR
    omega
  rw [spectrumSizeFft, if_neg h, hc]

/-- C7, counterexample: for the window size 1 the transform size of
`sms_spectrum` is 4, while 2 is a power of two that is at least `2*1`. -/
theorem spectrumSizeFft_one :
    spectrumSizeFft 1 = 4 ∧ (2 : Int) * 1 ≤ 2 ^ 1 ∧ ¬ (spectrumSizeFft 1 ≤ 2 ^ 1) := by
  have h : spectrumSizeFft 1 = 4 := by
    have := spectrumSizeFft_natCast 1 (le_refl 1)
    simpa [Nat.log] using this
  rw [h]
  decide

/-- C7, amended: for every window size `w ≥ 1` the transform size `sizeFft` of
`sms_spectrum` (logarithm taken exactly) is the smallest power of two that is
strictly greater than `2*w`, and the value returned on both transform paths
(on the `realft` path when the buffer allocation succeeds) is `sizeFft/2`. -/
theorem spectrumSizeFft_least_above (w : Int) (hw : 1 ≤ w) (ops : PolarOps)
    (fftwf_execute : (Int → ℚ) → (Int → ℚ) × (Int → ℚ))
    (realft : (Int → ℚ) → Int → (Int → ℚ))
    (window pFWaveform : Int → ℚ) (out : PolarOut) (mem : Int → ℚ) :
    (∃ k : Nat, spectrumSizeFft w = 2 ^ k) ∧ 2 * w < spectrumSizeFft w ∧
      (∀ j : Nat, 2 * w < 2 ^ j → spectrumSizeFft w ≤ 2 ^ j) ∧
      (sms_spectrum_fftw ops fftwf_execute window pFWaveform w out mem).1 =
        spectrumSizeFft w / 2 ∧
      (sms_spectrum_realft ops realft window pFWaveform w out true mem).1 =
        spectrumSizeFft w / 2 := by
  obtain ⟨m, rfl⟩ : ∃ m : Nat, w = (m : Int) := ⟨w.toNat, by omega⟩
  have hm : 1 ≤ m := by exact_mod_cast hw
  have hne : 2 * m ≠ 0 := by omega
  have hlt := Nat.lt_pow_succ_log_self (b := 2) (by decide) (2 * m)
  have hle := Nat.pow_log_le_self 2 hne
  have hsucc : (Nat.log 2 (2 * m)).succ = 1 + Nat.log 2 (2 * m) := by omega
  rw [hsucc] at hlt
  refine ⟨⟨_, spectrumSizeFft_natCast m hm⟩, ?_, fun j hj => ?_, ?_, ?_⟩
  · rw [spectrumSizeFft_natCast m hm]
    exact_mod_cast hlt
  · rw [spectrumSizeFft_natCast m hm]
    have hj' : 2 * m < 2 ^ j := by exact_mod_cast hj
    have hlj : Nat.log 2 (2 * m) < j := by
      by_contra hcon
      have h2 : 2 ^ j ≤ 2 ^ Nat.log 2 (2 * m) := Nat.pow_le_pow_right (by decide) (by omega)
      omega
    exact_mod_cast Nat.pow_le_pow_right (by decide) (show 1 + Nat.log 2 (2 * m) ≤ j by omega)
  · simp only [sms_spectrum_fftw, shiftRight_one_eq]
  · simp only [sms_spectrum_realft, shiftRight_one_eq]
    rfl

theorem spectrumSizeFft_least_above_witness :
    (1 : Int) ≤ 3 ∧
    ((∃ k : Nat, spectrumSizeFft 3 = 2 ^ k) ∧ 2 * 3 < spectrumSizeFft 3 ∧
      (∀ j : Nat, (2 : Int) * 3 < 2 ^ j → spectrumSizeFft 3 ≤ 2 ^ j) ∧
      (sms_spectrum_fftw zeroBinOps (fun b => (b, b)) zeroMap zeroMap 3 zeroOut zeroMap).1 =
        spectrumSizeFft 3 / 2 ∧
      (sms_spectrum_realft zeroBinOps (fun b _ => b) zeroMap zeroMap 3 zeroOut true zeroMap).1 =
        spectrumSizeFft 3 / 2) :=
  ⟨by decide, spectrumSizeFft_least_above 3 (by decide) zeroBinOps (fun b => (b, b))
    (fun b _ => b) zeroMap zeroMap zeroOut zeroMap⟩

/-! ## `sms_spectrum`: zero-phase centring -/

theorem loopFrom_update {K : Type} (a : Int) (val : Int → K) (buf : Int → K) (k : Int) :
    ∀ n : Nat, loopFrom 0 (fun i b => Function.update b (a + i) (val i)) n buf k =
      if a ≤ k ∧ k < a + n then val (k - a) else buf k := by
  intro n
  induction n with
  | zero =>
    have h : ¬ (a ≤ k ∧ k < a + ((0 : Nat) : Int)) := by omega
    rw [if_neg h]
    rfl
  | succ n ih =>
    simp only [loopFrom]
    by_cases hk : k = a + (0 + (n : Int))
    · rw [hk, Function.update_same]
      have h : a ≤ a + (0 + (n : Int)) ∧ a + (0 + (n : Int)) < a + ((n + 1 : Nat) : Int) := by
        omega
      rw [if_pos h]
      congr 1
      omega
    · rw [Function.update_noteq hk, ih]
      by_cases h1 : a ≤ k ∧ k < a + (n : Int)
      · have h2 : a ≤ k ∧ k < a + ((n + 1 : Nat) : Int) := by omega
        rw [if_pos h1, if_pos h2]
      · have h2 : ¬ (a ≤ k ∧ k < a + ((n + 1 : Nat) : Int)) := by omega
        rw [if_neg h1, if_neg h2]

theorem centerLoops_apply (base : Int) (window wave : Int → ℚ) (w sizeFft : Int)
    (buf : Int → ℚ) (k : Int) :
    centerLoops base window wave w sizeFft buf k =
      if base ≤ k ∧ k < base + (((w + 1) / 2 - 0).toNat : Int) then
        window ((w + 1) / 2 - 1 + (k - base)) * wave ((w + 1) / 2 - 1 + (k - base))
      else if base + (sizeFft - ((w + 1) / 2 - 1)) ≤ k ∧
          k < base + (sizeFft - ((w + 1) / 2 - 1)) + (((w + 1) / 2 - 1 - 0).toNat : Int) then
        window (k - (base + (sizeFft - ((w + 1) / 2 - 1)))) *
          wave (k - (base + (sizeFft - ((w + 1) / 2 - 1))))
      else buf k := by
  simp only [centerLoops, forLoop, shiftRight_one_eq, ← add_assoc]
  rw [loopFrom_update base
    (fun i => window ((w + 1) / 2 - 1 + i) * wave ((w + 1) / 2 - 1 + i))]
  rw [loopFrom_update (base + (sizeFft - ((w + 1) / 2 - 1))) (fun i => window i * wave i)]

/-- C8: for an odd window size `w` and a transform size `sizeFft ≥ 2*w`, with
`c = (w-1)/2`, the buffer `sms_spectrum` hands to the transform on the FFTW
path holds `window[c+k]*wave[c+k]` at `k` for `0 ≤ k ≤ c`, `window[i]*wave[i]`
at `sizeFft-c+i` for `0 ≤ i < c`, and 0 at every other index below `sizeFft`;
the `realft` path builds the same buffer one entry higher, above a zero at
index 0. -/
theorem spectrum_buffer_zero_phase (window wave : Int → ℚ) (w sizeFft : Int)
    (pWaveform mem : Int → ℚ) (hw : 0 < w) (hodd : w % 2 = 1) (hfft : 2 * w ≤ sizeFft) :
    (∀ k, 0 ≤ k → k ≤ (w - 1) / 2 →
      spectrumBufferFftw window wave w sizeFft pWaveform k =
        window ((w - 1) / 2 + k) * wave ((w - 1) / 2 + k)) ∧
    (∀ i, 0 ≤ i → i < (w - 1) / 2 →
      spectrumBufferFftw window wave w sizeFft pWaveform (sizeFft - (w - 1) / 2 + i) =
        window i * wave i) ∧
    (∀ k, (w - 1) / 2 < k → k < sizeFft - (w - 1) / 2 →
      spectrumBufferFftw window wave w sizeFft pWaveform k = 0) ∧
    (∀ k, 0 ≤ k → k < sizeFft →
      spectrumBufferRealft window wave w sizeFft mem (1 + k) =
        spectrumBufferFftw window wave w sizeFft pWaveform k) ∧
    spectrumBufferRealft window wave w sizeFft mem 0 = 0 := by
  obtain ⟨c, rfl⟩ : ∃ c : Int, w = 2 * c + 1 := ⟨w / 2, by omega⟩
  have hc : 0 ≤ c := by omega
  have h1 : (2 * c + 1 + 1) / 2 = c + 1 := by omega
  have h2 : (2 * c + 1 - 1) / 2 = c := by omega
  have h3 : ((c + 1 - 0).toNat : Int) = c + 1 := by omega
  have h4 : ((c + 1 - 1 - 0).toNat : Int) = c := by omega
  simp only [spectrumBufferFftw, spectrumBufferRealft, centerLoops_apply, h1, h2, h3, h4,
    memsetMap]
  refine ⟨fun k hk0 hkc => ?_, fun i hi0 hic => ?_, fun k hk0 hkc => ?_,
    fun k hk0 hkc => ?_, ?_⟩
  · rw [if_pos (by omega)]
    congr 2 <;> omega
  · rw [if_neg (by omega), if_pos (by omega)]
    congr 2 <;> omega
  · rw [if_neg (by omega), if_neg (by omega), if_pos (by omega)]
  · by_cases ha : k < c + 1
    · rw [if_pos (by omega), if_pos (by omega)]
      congr 2 <;> omega
    · by_cases hb : sizeFft - c ≤ k
      · rw [if_neg (by omega), if_pos (by omega), if_neg (by omega), if_pos (by omega)]
        congr 2 <;> omega
      · rw [if_neg (by omega), if_neg (by omega), if_pos (by omega), if_neg (by omega),
          if_neg (by omega), if_pos (by omega)]
  · rw [if_neg (by omega), if_neg (by omega), if_pos (by omega)]

theorem spectrum_buffer_zero_phase_witness :
    (0 : Int) < 3 ∧ (3 : Int) % 2 = 1 ∧ (2 : Int) * 3 ≤ 8 ∧
    ((∀ k, 0 ≤ k → k ≤ ((3 : Int) - 1) / 2 →
      spectrumBufferFftw rampWindow rampWave 3 8 zeroMap k =
        rampWindow (((3 : Int) - 1) / 2 + k) * rampWave (((3 : Int) - 1) / 2 + k)) ∧
    (∀ i, 0 ≤ i → i < ((3 : Int) - 1) / 2 →
      spectrumBufferFftw rampWindow rampWave 3 8 zeroMap (8 - ((3 : Int) - 1) / 2 + i) =
        rampWindow i * rampWave i) ∧
    (∀ k, ((3 : Int) - 1) / 2 < k → k < 8 - ((3 : Int) - 1) / 2 →
      spectrumBufferFftw rampWindow rampWave 3 8 zeroMap k = 0) ∧
    (∀ k, 0 ≤ k → k < 8 →
      spectrumBufferRealft rampWindow rampWave 3 8 zeroMap (1 + k) =
        spectrumBufferFftw rampWindow rampWave 3 8 zeroMap k) ∧
    spectrumBufferRealft rampWindow rampWave 3 8 zeroMap 0 = 0) :=
  ⟨by decide, by decide, by decide,
    spectrum_buffer_zero_phase rampWindow rampWave 3 8 zeroMap zeroMap
      (by decide) (by decide) (by decide)⟩

/-! ## Polar conversion: bins with zero real and imaginary part -/

theorem loopFrom_preserve (lo : Int) (body : Int → PolarOut → PolarOut) (k : Int)
    (h : ∀ i o, (body i o).mag k = o.mag k ∧ (body i o).phase k = o.phase k) :
    ∀ (n : Nat) (o : PolarOut),
      (loopFrom lo body n o).mag k = o.mag k ∧ (loopFrom lo body n o).phase k = o.phase k := by
  intro n
  induction n with
  | zero => intro o; exact ⟨rfl, rfl⟩
  | succ n ih =>
    intro o
    simp only [loopFrom]
    exact ⟨(h _ _).1.trans (ih o).1, (h _ _).2.trans (ih o).2⟩

theorem spectrumPolarFftw_zero_bin (ops : PolarOps) (re im : Int → ℚ) (sizeMag : Int)
    (out : PolarOut) (k : Int) (hk : k ≠ 0) (hre : re k = 0) (him : im k = 0) :
    (spectrumPolarFftw ops re im sizeMag out).mag k = out.mag k ∧
      (spectrumPolarFftw ops re im sizeMag out).phase k = out.phase k := by
  simp only [spectrumPolarFftw, forLoop, Function.update_noteq hk]
  apply loopFrom_preserve
  intro i o
  by_cases hik : i = k
  · subst hik
    simp [hre, him]
  · split_ifs
    · simp [Function.update_noteq (Ne.symm hik)]
    · exact ⟨rfl, rfl⟩

theorem spectrumPolarRealft_zero_bin (ops : PolarOps) (buf : Int → ℚ) (sizeMag : Int)
    (out : PolarOut) (k : Int) (hre : buf (2 * k + 1) = 0) (him : buf (2 * k + 2) = 0) :
    (spectrumPolarRealft ops buf sizeMag out).mag k = out.mag k ∧
      (spectrumPolarRealft ops buf sizeMag out).phase k = out.phase k := by
  simp only [spectrumPolarRealft, forLoop]
  apply loopFrom_preserve
  intro i o
  by_cases hik : i = k
  · subst hik
    simp [hre, him]
  · split_ifs
    · simp [Function.update_noteq (Ne.symm hik)]
    · exact ⟨rfl, rfl⟩

theorem quickPolarFftw_zero_bin (ops : PolarOps) (re im : Int → ℚ) (sizeMag : Int)
    (hasPhase : Bool) (out : PolarOut) (k : Int) (hk : k ≠ 0) (hre : re k = 0)
    (him : im k = 0) :
    (quickPolarFftw ops re im sizeMag hasPhase out).mag k = out.mag k ∧
      (quickPolarFftw ops re im sizeMag hasPhase out).phase k = out.phase k := by
  have hloop : ∀ i (o : PolarOut),
      ((fun i (o : PolarOut) =>
        if re i ≠ 0 ∨ im i ≠ 0 then
          ({ mag := Function.update o.mag i (ops.sqrt (re i * re i + im i * im i)),
             phase := if hasPhase then Function.update o.phase i (ops.atan2 (im i) (re i))
                      else o.phase } : PolarOut)
        else o) i o).mag k = o.mag k ∧
      ((fun i (o : PolarOut) =>
        if re i ≠ 0 ∨ im i ≠ 0 then
          ({ mag := Function.update o.mag i (ops.sqrt (re i * re i + im i * im i)),
             phase := if hasPhase then Function.update o.phase i (ops.atan2 (im i) (re i))
                      else o.phase } : PolarOut)
        else o) i o).phase k = o.phase k := by
    intro i o
    by_cases hik : i = k
    · subst hik
      simp [hre, him]
    · cases hasPhase <;> (dsimp only; split_ifs) <;>
        simp [Function.update_noteq (Ne.symm hik)]
  have h := loopFrom_preserve 1 _ k hloop (sizeMag - 1).toNat out
  cases hasPhase <;> simpa [quickPolarFftw, forLoop, Function.update_noteq hk] using h

theorem quickPolarRealft_zero_bin (ops : PolarOps) (buf : Int → ℚ) (sizeMag : Int)
    (hasPhase : Bool) (out : PolarOut) (k : Int) (hre : buf (2 * k) = 0)
    (him : buf (2 * k + 1) = 0) :
    (quickPolarRealft ops buf sizeMag hasPhase out).mag k = out.mag k ∧
      (quickPolarRealft ops buf sizeMag hasPhase out).phase k = out.phase k := by
  simp only [quickPolarRealft, forLoop]
  apply loopFrom_preserve
  intro i o
  by_cases hik : i = k
  · subst hik
    simp [hre, him]
  · cases hasPhase <;> split_ifs <;> simp [Function.update_noteq (Ne.symm hik)]

/-- C9, counterexample: on the FFTW path of `sms_spectrum` entry 0 of the
output arrays is written without a guard. With a transform output that is
zero in every bin (so bin 0 has real and imaginary part zero, and so has the
Nyquist bin) and a phase array holding 1, the phase entry 0 is `atan2(-0, 0)`,
that is 0, after the call. -/
theorem spectrum_fftw_dc_bin_overwritten :
    (zeroSpectrum (spectrumBufferFftw rampWindow rampWave 3 (spectrumSizeFft 3) zeroMap)).1 0 = 0 ∧
    (zeroSpectrum (spectrumBufferFftw rampWindow rampWave 3 (spectrumSizeFft 3) zeroMap)).2 0 = 0 ∧
    (sms_spectrum_fftw zeroBinOps zeroSpectrum rampWindow rampWave 3 onesOut zeroMap).2.phase 0 = 0 ∧
    (sms_spectrum_fftw zeroBinOps zeroSpectrum rampWindow rampWave 3 onesOut zeroMap).2.phase 0 ≠
      onesOut.phase 0 := by
  simp [sms_spectrum_fftw, spectrumPolarFftw, zeroSpectrum, zeroMap, zeroBinOps, onesOut]

/-- C9, amended: a bin whose real and imaginary parts are both exactly zero
keeps its previous magnitude and phase entries in `sms_spectrum` and in
`sms_quickSpectrum` for every bin `0 ≤ k < sizeMag` on the `realft` path and
for every bin `1 ≤ k < sizeMag` on the FFTW path. Entry 0 of the FFTW path is
always written from the DC and Nyquist real parts `re[0]` and `re[sizeMag]`,
whatever their values and whatever the entry held before: in `sms_spectrum`
the magnitude becomes `TO_DB(sqrt(re[0]^2 + re[sizeMag]^2))` and the phase
`atan2(-re[sizeMag], re[0])`, in `sms_quickSpectrum` the magnitude becomes
`sqrt(re[0]^2 + re[sizeMag]^2)` and, when a phase array is given, the phase
`atan2(re[sizeMag], re[0])`. -/
theorem zero_bins_keep_previous_values (ops : PolarOps)
    (fftwf_execute : (Int → ℚ) → (Int → ℚ) × (Int → ℚ))
    (realft : (Int → ℚ) → Int → (Int → ℚ))
    (window wave : Int → ℚ) (w sizeFft : Int) (out : PolarOut) (hasPhase callocOk : Bool)
    (pWaveform mem : Int → ℚ) :
    (∀ k, 1 ≤ k → k < spectrumSizeFft w / 2 →
      (fftwf_execute (spectrumBufferFftw window wave w (spectrumSizeFft w) pWaveform)).1 k = 0 →
      (fftwf_execute (spectrumBufferFftw window wave w (spectrumSizeFft w) pWaveform)).2 k = 0 →
      (sms_spectrum_fftw ops fftwf_execute window wave w out pWaveform).2.mag k = out.mag k ∧
      (sms_spectrum_fftw ops fftwf_execute window wave w out pWaveform).2.phase k =
        out.phase k) ∧
    (∀ k, 0 ≤ k → k < spectrumSizeFft w / 2 →
      realft (spectrumBufferRealft window wave w (spectrumSizeFft w) mem)
        (spectrumSizeFft w / 2) (2 * k + 1) = 0 →
      realft (spectrumBufferRealft window wave w (spectrumSizeFft w) mem)
        (spectrumSizeFft w / 2) (2 * k + 2) = 0 →
      (sms_spectrum_realft ops realft window wave w out callocOk mem).2.mag k = out.mag k ∧
      (sms_spectrum_realft ops realft window wave w out callocOk mem).2.phase k =
        out.phase k) ∧
    (∀ k, 1 ≤ k → k < sizeFft / 2 →
      (fftwf_execute (quickWindowLoop window wave w (memsetMap sizeFft pWaveform))).1 k = 0 →
      (fftwf_execute (quickWindowLoop window wave w (memsetMap sizeFft pWaveform))).2 k = 0 →
      (sms_quickSpectrum_fftw ops fftwf_execute wave window w out hasPhase sizeFft
        pWaveform).2.mag k = out.mag k ∧
      (sms_quickSpectrum_fftw ops fftwf_execute wave window w out hasPhase sizeFft
        pWaveform).2.phase k = out.phase k) ∧
    (∀ k, 0 ≤ k → k < sizeFft / 2 →
      realft (quickWindowLoop window wave w (memsetMap (sizeFft + 1) mem))
        (sizeFft / 2) (2 * k) = 0 →
      realft (quickWindowLoop window wave w (memsetMap (sizeFft + 1) mem))
        (sizeFft / 2) (2 * k + 1) = 0 →
      (sms_quickSpectrum_realft ops realft wave window w out hasPhase sizeFft callocOk
        mem).2.mag k = out.mag k ∧
      (sms_quickSpectrum_realft ops realft wave window w out hasPhase sizeFft callocOk
        mem).2.phase k = out.phase k) ∧
    ((sms_spectrum_fftw ops fftwf_execute window wave w out pWaveform).2.mag 0 =
        ops.TO_DB (ops.sqrt
          ((fftwf_execute (spectrumBufferFftw window wave w (spectrumSizeFft w) pWaveform)).1 0 *
            (fftwf_execute (spectrumBufferFftw window wave w (spectrumSizeFft w) pWaveform)).1 0 +
          (fftwf_execute (spectrumBufferFftw window wave w (spectrumSizeFft w) pWaveform)).1
              (spectrumSizeFft w / 2) *
            (fftwf_execute (spectrumBufferFftw window wave w (spectrumSizeFft w) pWaveform)).1
              (spectrumSizeFft w / 2))) ∧
      (sms_spectrum_fftw ops fftwf_execute window wave w out pWaveform).2.phase 0 =
        ops.atan2
          (-(fftwf_execute (spectrumBufferFftw window wave w (spectrumSizeFft w) pWaveform)).1
            (spectrumSizeFft w / 2))
          ((fftwf_execute (spectrumBufferFftw window wave w (spectrumSizeFft w) pWaveform)).1 0)) ∧
    ((sms_quickSpectrum_fftw ops fftwf_execute wave window w out hasPhase sizeFft
        pWaveform).2.mag 0 =
        ops.sqrt
          ((fftwf_execute (quickWindowLoop window wave w (memsetMap sizeFft pWaveform))).1 0 *
            (fftwf_execute (quickWindowLoop window wave w (memsetMap sizeFft pWaveform))).1 0 +
          (fftwf_execute (quickWindowLoop window wave w (memsetMap sizeFft pWaveform))).1
              (sizeFft / 2) *
            (fftwf_execute (quickWindowLoop window wave w (memsetMap sizeFft pWaveform))).1
              (sizeFft / 2)) ∧
      (hasPhase = true →
        (sms_quickSpectrum_fftw ops fftwf_execute wave window w out hasPhase sizeFft
          pWaveform).2.phase 0 =
          ops.atan2
            ((fftwf_execute (quickWindowLoop window wave w (memsetMap sizeFft pWaveform))).1
              (sizeFft / 2))
            ((fftwf_execute (quickWindowLoop window wave w (memsetMap sizeFft pWaveform))).1 0))) := by
  refine ⟨fun k hk _ hre him => ?_, fun k _ _ hre him => ?_, fun k hk _ hre him => ?_,
    fun k _ _ hre him => ?_, ?_, ?_⟩
  rotate_left 4
  · simp only [sms_spectrum_fftw, spectrumPolarFftw, shiftRight_one_eq, Function.update_same,
      and_self]
  · refine ⟨?_, fun hp => ?_⟩
    · simp only [sms_quickSpectrum_fftw, quickPolarFftw, shiftRight_one_eq,
        Function.update_same]
    · subst hp
      simp only [sms_quickSpectrum_fftw, quickPolarFftw, shiftRight_one_eq, if_true,
        Function.update_same]
  · simp only [sms_spectrum_fftw]
    exact spectrumPolarFftw_zero_bin ops _ _ _ out k (by omega) hre him
  · cases callocOk
    · exact ⟨rfl, rfl⟩
    · simp only [sms_spectrum_realft, shiftRight_one_eq]
      exact spectrumPolarRealft_zero_bin ops _ _ out k hre him
  · simp only [sms_quickSpectrum_fftw]
    exact quickPolarFftw_zero_bin ops _ _ _ hasPhase out k (by omega) hre him
  · cases callocOk
    · exact ⟨rfl, rfl⟩
    · simp only [sms_quickSpectrum_realft, shiftRight_one_eq]
      exact quickPolarRealft_zero_bin ops _ _ hasPhase out k hre him

theorem zero_bins_keep_previous_values_witness :
    (1 : Int) ≤ 1 ∧ (1 : Int) < spectrumSizeFft 3 / 2 ∧
    (zeroSpectrum (spectrumBufferFftw rampWindow rampWave 3 (spectrumSizeFft 3) zeroMap)).1 1 = 0 ∧
    (zeroSpectrum (spectrumBufferFftw rampWindow rampWave 3 (spectrumSizeFft 3) zeroMap)).2 1 = 0 ∧
    (sms_spectrum_fftw zeroBinOps zeroSpectrum rampWindow rampWave 3 onesOut zeroMap).2.mag 1 =
      onesOut.mag 1 ∧
    (sms_spectrum_fftw zeroBinOps zeroSpectrum rampWindow rampWave 3 onesOut zeroMap).2.phase 1 =
      onesOut.phase 1 := by
  have hsize : (1 : Int) < spectrumSizeFft 3 / 2 := by
    have h := spectrumSizeFft_natCast 3 (by decide)
    have h8 : spectrumSizeFft 3 = 8 := by simpa [Nat.log] using h
    rw [h8]
    decide
  exact ⟨by decide, hsize, rfl, rfl,
    (zero_bins_keep_previous_values zeroBinOps zeroSpectrum (fun b _ => b) rampWindow rampWave
      3 8 onesOut true true zeroMap zeroMap).1 1 (by decide) hsize rfl rfl⟩

/-! ## Bracket frames of the resynthesis loop -/

/-- C10, evaluation at the failing input: with 100 frames and the frame
location 98.5 the left bracket is 98, which is not the last frame index 99,
and the right bracket is 98 as well, not 99. -/
theorem bracketFrames_before_last :
    bracketFrames 100 (197 / 2) = (98, 98) ∧ (98 : Int) ≠ 100 - 1 ∧ (98 : Int) ≠ 98 + 1 := by
  have h : ⌊(197 / 2 : ℚ)⌋ = 98 := by norm_num
  simp [bracketFrames, h, MIN]

/-! ## Bracket frames: range -/

/-- C11: for every frame count `nFrames ≥ 1` and coordinate `c ≥ 0` both
bracket indices of the resynthesis loop lie in `[0, nFrames-1]` and
`left ≤ right ≤ left+1`; for every `c ≥ nFrames-1` both are `nFrames-1`. -/
theorem bracketFrames_in_range (nFrames : Int) (c : ℚ) (hn : 1 ≤ nFrames) (hc : 0 ≤ c) :
    0 ≤ (bracketFrames nFrames c).1 ∧ (bracketFrames nFrames c).1 ≤ nFrames - 1 ∧
    0 ≤ (bracketFrames nFrames c).2 ∧ (bracketFrames nFrames c).2 ≤ nFrames - 1 ∧
    (bracketFrames nFrames c).1 ≤ (bracketFrames nFrames c).2 ∧
    (bracketFrames nFrames c).2 ≤ (bracketFrames nFrames c).1 + 1 ∧
    (((nFrames - 1 : Int) : ℚ) ≤ c →
      (bracketFrames nFrames c).1 = nFrames - 1 ∧ (bracketFrames nFrames c).2 = nFrames - 1) := by
  have hfloor : 0 ≤ ⌊c⌋ := Int.floor_nonneg.2 hc
  have hlast : ((nFrames - 1 : Int) : ℚ) ≤ c → nFrames - 1 ≤ ⌊c⌋ := fun h => Int.le_floor.2 h
  simp only [bracketFrames, MIN]
  refine ⟨?_, ?_, ?_, ?_, ?_, ?_, fun h => ?_⟩
  · split_ifs <;> omega
  · split_ifs <;> omega
  · split_ifs <;> omega
  · split_ifs <;> omega
  · split_ifs <;> omega
  · split_ifs <;> omega
  · have := hlast h
    constructor <;> split_ifs <;> omega

theorem bracketFrames_in_range_witness :
    (1 : Int) ≤ 100 ∧ (0 : ℚ) ≤ 199 / 2 ∧ bracketFrames 100 (199 / 2) = (99, 99) ∧
    (0 ≤ (bracketFrames 100 (199 / 2)).1 ∧ (bracketFrames 100 (199 / 2)).1 ≤ 100 - 1 ∧
    0 ≤ (bracketFrames 100 (199 / 2)).2 ∧ (bracketFrames 100 (199 / 2)).2 ≤ 100 - 1 ∧
    (bracketFrames 100 (199 / 2)).1 ≤ (bracketFrames 100 (199 / 2)).2 ∧
    (bracketFrames 100 (199 / 2)).2 ≤ (bracketFrames 100 (199 / 2)).1 + 1 ∧
    ((((100 : Int) - 1 : Int) : ℚ) ≤ 199 / 2 →
      (bracketFrames 100 (199 / 2)).1 = 100 - 1 ∧ (bracketFrames 100 (199 / 2)).2 = 100 - 1)) := by
  have h : ⌊(199 / 2 : ℚ)⌋ = 99 := by norm_num
  exact ⟨by decide, by norm_num, by simp [bracketFrames, h, MIN],
    bracketFrames_in_range 100 (199 / 2) (by decide) (by norm_num)⟩

/-! ## `sms_initSynth` and the sample count -/

theorem sms_power2_smallest (n : Int) (h0 : 0 < n) (h1 : n ≤ 2 ^ 30) :
    ∃ (v : Int) (k : Nat), sms_power2 n = some v ∧ v = 2 ^ k ∧ n ≤ v ∧
      ∀ j : Nat, n ≤ 2 ^ j → v ≤ 2 ^ j := by
  obtain ⟨m, rfl⟩ : ∃ m : Nat, n = (m : Int) := ⟨n.toNat, by omega⟩
  have hm0 : 0 < m := by exact_mod_cast h0
  have hm1 : m ≤ 2 ^ 30 := by exact_mod_cast h1
  have hne : m ≠ 0 := by omega
  have hle := Nat.pow_log_le_self 2 hne
  have hlt := Nat.lt_pow_succ_log_self (b := 2) (by decide) m
  rw [sms_power2_natCast m hm0 hm1]
  by_cases hpow : 2 ^ Nat.log 2 m = m
  · refine ⟨_, Nat.log 2 m, by rw [if_pos hpow], ?_, le_refl _, fun j hj => hj⟩
    exact_mod_cast hpow.symm
  · refine ⟨_, Nat.log 2 m + 1, by rw [if_neg hpow], rfl, ?_, fun j hj => ?_⟩
    · exact_mod_cast le_of_lt hlt
    · have hj' : m ≤ 2 ^ j := by exact_mod_cast hj
      have hlj : Nat.log 2 m < j := by
        by_contra hcon
        have h2 : 2 ^ j ≤ 2 ^ Nat.log 2 m := Nat.pow_le_pow_right (by decide) (by omega)
        omega
      exact_mod_cast Nat.pow_le_pow_right (by decide) hlj

theorem sms_initSynth_spec (hdr : SMS_Header) (sp : SMS_SynthParams) (e : ErrorState)
    (ok : Bool) (hfr : hdr.iFrameRate ≠ 0) (h0 : 0 < sp.sizeHop) (h1 : sp.sizeHop ≤ 2 ^ 30) :
    ∃ (r : InitSynthResult) (v : Int), sms_power2 sp.sizeHop = some v ∧
      sms_initSynth hdr sp e ok = some r ∧
      r.params.sizeHop = v ∧
      r.params.iOriginalSRate = hdr.iSamplingRate ∧
      r.params.origSizeHop = hdr.iSamplingRate.tdiv hdr.iFrameRate ∧
      r.params.iStochasticType = hdr.iStochasticType ∧
      r.params.iSamplingRate =
        (if sp.iSamplingRate ≤ 0 then hdr.iSamplingRate else sp.iSamplingRate) ∧
      (ok = true → r.ret = SMS_OK ∧ r.err = e) ∧
      (ok = false → r.ret = -1 ∧ r.err.error_status = -1) := by
  obtain ⟨v, -, hv, -, -, -⟩ := sms_power2_smallest sp.sizeHop h0 h1
  by_cases hs : sp.iSamplingRate ≤ 0 <;> by_cases hvs : v = sp.sizeHop <;> cases ok <;>
    simp [sms_initSynth, hfr, hs, hv, hvs, sms_error]

/-! ## Single precision rounding -/

theorem roundHalfEven_eq {K : Type} [LinearOrderedField K] [FloorRing K] (x : K) (m : Int)
    (h1 : (m : K) - 1 / 2 < x) (h2 : x < (m : K) + 1 / 2) : roundHalfEven x = m := by
  unfold roundHalfEven
  by_cases hx : (m : K) ≤ x
  · have hf : ⌊x⌋ = m := by
      rw [Int.floor_eq_iff]
      exact ⟨hx, by linarith⟩
    rw [hf, if_pos (by linarith)]
  · have hx' : x < (m : K) := not_le.1 hx
    have hf : ⌊x⌋ = m - 1 := by
      rw [Int.floor_eq_iff]
      push_cast
      exact ⟨by linarith, by linarith⟩
    rw [hf]
    push_cast
    rw [if_neg (by linarith), if_pos (by linarith)]
    ring

theorem ulpExp32_eq {K : Type} [LinearOrderedField K] [FloorRing K] (q : K) (e : Int)
    (he : -126 ≤ e) (h1 : (2 : K) ^ e ≤ |q|) (h2 : |q| < (2 : K) ^ (e + 1)) :
    ulpExp32 q = e - 23 := by
  have hpos : (0 : K) < |q| := lt_of_lt_of_le (by positivity) h1
  have hlog : Int.log 2 |q| = e := by
    apply le_antisymm
    · have := (Int.lt_zpow_iff_log_lt (b := 2) (by norm_num) hpos).1 (by exact_mod_cast h2)
      omega
    · exact (Int.zpow_le_iff_le_log (b := 2) (by norm_num) hpos).1 (by exact_mod_cast h1)
  unfold ulpExp32
  rw [hlog, max_eq_left he]

theorem f32_eq {K : Type} [LinearOrderedField K] [FloorRing K] (q v : K) (e m : Int)
    (he : -126 ≤ e) (h1 : (2 : K) ^ e ≤ |q|) (h2 : |q| < (2 : K) ^ (e + 1))
    (h3 : (m : K) - 1 / 2 < q / 2 ^ (e - 23)) (h4 : q / 2 ^ (e - 23) < (m : K) + 1 / 2)
    (hv : (m : K) * 2 ^ (e - 23) = v) : f32 q = v := by
  have hq : q ≠ 0 := by
    intro h
    rw [h, abs_zero] at h1
    exact absurd h1 (not_le.2 (by positivity))
  rw [f32, if_neg hq, ulpExp32_eq q e he h1 h2, roundHalfEven_eq _ m h3 h4, hv]

theorem roundHalfEven_nonneg {K : Type} [LinearOrderedField K] [FloorRing K] (x : K)
    (h : 0 ≤ x) : 0 ≤ roundHalfEven x := by
  have hf : 0 ≤ ⌊x⌋ := Int.floor_nonneg.2 h
  unfold roundHalfEven
  split_ifs <;> omega

theorem f32_nonneg {K : Type} [LinearOrderedField K] [FloorRing K] (q : K) (h : 0 ≤ q) :
    0 ≤ f32 q := by
  unfold f32
  split_ifs with hq
  · exact le_refl 0
  · have hp : (0 : K) < 2 ^ ulpExp32 q := by positivity
    have hx : 0 ≤ q / 2 ^ ulpExp32 q := div_nonneg h (le_of_lt hp)
    have hr : (0 : K) ≤ (roundHalfEven (q / 2 ^ ulpExp32 q) : K) := by
      exact_mod_cast roundHalfEven_nonneg _ hx
    exact mul_nonneg hr (le_of_lt hp)

theorem f32_44100 : f32 (44100 : ℚ) = 44100 :=
  f32_eq _ _ 15 11289600 (by norm_num) (by norm_num [abs_of_pos]) (by norm_num [abs_of_pos])
    (by norm_num) (by norm_num) (by norm_num)

theorem f32_48000 : f32 (48000 : ℚ) = 48000 :=
  f32_eq _ _ 15 12288000 (by norm_num) (by norm_num [abs_of_pos]) (by norm_num [abs_of_pos])
    (by norm_num) (by norm_num) (by norm_num)

theorem f32_one : f32 (1 : ℚ) = 1 :=
  f32_eq _ _ 0 8388608 (by norm_num) (by norm_num [abs_of_pos]) (by norm_num [abs_of_pos])
    (by norm_num) (by norm_num) (by norm_num)

/-! ## The sample count of the resynthesis scheduler -/

theorem longExample_nSamples : smsSynth_nSamples f32 longHeader longSynthParams 1 = 33546242 := by
  have e3 : f32 ((48000 : ℚ) / 44100) = 4565229 / 4194304 :=
    f32_eq _ _ 0 9130458 (by norm_num) (by norm_num [abs_of_pos]) (by norm_num [abs_of_pos])
      (by norm_num) (by norm_num) (by norm_num)
  have e4 : f32 (30820608 : ℚ) = 30820608 :=
    f32_eq _ _ 24 15410304 (by norm_num) (by norm_num [abs_of_pos]) (by norm_num [abs_of_pos])
      (by norm_num) (by norm_num) (by norm_num)
  have e5 : f32 ((30820608 : ℚ) * (4565229 / 4194304)) = 33546242 :=
    f32_eq _ _ 24 16773121 (by norm_num) (by norm_num [abs_of_pos]) (by norm_num [abs_of_pos])
      (by norm_num) (by norm_num) (by norm_num)
  have c1 : (((longHeader.nFrames * longSynthParams.origSizeHop : Int)) : ℚ) = 30820608 := by
    norm_num [longHeader, longSynthParams]
  have c2 : ((longSynthParams.iSamplingRate : Int) : ℚ) = 48000 := by norm_num [longSynthParams]
  have c3 : ((longHeader.iSamplingRate : Int) : ℚ) = 44100 := by norm_num [longHeader]
  rw [smsSynth_nSamples, smsSynth_fFsRatio, c1, c2, c3, e4, mul_one, e4, f32_48000, f32_44100,
    e3, e5]
  norm_num [truncToInt]

/-- C12, counterexample: for 69888 frames analysed at 44100 Hz with the original
hop 441, resynthesised at 48000 Hz with time factor 1, the exact product
`69888 * 441 * 1 * (48000/44100)` is 33546240, while the `float` product of the
scheduler is 33546242: the ratio `48000/44100` is rounded to `float` and the
product lies between `2^24` and `2^25`, where `float` holds even numbers only. -/
theorem smsSynth_nSamples_float_rounding :
    sms_initSynth longHeader { defaultSynthParams with iSamplingRate := 48000, sizeHop := 4096 }
        noError true = some { ret := SMS_OK, params := longSynthParams, err := noError } ∧
    smsSynth_nSamples f32 longHeader longSynthParams 1 = 33546242 ∧
    truncToInt ((longHeader.nFrames : ℚ) * (longSynthParams.origSizeHop : ℚ) * 1 *
      ((longSynthParams.iSamplingRate : ℚ) / (longHeader.iSamplingRate : ℚ))) = 33546240 := by
  refine ⟨by decide, longExample_nSamples, ?_⟩
  norm_num [longHeader, longSynthParams, truncToInt]

/-- C12, amended: after `sms_initSynth`, with `origSizeHop` the integer quotient
`originalRate / frameRate` and `outputRate` the configured rate, or the
original rate when none is configured, the sample count of the resynthesis
scheduler is the `float` product; it equals
`nFrames * origSizeHop * timeFactor * (outputRate / originalRate)` truncated to
an integer whenever the two rates, their quotient, the integer product
`nFrames * origSizeHop` and the two products with `timeFactor` and with the
ratio are not changed by the rounding `fl` of `float`. -/
theorem smsSynth_nSamples_formula (fl : ℚ → ℚ) (hdr : SMS_Header) (sp : SMS_SynthParams)
    (e : ErrorState) (ok : Bool) (timeFactor : ℚ) (hfr : 0 < hdr.iFrameRate)
    (h0 : 0 < sp.sizeHop) (h1 : sp.sizeHop ≤ 2 ^ 30) :
    ∃ r, sms_initSynth hdr sp e ok = some r ∧
      r.params.origSizeHop = hdr.iSamplingRate.tdiv hdr.iFrameRate ∧
      r.params.iSamplingRate =
        (if sp.iSamplingRate ≤ 0 then hdr.iSamplingRate else sp.iSamplingRate) ∧
      (fl (r.params.iSamplingRate : ℚ) = (r.params.iSamplingRate : ℚ) →
        fl (hdr.iSamplingRate : ℚ) = (hdr.iSamplingRate : ℚ) →
        fl ((r.params.iSamplingRate : ℚ) / (hdr.iSamplingRate : ℚ)) =
          (r.params.iSamplingRate : ℚ) / (hdr.iSamplingRate : ℚ) →
        fl ((hdr.nFrames * r.params.origSizeHop : Int) : ℚ) =
          ((hdr.nFrames * r.params.origSizeHop : Int) : ℚ) →
        fl (((hdr.nFrames * r.params.origSizeHop : Int) : ℚ) * timeFactor) =
          ((hdr.nFrames * r.params.origSizeHop : Int) : ℚ) * timeFactor →
        fl (((hdr.nFrames * r.params.origSizeHop : Int) : ℚ) * timeFactor *
            ((r.params.iSamplingRate : ℚ) / (hdr.iSamplingRate : ℚ))) =
          ((hdr.nFrames * r.params.origSizeHop : Int) : ℚ) * timeFactor *
            ((r.params.iSamplingRate : ℚ) / (hdr.iSamplingRate : ℚ)) →
        smsSynth_nSamples fl hdr r.params timeFactor =
          truncToInt ((hdr.nFrames : ℚ) * (r.params.origSizeHop : ℚ) * timeFactor *
            ((r.params.iSamplingRate : ℚ) / (hdr.iSamplingRate : ℚ)))) := by
  obtain ⟨r, v, -, hr, -, -, hhop, -, hsr, -, -⟩ :=
    sms_initSynth_spec hdr sp e ok (by omega) h0 h1
  refine ⟨r, hr, hhop, hsr, fun e1 e2 e3 e4 e5 e6 => ?_⟩
  rw [smsSynth_nSamples, smsSynth_fFsRatio, e1, e2, e3, e4, e5, e6]
  push_cast
  rfl

theorem smsSynth_nSamples_formula_witness :
    (0 : Int) < exampleHeader.iFrameRate ∧
    0 < defaultSynthParams.sizeHop ∧ defaultSynthParams.sizeHop ≤ 2 ^ 30 ∧
    ∃ r, sms_initSynth exampleHeader defaultSynthParams noError true = some r ∧
      r.params.origSizeHop = 441 ∧ r.params.iSamplingRate = exampleHeader.iSamplingRate ∧
      smsSynth_nSamples f32 exampleHeader r.params 1 = 44100 := by
  obtain ⟨r, hr, hhop, hsr, hn⟩ :=
    smsSynth_nSamples_formula f32 exampleHeader defaultSynthParams noError true 1
      (by decide) (by decide) (by decide)
  have hhop' : r.params.origSizeHop = 441 := by rw [hhop]; decide
  have hsr' : r.params.iSamplingRate = 44100 := by rw [hsr]; decide
  have c1 : ((exampleHeader.nFrames * 441 : Int) : ℚ) = 44100 := by norm_num [exampleHeader]
  have c2 : ((exampleHeader.iSamplingRate : Int) : ℚ) = 44100 := by norm_num [exampleHeader]
  have c3 : ((exampleHeader.nFrames : Int) : ℚ) = 100 := by norm_num [exampleHeader]
  have c4 : (((44100 : Int)) : ℚ) = 44100 := by norm_num
  have c5 : (((441 : Int)) : ℚ) = 441 := by norm_num
  have d1 : (44100 : ℚ) / 44100 = 1 := by norm_num
  refine ⟨by decide, by decide, by decide, r, hr, hhop', hsr', ?_⟩
  rw [hhop', hsr', c1, c2, c3, c4, c5, d1, mul_one, mul_one] at hn
  rw [hn f32_44100 f32_44100 f32_one f32_44100 f32_44100 f32_44100]
  norm_num [truncToInt]

/-- C14, counterexample: for the configured hop size 129, `sms_initSynth`
leaves `sizeHop = 256`, while the power of two 128 is nearer to 129. -/
theorem initSynth_hop_not_nearest :
    ∃ r, sms_initSynth exampleHeader { defaultSynthParams with sizeHop := 129 } noError true =
        some r ∧
      r.params.sizeHop = 256 ∧ (128 : Int) = 2 ^ 7 ∧
      |(129 : Int) - 128| < |(129 : Int) - r.params.sizeHop| := by
  refine ⟨_, rfl, ?_, ?_, ?_⟩ <;> decide

/-- C14, amended: for every configured synthesis hop size `h` with
`0 < h ≤ 2^30`, after `sms_initSynth` the hop size `sizeHop` is the smallest
power of two that is at least `h`; it equals `h` when `h` is already a power
of two. -/
theorem initSynth_hop_next_power (hdr : SMS_Header) (sp : SMS_SynthParams) (e : ErrorState)
    (ok : Bool) (hfr : hdr.iFrameRate ≠ 0) (h0 : 0 < sp.sizeHop) (h1 : sp.sizeHop ≤ 2 ^ 30) :
    ∃ (r : InitSynthResult) (k : Nat), sms_initSynth hdr sp e ok = some r ∧
      r.params.sizeHop = 2 ^ k ∧ sp.sizeHop ≤ r.params.sizeHop ∧
      (∀ j : Nat, sp.sizeHop ≤ 2 ^ j → r.params.sizeHop ≤ 2 ^ j) ∧
      ((∃ j : Nat, sp.sizeHop = 2 ^ j) → r.params.sizeHop = sp.sizeHop) := by
  obtain ⟨r, v, hv, hr, hhop, -⟩ := sms_initSynth_spec hdr sp e ok hfr h0 h1
  obtain ⟨v', k, hv', hk, hle, hmin⟩ := sms_power2_smallest sp.sizeHop h0 h1
  obtain rfl : v = v' := by rw [hv] at hv'; exact Option.some.inj hv'
  refine ⟨r, k, hr, ?_, ?_, ?_, fun ⟨j, hj⟩ => ?_⟩
  · rw [hhop]; exact hk
  · rw [hhop]; exact hle
  · rw [hhop]; exact hmin
  · rw [hhop]
    exact le_antisymm (by rw [hj]; exact hmin j (le_of_eq hj)) hle

theorem initSynth_hop_next_power_witness :
    exampleHeader.iFrameRate ≠ 0 ∧ (0 : Int) < 1000 ∧ (1000 : Int) ≤ 2 ^ 30 ∧
    ∃ (r : InitSynthResult) (k : Nat),
      sms_initSynth exampleHeader { defaultSynthParams with sizeHop := 1000 } noError true =
        some r ∧
      r.params.sizeHop = 2 ^ k ∧ (1000 : Int) ≤ r.params.sizeHop ∧
      (∀ j : Nat, (1000 : Int) ≤ 2 ^ j → r.params.sizeHop ≤ 2 ^ j) ∧
      ((∃ j : Nat, (1000 : Int) = 2 ^ j) → r.params.sizeHop = 1000) :=
  ⟨by decide, by decide, by decide,
    initSynth_hop_next_power exampleHeader { defaultSynthParams with sizeHop := 1000 } noError
      true (by decide) (by decide) (by decide)⟩

/-! ## Frame location of an output hop -/

theorem setMagThresh_thresh {K : Type} [LinearOrderedField K] (t : K) :
    (sms_setMagThresh t).mag_thresh = max t 0.00001 ∧
    (sms_setMagThresh t).inv_mag_thresh = 1 / max t 0.00001 ∧
    (0 : K) < (sms_setMagThresh t).mag_thresh := by
  have hpos : (0 : K) < 0.00001 := by norm_num
  by_cases h : t < 0.00001
  · have hmax : max t 0.00001 = 0.00001 := max_eq_right (le_of_lt h)
    simp only [sms_setMagThresh, if_pos h, hmax]
    exact ⟨trivial, trivial, hpos⟩
  · have hmax : max t 0.00001 = t := max_eq_left (not_lt.1 h)
    simp only [sms_setMagThresh, if_neg h, hmax]
    exact ⟨trivial, trivial, lt_of_lt_of_le hpos (not_lt.1 h)⟩

theorem real_pow_log (y : ℝ) (hy : 0 < y) : (10 : ℝ) ^ (Real.log y / Real.log 10) = y := by
  have h10 : Real.log 10 ≠ 0 := ne_of_gt (Real.log_pos (by norm_num))
  rw [Real.rpow_def_of_pos (by norm_num : (0 : ℝ) < 10), mul_div_cancel₀ _ h10,
    Real.exp_log hy]

theorem real_one_lt_log_ten : (1 : ℝ) < Real.log 10 := by
  rw [Real.lt_log_iff_exp_lt (by norm_num)]
  exact lt_trans Real.exp_one_lt_d9 (by norm_num)

theorem magToDB_above {K : Type} [LinearOrderedField K] (m : Libm K) (t x : K)
    (hx : (sms_setMagThresh t).mag_thresh ≤ x) :
    sms_magToDB m (sms_setMagThresh t) x =
      20 / m.LOG10 * m.log (x * (1 / (sms_setMagThresh t).mag_thresh)) := by
  have hinv : (sms_setMagThresh t).inv_mag_thresh = 1 / (sms_setMagThresh t).mag_thresh := by
    rw [(setMagThresh_thresh t).2.1, (setMagThresh_thresh t).1]
  rw [sms_magToDB, if_neg (not_lt.2 hx), TWENTY_OVER_LOG10, hinv]

/-- C15, counterexample (real numbers, real logarithm and power, threshold 1):
the magnitude `1.0000001` is strictly above the threshold, its decibel value
`20/ln 10 * ln 1.0000001` is below `0.00001`, and `sms_dBToMag` maps every
value below `0.00001` to 0, so the round trip gives 0 and not `1.0000001`. -/
theorem dBToMag_magToDB_just_above_threshold :
    (sms_setMagThresh (1 : ℝ)).mag_thresh < 1.0000001 ∧
    sms_dBToMag (⟨Real.log, fun a b => a ^ b, Real.log 10⟩ : Libm ℝ) (sms_setMagThresh 1)
      (sms_magToDB (⟨Real.log, fun a b => a ^ b, Real.log 10⟩ : Libm ℝ) (sms_setMagThresh 1)
        1.0000001) = 0 ∧
    sms_dBToMag (⟨Real.log, fun a b => a ^ b, Real.log 10⟩ : Libm ℝ) (sms_setMagThresh 1)
      (sms_magToDB (⟨Real.log, fun a b => a ^ b, Real.log 10⟩ : Libm ℝ) (sms_setMagThresh 1)
        1.0000001) ≠ 1.0000001 := by
  have hth : (sms_setMagThresh (1 : ℝ)).mag_thresh = 1 := by
    rw [(setMagThresh_thresh (1 : ℝ)).1]
    exact max_eq_left (by norm_num)
  have hlt : (sms_setMagThresh (1 : ℝ)).mag_thresh < 1.0000001 := by
    rw [hth]; norm_num
  have hdb : sms_magToDB (⟨Real.log, fun a b => a ^ b, Real.log 10⟩ : Libm ℝ)
      (sms_setMagThresh 1) 1.0000001 < 0.00001 := by
    rw [magToDB_above _ _ _ (le_of_lt hlt), hth]
    have h10 := real_one_lt_log_ten
    have hlog : Real.log (1.0000001 * (1 / 1)) ≤ 0.0000001 := by
      have := Real.log_le_sub_one_of_pos (show (0 : ℝ) < 1.0000001 * (1 / 1) by norm_num)
      norm_num at this ⊢
      linarith
    have hlog0 : 0 ≤ Real.log (1.0000001 * (1 / 1)) := Real.log_nonneg (by norm_num)
    have hcoef : (20 : ℝ) / Real.log 10 ≤ 20 := by
      rw [div_le_iff₀ (by linarith)]
      linarith
    have hcoef0 : (0 : ℝ) ≤ 20 / Real.log 10 := by positivity
    calc (20 : ℝ) / Real.log 10 * Real.log (1.0000001 * (1 / 1))
        ≤ 20 * 0.0000001 := mul_le_mul hcoef hlog hlog0 (by norm_num)
      _ < 0.00001 := by norm_num
  have hzero : sms_dBToMag (⟨Real.log, fun a b => a ^ b, Real.log 10⟩ : Libm ℝ)
      (sms_setMagThresh 1)
      (sms_magToDB (⟨Real.log, fun a b => a ^ b, Real.log 10⟩ : Libm ℝ) (sms_setMagThresh 1)
        1.0000001) = 0 := by
    rw [sms_dBToMag, if_pos hdb]
  refine ⟨hlt, hzero, ?_⟩
  rw [hzero]
  norm_num

/-- C15, amended: for every threshold `t` configured through `sms_setMagThresh`
and every `x` strictly above the effective threshold whose decibel value
`sms_magToDB(x)` is at least `0.00001`, `sms_dBToMag(sms_magToDB(x)) = x` over
exact arithmetic (`10^(log y / LOG10) = y` for `y > 0`); when the decibel value
is below `0.00001` the result of `sms_dBToMag` is 0. -/
theorem dBToMag_magToDB {K : Type} [LinearOrderedField K] (m : Libm K) (t x : K)
    (hpow : ∀ y, 0 < y → m.pow 10 (m.log y / m.LOG10) = y)
    (hx : (sms_setMagThresh t).mag_thresh < x) :
    (0.00001 ≤ sms_magToDB m (sms_setMagThresh t) x →
      sms_dBToMag m (sms_setMagThresh t) (sms_magToDB m (sms_setMagThresh t) x) = x) ∧
    (sms_magToDB m (sms_setMagThresh t) x < 0.00001 →
      sms_dBToMag m (sms_setMagThresh t) (sms_magToDB m (sms_setMagThresh t) x) = 0) := by
  have hpos := (setMagThresh_thresh t).2.2
  refine ⟨fun hdb => ?_, fun hdb => ?_⟩
  · rw [sms_dBToMag, if_neg (not_lt.2 hdb), magToDB_above m t x (le_of_lt hx)]
    have hy : 0 < x * (1 / (sms_setMagThresh t).mag_thresh) := by
      have hx0 : 0 < x := lt_trans hpos hx
      positivity
    have hexp : 20 / m.LOG10 * m.log (x * (1 / (sms_setMagThresh t).mag_thresh)) * 0.05 =
        m.log (x * (1 / (sms_setMagThresh t).mag_thresh)) / m.LOG10 := by
      norm_num
      ring
    rw [hexp, hpow _ hy]
    field_simp
  · rw [sms_dBToMag, if_pos hdb]

theorem dBToMag_magToDB_witness :
    (∀ y : ℝ, 0 < y → (10 : ℝ) ^ (Real.log y / Real.log 10) = y) ∧
    (sms_setMagThresh (1 : ℝ)).mag_thresh < 10 ∧
    sms_magToDB (⟨Real.log, fun a b => a ^ b, Real.log 10⟩ : Libm ℝ) (sms_setMagThresh 1) 10 =
      20 ∧
    sms_dBToMag (⟨Real.log, fun a b => a ^ b, Real.log 10⟩ : Libm ℝ) (sms_setMagThresh 1)
      (sms_magToDB (⟨Real.log, fun a b => a ^ b, Real.log 10⟩ : Libm ℝ) (sms_setMagThresh 1)
        10) = 10 := by
  have hth1 : (sms_setMagThresh (1 : ℝ)).mag_thresh = 1 := by
    rw [(setMagThresh_thresh (1 : ℝ)).1, max_eq_left (by norm_num)]
  have hth : (sms_setMagThresh (1 : ℝ)).mag_thresh < 10 := by
    rw [hth1]
    norm_num
  have h10 : Real.log 10 ≠ 0 := ne_of_gt (Real.log_pos (by norm_num))
  have hdb : sms_magToDB (⟨Real.log, fun a b => a ^ b, Real.log 10⟩ : Libm ℝ)
      (sms_setMagThresh 1) 10 = 20 := by
    rw [magToDB_above _ _ _ (le_of_lt hth), hth1]
    simp only [mul_one, div_one]
    exact div_mul_cancel₀ _ h10
  refine ⟨real_pow_log, hth, hdb, ?_⟩
  exact (dBToMag_magToDB (⟨Real.log, fun a b => a ^ b, Real.log 10⟩ : Libm ℝ) 1 10
    real_pow_log hth).1 (by rw [hdb]; norm_num)

theorem f32_neg_of_le {K : Type} [LinearOrderedField K] [FloorRing K] (q : K)
    (h : q ≤ -(2 : K) ^ (-126 : Int)) : f32 q < 0 := by
  have hp126 : (0 : K) < (2 : K) ^ (-126 : Int) := by positivity
  have hq : q < 0 := by linarith
  have habs : |q| = -q := abs_of_neg hq
  have hpos : (0 : K) < |q| := by
    rw [habs]
    linarith
  have hlog : (2 : K) ^ Int.log 2 |q| ≤ |q| := by
    exact_mod_cast Int.zpow_log_le_self (b := 2) (by norm_num) hpos
  have hmax : (2 : K) ^ max (Int.log 2 |q|) (-126) ≤ |q| := by
    rcases max_cases (Int.log 2 |q|) (-126) with ⟨h1, -⟩ | ⟨h1, -⟩
    · rw [h1]
      exact hlog
    · rw [h1, habs]
      linarith
  have hu : (0 : K) < 2 ^ ulpExp32 q := by positivity
  have hsplit : (2 : K) ^ max (Int.log 2 |q|) (-126) = 2 ^ ulpExp32 q * 2 ^ (23 : Int) := by
    rw [← zpow_add₀ (by norm_num : (2 : K) ≠ 0)]
    congr 1
    unfold ulpExp32
    omega
  have hx : q / 2 ^ ulpExp32 q ≤ -(2 : K) ^ (23 : Int) := by
    rw [div_le_iff₀ hu]
    rw [hsplit, habs] at hmax
    linarith
  have hfloor : ⌊q / 2 ^ ulpExp32 q⌋ ≤ -8388608 := by
    have h23 : -(2 : K) ^ (23 : Int) = ((-8388608 : Int) : K) := by norm_num
    rw [h23] at hx
    have := Int.floor_mono hx
    rwa [Int.floor_intCast] at this
  have hr : roundHalfEven (q / 2 ^ ulpExp32 q) < 0 := by
    unfold roundHalfEven
    split_ifs <;> omega
  rw [f32, if_neg (ne_of_lt hq)]
  have hrK : ((roundHalfEven (q / 2 ^ ulpExp32 q) : Int) : K) < 0 := by exact_mod_cast hr
  exact mul_neg_of_neg_of_pos hrK hu

theorem sms_setMagThresh_fl_id {K : Type} [LinearOrderedField K] (t : K) :
    sms_setMagThresh_fl id t = sms_setMagThresh t := rfl

theorem sms_magToDB_fl_id {K : Type} [LinearOrderedField K] (m : Libm K) (st : MagThresh K)
    (x : K) : sms_magToDB_fl id m st x = sms_magToDB m st x := rfl

/-- C16, counterexample: in single precision, after `sms_setMagThresh(41/1024)`
the threshold is `41/1024` and the stored reciprocal is `1024/41` rounded down
to `13094412 / 2^19`; for `x = 41/1024`, which is at the threshold, the `float`
product `x * inv_mag_thresh` is `1 - 2^-24`, below 1, and `sms_magToDB(x)` is
negative (about `-5.2e-7`). -/
theorem magToDB_negative_at_threshold :
    (sms_setMagThresh_fl f32 (41 / 1024 : ℝ)).mag_thresh = 41 / 1024 ∧
    (41 / 1024 : ℝ) = max (41 / 1024) 0.00001 ∧
    (sms_setMagThresh_fl f32 (41 / 1024 : ℝ)).inv_mag_thresh = 3273603 / 131072 ∧
    f32 ((41 / 1024 : ℝ) * (sms_setMagThresh_fl f32 (41 / 1024 : ℝ)).inv_mag_thresh) =
      16777215 / 16777216 ∧
    sms_magToDB_fl f32 (⟨Real.log, fun a b => a ^ b, Real.log 10⟩ : Libm ℝ)
      (sms_setMagThresh_fl f32 (41 / 1024)) (41 / 1024) < 0 := by
  have hthr : (sms_setMagThresh_fl f32 (41 / 1024 : ℝ)).mag_thresh = 41 / 1024 := by
    simp only [sms_setMagThresh_fl]
    rw [if_neg (by norm_num)]
  have e1 : f32 ((1 : ℝ) / (41 / 1024)) = 3273603 / 131072 :=
    f32_eq _ _ 4 13094412 (by norm_num) (by norm_num [abs_of_pos]) (by norm_num [abs_of_pos])
      (by norm_num) (by norm_num) (by norm_num)
  have hinv : (sms_setMagThresh_fl f32 (41 / 1024 : ℝ)).inv_mag_thresh = 3273603 / 131072 := by
    simp only [sms_setMagThresh_fl]
    rw [if_neg (by norm_num), e1]
  have e2 : f32 ((41 / 1024 : ℝ) * (3273603 / 131072)) = 16777215 / 16777216 :=
    f32_eq _ _ (-1) 16777215 (by norm_num) (by norm_num [abs_of_pos])
      (by norm_num [abs_of_pos]) (by norm_num) (by norm_num) (by norm_num)
  have hlog10 : 0 < Real.log 10 := Real.log_pos (by norm_num)
  have hlog10' : Real.log 10 ≤ 20 := by
    have := Real.log_le_sub_one_of_pos (show (0 : ℝ) < 10 by norm_num)
    linarith
  have hlog : Real.log (16777215 / 16777216) ≤ -(1 / 16777216) := by
    have := Real.log_le_sub_one_of_pos (show (0 : ℝ) < 16777215 / 16777216 by norm_num)
    linarith
  have hc : (1 : ℝ) ≤ 20 / Real.log 10 := by
    rw [le_div_iff₀ hlog10]
    linarith
  have hy : 20 / Real.log 10 * Real.log (16777215 / 16777216) ≤ -(2 : ℝ) ^ (-126 : Int) := by
    have h1 : 20 / Real.log 10 * Real.log (16777215 / 16777216) ≤
        1 * Real.log (16777215 / 16777216) :=
      mul_le_mul_of_nonpos_right hc (by linarith)
    have h2 : (1 / 16777216 : ℝ) = 2 ^ (-24 : Int) := by norm_num
    have h3 : (2 : ℝ) ^ (-126 : Int) ≤ 2 ^ (-24 : Int) :=
      zpow_le_zpow_right₀ (by norm_num) (by norm_num)
    linarith
  refine ⟨hthr, ?_, hinv, by rw [hinv, e2], ?_⟩
  · rw [max_eq_left (by norm_num)]
  · rw [sms_magToDB_fl, hthr, if_neg (lt_irrefl _), hinv, e2]
    exact f32_neg_of_le _ hy

/-- C16, amended: after `sms_setMagThresh(t)`, with `fl` the rounding of
`sfloat`, the threshold is `t` when `t ≥ 0.00001` and the rounded constant
`fl(0.00001)` otherwise, and `inv_mag_thresh` is the rounded reciprocal
`fl(1 / mag_thresh)`. `sms_magToDB(x) = 0` for every `x` below the threshold,
and `sms_magToDB(x) ≥ 0` for every `x` at or above it for which the rounded
product `fl(x * inv_mag_thresh)` is at least 1; this is the case whenever the
reciprocal and the product are not changed by the rounding. (The logarithm is
non-negative from 1 on, `LOG10` is positive, and the rounding keeps
non-negative numbers non-negative and `0.00001` positive.) -/
theorem magToDB_threshold {K : Type} [LinearOrderedField K] (fl : K → K) (m : Libm K) (t : K)
    (hlog : ∀ y, 1 ≤ y → 0 ≤ m.log y) (hL : 0 < m.LOG10)
    (hfl : ∀ y, 0 ≤ y → 0 ≤ fl y) (hthr : 0 < fl 0.00001) :
    (sms_setMagThresh_fl fl t).mag_thresh = (if t < 0.00001 then fl 0.00001 else t) ∧
    (sms_setMagThresh_fl fl t).inv_mag_thresh = fl (1 / (sms_setMagThresh_fl fl t).mag_thresh) ∧
    0 < (sms_setMagThresh_fl fl t).mag_thresh ∧
    (∀ x, x < (sms_setMagThresh_fl fl t).mag_thresh →
      sms_magToDB_fl fl m (sms_setMagThresh_fl fl t) x = 0) ∧
    (∀ x, (sms_setMagThresh_fl fl t).mag_thresh ≤ x →
      1 ≤ fl (x * (sms_setMagThresh_fl fl t).inv_mag_thresh) →
      0 ≤ sms_magToDB_fl fl m (sms_setMagThresh_fl fl t) x) ∧
    (∀ x, (sms_setMagThresh_fl fl t).mag_thresh ≤ x →
      fl (1 / (sms_setMagThresh_fl fl t).mag_thresh) =
        1 / (sms_setMagThresh_fl fl t).mag_thresh →
      fl (x * (1 / (sms_setMagThresh_fl fl t).mag_thresh)) =
        x * (1 / (sms_setMagThresh_fl fl t).mag_thresh) →
      0 ≤ sms_magToDB_fl fl m (sms_setMagThresh_fl fl t) x) := by
  have hpos : 0 < (sms_setMagThresh_fl fl t).mag_thresh := by
    simp only [sms_setMagThresh_fl]
    split_ifs with h
    · exact hthr
    · have h2 : (0.00001 : K) ≤ t := not_lt.1 h
      have h3 : (0 : K) < 0.00001 := by norm_num
      linarith
  have hge : ∀ x, (sms_setMagThresh_fl fl t).mag_thresh ≤ x →
      1 ≤ fl (x * (sms_setMagThresh_fl fl t).inv_mag_thresh) →
      0 ≤ sms_magToDB_fl fl m (sms_setMagThresh_fl fl t) x := by
    intro x hx h1
    rw [sms_magToDB_fl, if_neg (not_lt.2 hx)]
    apply hfl
    have := hlog _ h1
    unfold TWENTY_OVER_LOG10
    positivity
  refine ⟨rfl, rfl, hpos, fun x hx => ?_, hge, fun x hx e1 e2 => hge x hx ?_⟩
  · rw [sms_magToDB_fl, if_pos hx]
  · have hinv : (sms_setMagThresh_fl fl t).inv_mag_thresh =
        fl (1 / (sms_setMagThresh_fl fl t).mag_thresh) := rfl
    rw [hinv, e1, e2, mul_one_div, le_div_iff₀ hpos]
    linarith

theorem magToDB_threshold_witness :
    (∀ y : ℝ, 1 ≤ y → 0 ≤ Real.log y) ∧ 0 < Real.log 10 ∧
    (∀ y : ℝ, 0 ≤ y → 0 ≤ f32 y) ∧ 0 < f32 (0.00001 : ℝ) ∧
    ((sms_setMagThresh_fl f32 (0.5 : ℝ)).mag_thresh =
      (if (0.5 : ℝ) < 0.00001 then f32 0.00001 else 0.5) ∧
    (sms_setMagThresh_fl f32 (0.5 : ℝ)).inv_mag_thresh =
      f32 (1 / (sms_setMagThresh_fl f32 (0.5 : ℝ)).mag_thresh) ∧
    0 < (sms_setMagThresh_fl f32 (0.5 : ℝ)).mag_thresh ∧
    (∀ x, x < (sms_setMagThresh_fl f32 (0.5 : ℝ)).mag_thresh →
      sms_magToDB_fl f32 (⟨Real.log, fun a b => a ^ b, Real.log 10⟩ : Libm ℝ)
        (sms_setMagThresh_fl f32 0.5) x = 0) ∧
    (∀ x, (sms_setMagThresh_fl f32 (0.5 : ℝ)).mag_thresh ≤ x →
      1 ≤ f32 (x * (sms_setMagThresh_fl f32 (0.5 : ℝ)).inv_mag_thresh) →
      0 ≤ sms_magToDB_fl f32 (⟨Real.log, fun a b => a ^ b, Real.log 10⟩ : Libm ℝ)
        (sms_setMagThresh_fl f32 0.5) x) ∧
    (∀ x, (sms_setMagThresh_fl f32 (0.5 : ℝ)).mag_thresh ≤ x →
      f32 (1 / (sms_setMagThresh_fl f32 (0.5 : ℝ)).mag_thresh) =
        1 / (sms_setMagThresh_fl f32 (0.5 : ℝ)).mag_thresh →
      f32 (x * (1 / (sms_setMagThresh_fl f32 (0.5 : ℝ)).mag_thresh)) =
        x * (1 / (sms_setMagThresh_fl f32 (0.5 : ℝ)).mag_thresh) →
      0 ≤ sms_magToDB_fl f32 (⟨Real.log, fun a b => a ^ b, Real.log 10⟩ : Libm ℝ)
        (sms_setMagThresh_fl f32 0.5) x)) := by
  have hthr : 0 < f32 (0.00001 : ℝ) := by
    rw [f32_eq (0.00001 : ℝ) (2748779 / 274877906944) (-17) 10995116 (by norm_num)
      (by norm_num [abs_of_pos]) (by norm_num [abs_of_pos]) (by norm_num) (by norm_num)
      (by norm_num)]
    norm_num
  exact ⟨fun _ hy => Real.log_nonneg hy, Real.log_pos (by norm_num), f32_nonneg, hthr,
    magToDB_threshold f32 (⟨Real.log, fun a b => a ^ b, Real.log 10⟩ : Libm ℝ) 0.5
      (fun _ hy => Real.log_nonneg hy) (Real.log_pos (by norm_num)) f32_nonneg hthr⟩

/-- An example of exact operations in single precision: with the threshold
`1/2` the reciprocal 2 and the product `0.75 * 2 = 1.5` are not rounded. -/
theorem magToDB_exact_example :
    f32 ((1 : ℝ) / (1 / 2)) = 1 / (1 / 2) ∧ f32 ((3 / 4 : ℝ) * (1 / (1 / 2))) = 3 / 4 * (1 / (1 / 2)) :=
  ⟨f32_eq _ _ 1 8388608 (by norm_num) (by norm_num [abs_of_pos]) (by norm_num [abs_of_pos])
      (by norm_num) (by norm_num) (by norm_num),
    f32_eq _ _ 0 12582912 (by norm_num) (by norm_num [abs_of_pos]) (by norm_num [abs_of_pos])
      (by norm_num) (by norm_num) (by norm_num)⟩

/-! ## `sms_fundDeviation` -/

theorem fundSumLoop_sum (pp : List SMS_AnalFrame) (n c : Int) (K : Nat) (f : Nat → ℚ)
    (hKn : (K : Int) ≤ n) (hKc : (K : Int) ≤ c + 1) (hstop : (K : Int) = n ∨ (K : Int) = c + 1)
    (hf : ∀ i : Nat, i < K → ∃ fr, pp[(c - i).toNat]? = some fr ∧ fr.fFundamental = f i)
    (hpos : ∀ i : Nat, i < K → 0 < f i) :
    ∀ (d i fuel : Nat) (s : ℚ), i + d = K → d ≤ fuel →
      fundSumLoop pp n c fuel i s = some (some (s + ∑ j in Finset.range d, f (i + j))) := by
  intro d
  induction d with
  | zero =>
    intro i fuel s hi _
    have hcond : ¬ ((i : Int) < n ∧ c - i ≥ 0) := by omega
    cases fuel <;>
      simp only [fundSumLoop, if_neg hcond, Finset.range_zero, Finset.sum_empty, add_zero]
  | succ d ih =>
    intro i fuel s hi hfuel
    obtain ⟨fuel', rfl⟩ : ∃ fuel', fuel = fuel' + 1 := ⟨fuel - 1, by omega⟩
    have hcond : (i : Int) < n ∧ c - i ≥ 0 := by omega
    obtain ⟨fr, hfr, hfi⟩ := hf i (by omega)
    have hp : ¬ fr.fFundamental ≤ 0 := by rw [hfi]; exact not_le.2 (hpos i (by omega))
    simp only [fundSumLoop, if_pos hcond, hfr, if_neg hp]
    rw [ih (i + 1) fuel' _ (by omega) (by omega), hfi, Finset.sum_range_succ']
    congr 2
    rw [add_assoc]
    congr 1
    rw [add_comm]
    congr 1
    exact Finset.sum_congr rfl (fun j _ => by congr 1; omega)

theorem fundSumLoop_nonpos (pp : List SMS_AnalFrame) (n c : Int) (K : Nat) (f : Nat → ℚ)
    (hKn : (K : Int) ≤ n) (hKc : (K : Int) ≤ c + 1)
    (hf : ∀ i : Nat, i < K → ∃ fr, pp[(c - i).toNat]? = some fr ∧ fr.fFundamental = f i) :
    ∀ (d i fuel : Nat) (s : ℚ), i + d = K → d ≤ fuel → (∃ j, j < d ∧ f (i + j) ≤ 0) →
      fundSumLoop pp n c fuel i s = some none := by
  intro d
  induction d with
  | zero =>
    intro i fuel s _ _ hex
    obtain ⟨j, hj, -⟩ := hex
    omega
  | succ d ih =>
    intro i fuel s hi hfuel hex
    obtain ⟨fuel', rfl⟩ : ∃ fuel', fuel = fuel' + 1 := ⟨fuel - 1, by omega⟩
    have hcond : (i : Int) < n ∧ c - i ≥ 0 := by omega
    obtain ⟨fr, hfr, hfi⟩ := hf i (by omega)
    simp only [fundSumLoop, if_pos hcond, hfr]
    by_cases hp : fr.fFundamental ≤ 0
    · rw [if_pos hp]
    · rw [if_neg hp]
      obtain ⟨j, hj, hle⟩ := hex
      have hj0 : j ≠ 0 := by
        rintro rfl
        rw [Nat.add_zero, ← hfi] at hle
        exact hp hle
      obtain ⟨j', rfl⟩ : ∃ j', j = j' + 1 := ⟨j - 1, by omega⟩
      exact ih (i + 1) fuel' _ (by omega) (by omega)
        ⟨j', by omega, by rw [show i + 1 + j' = i + (j' + 1) by omega]; exact hle⟩

theorem fundDevLoop_sum (pp : List SMS_AnalFrame) (n c : Int) (avg : ℚ) (K : Nat) (f : Nat → ℚ)
    (hKn : (K : Int) ≤ n) (hKc : (K : Int) ≤ c + 1) (hstop : (K : Int) = n ∨ (K : Int) = c + 1)
    (hf : ∀ i : Nat, i < K → ∃ fr, pp[(c - i).toNat]? = some fr ∧ fr.fFundamental = f i) :
    ∀ (d i fuel : Nat) (s : ℚ), i + d = K → d ≤ fuel →
      fundDevLoop pp n c avg fuel i s =
        some (s + ∑ j in Finset.range d, |f (i + j) - avg|) := by
  intro d
  induction d with
  | zero =>
    intro i fuel s hi _
    have hcond : ¬ ((i : Int) < n ∧ c - i ≥ 0) := by omega
    cases fuel <;>
      simp only [fundDevLoop, if_neg hcond, Finset.range_zero, Finset.sum_empty, add_zero]
  | succ d ih =>
    intro i fuel s hi hfuel
    obtain ⟨fuel', rfl⟩ : ∃ fuel', fuel = fuel' + 1 := ⟨fuel - 1, by omega⟩
    have hcond : (i : Int) < n ∧ c - i ≥ 0 := by omega
    obtain ⟨fr, hfr, hfi⟩ := hf i (by omega)
    simp only [fundDevLoop, if_pos hcond, hfr]
    rw [ih (i + 1) fuel' _ (by omega) (by omega), hfi, Finset.sum_range_succ']
    congr 1
    rw [add_assoc]
    congr 1
    rw [add_comm]
    congr 1
    exact Finset.sum_congr rfl (fun j _ => by congr 3; omega)

theorem sms_fundDeviation_value (p : SMS_AnalParams) (c : Int) (K : Nat) (f : Nat → ℚ)
    (hn : 1 ≤ p.minGoodFrames) (hc : 0 ≤ c)
    (hKn : (K : Int) ≤ p.minGoodFrames) (hKc : (K : Int) ≤ c + 1)
    (hstop : (K : Int) = p.minGoodFrames ∨ (K : Int) = c + 1)
    (hf : ∀ i : Nat, i < K → ∃ fr, p.ppFrames[(c - i).toNat]? = some fr ∧ fr.fFundamental = f i)
    (hpos : ∀ i : Nat, i < K → 0 < f i) :
    sms_fundDeviation p c =
      some ((∑ j in Finset.range K,
          |f j - (∑ i in Finset.range K, f i) / (p.minGoodFrames : ℚ)|) /
        ((p.minGoodFrames : ℚ) * ((∑ i in Finset.range K, f i) / (p.minGoodFrames : ℚ)))) ∧
    0 < ∑ i in Finset.range K, f i := by
  have hK1 : 1 ≤ K := by omega
  have hS : 0 < ∑ i in Finset.range K, f i :=
    Finset.sum_pos (fun i hi => hpos i (Finset.mem_range.1 hi))
      ⟨0, Finset.mem_range.2 (by omega)⟩
  have hnQ : (0 : ℚ) < (p.minGoodFrames : ℚ) := by exact_mod_cast (by omega : 0 < p.minGoodFrames)
  have hfuel : K ≤ p.minGoodFrames.toNat := by omega
  have hsum := fundSumLoop_sum p.ppFrames p.minGoodFrames c K f hKn hKc hstop hf hpos
    K 0 p.minGoodFrames.toNat 0 (by omega) hfuel
  simp only [zero_add] at hsum
  have hdev := fundDevLoop_sum p.ppFrames p.minGoodFrames c
    ((∑ i in Finset.range K, f i) / (p.minGoodFrames : ℚ)) K f hKn hKc hstop hf
    K 0 p.minGoodFrames.toNat 0 (by omega) hfuel
  simp only [zero_add] at hdev
  have hne : ¬ ((p.minGoodFrames : ℚ) *
      ((∑ i in Finset.range K, f i) / (p.minGoodFrames : ℚ)) = 0) := by
    rw [mul_div_cancel₀ _ (ne_of_gt hnQ)]
    exact ne_of_gt hS
  refine ⟨?_, hS⟩
  simp only [sms_fundDeviation, if_neg (not_lt.2 hn), hsum, hdev, if_neg hne]

theorem sms_fundDeviation_sentinel (p : SMS_AnalParams) (c : Int) (K : Nat) (f : Nat → ℚ)
    (hn : 1 ≤ p.minGoodFrames)
    (hKn : (K : Int) ≤ p.minGoodFrames) (hKc : (K : Int) ≤ c + 1)
    (hf : ∀ i : Nat, i < K → ∃ fr, p.ppFrames[(c - i).toNat]? = some fr ∧ fr.fFundamental = f i)
    (hex : ∃ i, i < K ∧ f i ≤ 0) :
    sms_fundDeviation p c = some (-1) := by
  have hfuel : K ≤ p.minGoodFrames.toNat := by omega
  have hsum := fundSumLoop_nonpos p.ppFrames p.minGoodFrames c K f hKn hKc hf
    K 0 p.minGoodFrames.toNat 0 (by omega) hfuel
    (by obtain ⟨i, hi, hle⟩ := hex; exact ⟨i, hi, by rw [zero_add]; exact hle⟩)
  simp only [sms_fundDeviation, if_neg (not_lt.2 hn), hsum]

/-- C17, counterexample: with `minGoodFrames = 3` and the single estimate 100 in
frame 0, `iCurrentFrame + 1 = 1 < 3`, yet `sms_fundDeviation` returns `2/3`:
the loops stop at frame 0, the sum 100 is divided by 3, and the deviation
`|100 - 100/3|` over `3 * (100/3)` is not negative. -/
theorem fundDeviation_short_history :
    (0 : Int) + 1 < (fundParams [100]).minGoodFrames ∧
    sms_fundDeviation (fundParams [100]) 0 = some (2 / 3) ∧ ¬ ((2 / 3 : ℚ) < 0) := by
  have hmg : (fundParams [100]).minGoodFrames = 3 := rfl
  have h := (sms_fundDeviation_value (fundParams [100]) 0 1 (fun _ => 100)
    (by rw [hmg]; decide) (by decide) (by rw [hmg]; decide) (by decide) (Or.inr (by decide))
    (fun i hi => ⟨frameWithFund 100, by
      obtain rfl : i = 0 := by omega
      rfl, rfl⟩)
    (fun _ _ => by norm_num)).1
  refine ⟨by rw [hmg]; decide, ?_, by norm_num⟩
  rw [h, hmg]
  norm_num [Finset.sum_range_one, abs_of_pos]

/-- C17, amended: a short history alone does not make `sms_fundDeviation`
return the sentinel. When fewer than `minGoodFrames` estimates are available
(`0 ≤ iCurrentFrame` and `iCurrentFrame + 1 < minGoodFrames`), the function
examines the frames `iCurrentFrame .. 0` only; it returns the sentinel `-1`
when one of them is `≤ 0`, and when all of them are positive it returns a value
that is not negative, so not the sentinel. -/
theorem fundDeviation_few_frames (p : SMS_AnalParams) (c : Int) (K : Nat) (f : Nat → ℚ)
    (hc : 0 ≤ c) (hfew : c + 1 < p.minGoodFrames) (hK : (K : Int) = c + 1)
    (hf : ∀ i : Nat, i < K → ∃ fr, p.ppFrames[(c - i).toNat]? = some fr ∧ fr.fFundamental = f i) :
    ((∃ i, i < K ∧ f i ≤ 0) → sms_fundDeviation p c = some (-1)) ∧
    ((∀ i : Nat, i < K → 0 < f i) →
      ∃ v, sms_fundDeviation p c = some v ∧ 0 ≤ v ∧ v ≠ -1) := by
  have hn : 1 ≤ p.minGoodFrames := by omega
  have hnQ : (0 : ℚ) < (p.minGoodFrames : ℚ) := by exact_mod_cast (by omega : 0 < p.minGoodFrames)
  refine ⟨fun hex => sms_fundDeviation_sentinel p c K f hn (by omega) (by omega) hf hex,
    fun hpos => ?_⟩
  obtain ⟨hv, hS⟩ := sms_fundDeviation_value p c K f hn hc (by omega) (by omega)
    (Or.inr hK) hf hpos
  have h0 : (0 : ℚ) ≤ (∑ j in Finset.range K,
      |f j - (∑ i in Finset.range K, f i) / (p.minGoodFrames : ℚ)|) /
      ((p.minGoodFrames : ℚ) * ((∑ i in Finset.range K, f i) / (p.minGoodFrames : ℚ))) :=
    div_nonneg (Finset.sum_nonneg (fun _ _ => abs_nonneg _))
      (mul_nonneg (le_of_lt hnQ) (div_nonneg (le_of_lt hS) (le_of_lt hnQ)))
  refine ⟨_, hv, h0, fun h => ?_⟩
  rw [h] at h0
  exact absurd h0 (by norm_num)

theorem fundDeviation_few_frames_witness :
    (0 : Int) ≤ 0 ∧ (0 : Int) + 1 < (fundParams [100]).minGoodFrames ∧
    ((1 : Nat) : Int) = 0 + 1 ∧
    ∃ v, sms_fundDeviation (fundParams [100]) 0 = some v ∧ 0 ≤ v ∧ v ≠ -1 := by
  have hmg : (fundParams [100]).minGoodFrames = 3 := rfl
  exact ⟨by decide, by rw [hmg]; decide, by decide,
    (fundDeviation_few_frames (fundParams [100]) 0 1 (fun _ => 100) (by decide)
      (by rw [hmg]; decide) (by decide)
      (fun i hi => ⟨frameWithFund 100, by
        obtain rfl : i = 0 := by omega
        rfl, rfl⟩)).2 (fun _ _ => by norm_num)⟩

/-- C18: `sms_fundDeviation` returns `-1` when `minGoodFrames < 1`, and, for a
frame index `iCurrentFrame ≥ 0`, when one of the examined estimates (frames
`iCurrentFrame, iCurrentFrame-1, ...`, up to `minGoodFrames` of them) is `≤ 0`;
when all examined estimates are positive the returned value is `≥ 0`. `K` is
the number of examined frames and `f i` the estimate of frame
`iCurrentFrame - i`. -/
theorem fundDeviation_sentinel_or_nonneg (p : SMS_AnalParams) (c : Int) :
    (p.minGoodFrames < 1 → sms_fundDeviation p c = some (-1)) ∧
    (∀ (K : Nat) (f : Nat → ℚ), 1 ≤ p.minGoodFrames → 0 ≤ c →
      (K : Int) ≤ p.minGoodFrames → (K : Int) ≤ c + 1 →
      ((K : Int) = p.minGoodFrames ∨ (K : Int) = c + 1) →
      (∀ i : Nat, i < K →
        ∃ fr, p.ppFrames[(c - i).toNat]? = some fr ∧ fr.fFundamental = f i) →
      ((∃ i, i < K ∧ f i ≤ 0) → sms_fundDeviation p c = some (-1)) ∧
      ((∀ i : Nat, i < K → 0 < f i) → ∃ v, sms_fundDeviation p c = some v ∧ 0 ≤ v)) := by
  refine ⟨fun h => ?_, fun K f hn hc hKn hKc hstop hf => ⟨fun hex => ?_, fun hpos => ?_⟩⟩
  · simp only [sms_fundDeviation, if_pos h]
  · exact sms_fundDeviation_sentinel p c K f hn hKn hKc hf hex
  · obtain ⟨hv, hS⟩ := sms_fundDeviation_value p c K f hn hc hKn hKc hstop hf hpos
    refine ⟨_, hv, ?_⟩
    have hnQ : (0 : ℚ) < (p.minGoodFrames : ℚ) := by
      exact_mod_cast (by omega : 0 < p.minGoodFrames)
    exact div_nonneg (Finset.sum_nonneg (fun _ _ => abs_nonneg _))
      (mul_nonneg (le_of_lt hnQ) (div_nonneg (le_of_lt hS) (le_of_lt hnQ)))

theorem fundDeviation_sentinel_or_nonneg_witness :
    ({ fundParams [100] with minGoodFrames := 0 } : SMS_AnalParams).minGoodFrames < 1 ∧
    sms_fundDeviation { fundParams [100] with minGoodFrames := 0 } 0 = some (-1) ∧
    sms_fundDeviation (fundParams [105, 0, 100]) 2 = some (-1) ∧
    ∃ v, sms_fundDeviation (fundParams [105, 110, 100]) 2 = some v ∧ 0 ≤ v := by
  have hmg : ∀ fs, (fundParams fs).minGoodFrames = 3 := fun _ => rfl
  have hbad := (fundDeviation_sentinel_or_nonneg (fundParams [105, 0, 100]) 2).2 3
    (fun i => if i = 0 then 100 else if i = 1 then 0 else 105)
    (by rw [hmg]; decide) (by decide) (by rw [hmg]; decide) (by decide) (Or.inr (by decide))
    (fun i hi => by
      have h3 : i = 0 ∨ i = 1 ∨ i = 2 := by omega
      rcases h3 with rfl | rfl | rfl
      · exact ⟨frameWithFund 100, rfl, rfl⟩
      · exact ⟨frameWithFund 0, rfl, rfl⟩
      · exact ⟨frameWithFund 105, rfl, rfl⟩)
  have hgood := (fundDeviation_sentinel_or_nonneg (fundParams [105, 110, 100]) 2).2 3
    (fun i => if i = 0 then 100 else if i = 1 then 110 else 105)
    (by rw [hmg]; decide) (by decide) (by rw [hmg]; decide) (by decide) (Or.inr (by decide))
    (fun i hi => by
      have h3 : i = 0 ∨ i = 1 ∨ i = 2 := by omega
      rcases h3 with rfl | rfl | rfl
      · exact ⟨frameWithFund 100, rfl, rfl⟩
      · exact ⟨frameWithFund 110, rfl, rfl⟩
      · exact ⟨frameWithFund 105, rfl, rfl⟩)
  refine ⟨by decide,
    (fundDeviation_sentinel_or_nonneg { fundParams [100] with minGoodFrames := 0 } 0).1
      (by decide),
    hbad.1 ⟨1, by decide, by simp⟩, hgood.2 (fun i hi => ?_)⟩
  have h3 : i = 0 ∨ i = 1 ∨ i = 2 := by omega
  rcases h3 with rfl | rfl | rfl <;> norm_num

/-- C19: with `n = minGoodFrames ≥ 1`, `iCurrentFrame ≥ n - 1` and the last `n`
estimates `f 0 .. f (n-1)` all positive, `sms_fundDeviation` returns
`(Σ |f i - m|) / (n * m)` with `m = (Σ f i) / n` (exact arithmetic); it
returns 0 when all `n` estimates are equal. -/
theorem fundDeviation_mean_abs_dev (p : SMS_AnalParams) (c : Int) (n : Nat) (f : Nat → ℚ)
    (hmg : p.minGoodFrames = n) (hn : 1 ≤ n) (hc : (n : Int) - 1 ≤ c)
    (hf : ∀ i : Nat, i < n → ∃ fr, p.ppFrames[(c - i).toNat]? = some fr ∧ fr.fFundamental = f i)
    (hpos : ∀ i : Nat, i < n → 0 < f i) :
    sms_fundDeviation p c =
      some ((∑ j in Finset.range n, |f j - (∑ i in Finset.range n, f i) / (n : ℚ)|) /
        ((n : ℚ) * ((∑ i in Finset.range n, f i) / (n : ℚ)))) ∧
    ((∀ i : Nat, i < n → f i = f 0) → sms_fundDeviation p c = some 0) := by
  have hv := (sms_fundDeviation_value p c n f (by omega) (by omega) (by omega) (by omega)
    (Or.inl hmg.symm) hf hpos).1
  have hcast : (p.minGoodFrames : ℚ) = (n : ℚ) := by rw [hmg]; norm_cast
  rw [hcast] at hv
  refine ⟨hv, fun heq => ?_⟩
  rw [hv]
  have hnQ : (n : ℚ) ≠ 0 := by
    have : (0 : ℚ) < (n : ℚ) := by exact_mod_cast hn
    exact ne_of_gt this
  have hsum : ∑ i in Finset.range n, f i = (n : ℚ) * f 0 := by
    rw [Finset.sum_congr rfl (fun i hi => heq i (Finset.mem_range.1 hi)), Finset.sum_const,
      Finset.card_range, nsmul_eq_mul]
  have hmean : (∑ i in Finset.range n, f i) / (n : ℚ) = f 0 := by
    rw [hsum, mul_div_cancel_left₀ _ hnQ]
  have hzero : ∑ j in Finset.range n, |f j - (∑ i in Finset.range n, f i) / (n : ℚ)| = 0 := by
    rw [hmean]
    exact Finset.sum_eq_zero (fun j hj => by rw [heq j (Finset.mem_range.1 hj), sub_self, abs_zero])
  rw [hzero, zero_div]

theorem fundDeviation_mean_abs_dev_witness :
    (fundParams [100, 100, 100]).minGoodFrames = ((3 : Nat) : Int) ∧ 1 ≤ 3 ∧
    (((3 : Nat) : Int) - 1 ≤ 2) ∧
    sms_fundDeviation (fundParams [100, 100, 100]) 2 = some 0 := by
  refine ⟨rfl, by decide, by decide, ?_⟩
  exact (fundDeviation_mean_abs_dev (fundParams [100, 100, 100]) 2 3 (fun _ => 100) rfl
    (by decide) (by decide)
    (fun i hi => by
      have h3 : i = 0 ∨ i = 1 ∨ i = 2 := by omega
      rcases h3 with rfl | rfl | rfl <;> exact ⟨frameWithFund 100, rfl, rfl⟩)
    (fun _ _ => by norm_num)).2 (fun _ _ => rfl)

/-! ## `sms_sizeNextWindow` -/

theorem sms_sizeNextWindow_fl_value (fl : ℚ → ℚ) (j : Nat) (p : SMS_AnalParams)
    (cur prev : SMS_AnalFrame)
    (hcur : p.ppFrames[j + 1]? = some cur) (hprev : p.ppFrames[j]? = some prev) :
    sms_sizeNextWindow_fl fl (j + 1) p =
      some (min
        (if prev.fFundamental > 0 ∧ cur.fFundamental ≠ 0 ∧
            |fl (prev.fFundamental - cur.fFundamental)| / cur.fFundamental ≤ 0.2 then
          2 * truncToInt (fl (fl (fl (p.iSamplingRate : ℚ) / cur.fFundamental) *
            p.fSizeWindow) / 2) + 1
        else p.iDefaultSizeWindow) SMS_MAX_WINDOW) := by
  have hclip : ∀ x : Int, (if x > SMS_MAX_WINDOW then SMS_MAX_WINDOW else x) =
      min x SMS_MAX_WINDOW := by
    intro x
    split_ifs with h
    · exact (min_eq_right (le_of_lt h)).symm
    · exact (min_eq_left (not_lt.1 h)).symm
  have hhalf : ∀ x : ℚ, x * 0.5 = x / 2 := by
    intro x
    norm_num
    ring
  simp only [sms_sizeNextWindow_fl, hcur, hprev, hclip, hhalf]
  congr 2
  split_ifs
  · ring
  · rfl

theorem sms_sizeNextWindow_fl_id (i : Nat) (p : SMS_AnalParams) :
    sms_sizeNextWindow_fl id i p = sms_sizeNextWindow i p := rfl

/-- C20, counterexample: with sampling rate 44100, `fSizeWindow = 5.5` and the
fundamental 240.625 in the previous and the current frame, the exact value of
`iSamplingRate / f * fSizeWindow` is 1008 and the formula gives
`2*trunc(504) + 1 = 1009`; in `float` the quotient `44100 / 240.625` is rounded
down, the product is `1007.99993896484375`, and `sms_sizeNextWindow` returns
`2*trunc(503.99997) + 1 = 1007`. -/
theorem sizeNextWindow_float_rounding :
    sms_sizeNextWindow_fl f32 1 roundingWindowParams = some 1007 ∧
    ((1925 / 8 : ℚ) > 0 ∧ |(1925 / 8 : ℚ) - 1925 / 8| / (1925 / 8) ≤ 0.2) ∧
    min (2 * truncToInt ((roundingWindowParams.iSamplingRate : ℚ) / (1925 / 8) *
      roundingWindowParams.fSizeWindow / 2) + 1) SMS_MAX_WINDOW = 1009 := by
  have hrate : ((roundingWindowParams.iSamplingRate : Int) : ℚ) = 44100 := by
    norm_num [roundingWindowParams, fundParams, exampleParams, freshParams]
  have hfs : roundingWindowParams.fSizeWindow = 11 / 2 := rfl
  have hdef : roundingWindowParams.iDefaultSizeWindow = 1001 := rfl
  have e0 : f32 ((1925 / 8 : ℚ) - 1925 / 8) = 0 := by simp [f32]
  have e1 : f32 ((44100 : ℚ) / (1925 / 8)) = 12010961 / 65536 :=
    f32_eq _ _ 7 12010961 (by norm_num) (by norm_num [abs_of_pos]) (by norm_num [abs_of_pos])
      (by norm_num) (by norm_num) (by norm_num)
  have e2 : f32 ((12010961 / 65536 : ℚ) * (11 / 2)) = 16515071 / 16384 :=
    f32_eq _ _ 9 16515071 (by norm_num) (by norm_num [abs_of_pos]) (by norm_num [abs_of_pos])
      (by norm_num) (by norm_num) (by norm_num)
  have hv := sms_sizeNextWindow_fl_value f32 0 roundingWindowParams
    (frameWithFund (1925 / 8)) (frameWithFund (1925 / 8)) rfl rfl
  have hf : (frameWithFund (1925 / 8)).fFundamental = 1925 / 8 := rfl
  rw [hf, hrate, hfs, hdef, e0, f32_44100, e1, e2] at hv
  refine ⟨?_, by norm_num, ?_⟩
  · rw [hv]
    norm_num [truncToInt, SMS_MAX_WINDOW]
  · rw [hrate, hfs]
    norm_num [truncToInt, SMS_MAX_WINDOW]

/-- C20, amended: `sms_sizeNextWindow(i)` on a slot `i ≥ 1` of the ring, with
`f` the fundamental of frame `i` and `fl` the rounding of `sfloat`, returns
`2*trunc(q / 2) + 1`, where `q` is `iSamplingRate / f * fSizeWindow` with the
quotient and the product each rounded, when the fundamental of frame `i-1` is
positive and `|fl(fPrev - f)| / f ≤ 0.2` (for `f = 0` the quotient is infinite
and the comparison fails), and `iDefaultSizeWindow` otherwise; in both cases a
value above `SMS_MAX_WINDOW` is replaced by `SMS_MAX_WINDOW`. When the
difference, the converted rate, the quotient and the product are not changed
by the rounding, the result is the exact `round_to_odd` formula
`2*trunc(iSamplingRate / f * fSizeWindow / 2) + 1` under the exact test. -/
theorem sizeNextWindow_policy (fl : ℚ → ℚ) (i : Nat) (p : SMS_AnalParams) (hi : 1 ≤ i)
    (hlen : i < p.ppFrames.length) :
    ∃ (cur prev : SMS_AnalFrame) (w : Int), p.ppFrames[i]? = some cur ∧
      p.ppFrames[i - 1]? = some prev ∧ sms_sizeNextWindow_fl fl i p = some w ∧
      ((prev.fFundamental > 0 ∧ cur.fFundamental ≠ 0 ∧
          |fl (prev.fFundamental - cur.fFundamental)| / cur.fFundamental ≤ 0.2) →
        w = min (2 * truncToInt (fl (fl (fl (p.iSamplingRate : ℚ) / cur.fFundamental) *
          p.fSizeWindow) / 2) + 1) SMS_MAX_WINDOW) ∧
      (¬ (prev.fFundamental > 0 ∧ cur.fFundamental ≠ 0 ∧
          |fl (prev.fFundamental - cur.fFundamental)| / cur.fFundamental ≤ 0.2) →
        w = min p.iDefaultSizeWindow SMS_MAX_WINDOW) ∧
      w ≤ SMS_MAX_WINDOW ∧
      (fl (prev.fFundamental - cur.fFundamental) = prev.fFundamental - cur.fFundamental →
        fl (p.iSamplingRate : ℚ) = (p.iSamplingRate : ℚ) →
        fl ((p.iSamplingRate : ℚ) / cur.fFundamental) =
          (p.iSamplingRate : ℚ) / cur.fFundamental →
        fl ((p.iSamplingRate : ℚ) / cur.fFundamental * p.fSizeWindow) =
          (p.iSamplingRate : ℚ) / cur.fFundamental * p.fSizeWindow →
        ((prev.fFundamental > 0 ∧ cur.fFundamental ≠ 0 ∧
            |prev.fFundamental - cur.fFundamental| / cur.fFundamental ≤ 0.2) →
          w = min (2 * truncToInt ((p.iSamplingRate : ℚ) / cur.fFundamental *
            p.fSizeWindow / 2) + 1) SMS_MAX_WINDOW) ∧
        (¬ (prev.fFundamental > 0 ∧ cur.fFundamental ≠ 0 ∧
            |prev.fFundamental - cur.fFundamental| / cur.fFundamental ≤ 0.2) →
          w = min p.iDefaultSizeWindow SMS_MAX_WINDOW)) := by
  obtain ⟨j, rfl⟩ : ∃ j, i = j + 1 := ⟨i - 1, by omega⟩
  have hj : j < p.ppFrames.length := by omega
  have hcur : p.ppFrames[j + 1]? = some p.ppFrames[j + 1] := List.getElem?_eq_getElem hlen
  have hprev : p.ppFrames[j]? = some p.ppFrames[j] := List.getElem?_eq_getElem hj
  have hprev' : p.ppFrames[j + 1 - 1]? = some p.ppFrames[j] := by
    rw [Nat.add_sub_cancel]
    exact hprev
  have hv := sms_sizeNextWindow_fl_value fl j p _ _ hcur hprev
  refine ⟨p.ppFrames[j + 1], p.ppFrames[j], _, hcur, hprev', hv, fun hc => ?_, fun hc => ?_,
    min_le_right _ _, fun e0 e1 e2 e3 => ⟨fun hc => ?_, fun hc => ?_⟩⟩
  · rw [if_pos hc]
  · rw [if_neg hc]
  · rw [e0, e1, e2, e3, if_pos hc]
  · rw [e0, e1, e2, e3, if_neg hc]

theorem sizeNextWindow_policy_witness :
    1 ≤ 1 ∧ 1 < (fundParams [100, 225 / 2]).ppFrames.length ∧
    ∃ (cur prev : SMS_AnalFrame) (w : Int),
      (fundParams [100, 225 / 2]).ppFrames[1]? = some cur ∧
      (fundParams [100, 225 / 2]).ppFrames[1 - 1]? = some prev ∧
      sms_sizeNextWindow_fl f32 1 (fundParams [100, 225 / 2]) = some w ∧
      ((prev.fFundamental > 0 ∧ cur.fFundamental ≠ 0 ∧
          |f32 (prev.fFundamental - cur.fFundamental)| / cur.fFundamental ≤ 0.2) →
        w = min (2 * truncToInt (f32 (f32 (f32 ((fundParams [100, 225 / 2]).iSamplingRate : ℚ) /
          cur.fFundamental) * (fundParams [100, 225 / 2]).fSizeWindow) / 2) + 1)
            SMS_MAX_WINDOW) ∧
      (¬ (prev.fFundamental > 0 ∧ cur.fFundamental ≠ 0 ∧
          |f32 (prev.fFundamental - cur.fFundamental)| / cur.fFundamental ≤ 0.2) →
        w = min (fundParams [100, 225 / 2]).iDefaultSizeWindow SMS_MAX_WINDOW) ∧
      w ≤ SMS_MAX_WINDOW ∧
      (f32 (prev.fFundamental - cur.fFundamental) = prev.fFundamental - cur.fFundamental →
        f32 ((fundParams [100, 225 / 2]).iSamplingRate : ℚ) =
          ((fundParams [100, 225 / 2]).iSamplingRate : ℚ) →
        f32 (((fundParams [100, 225 / 2]).iSamplingRate : ℚ) / cur.fFundamental) =
          ((fundParams [100, 225 / 2]).iSamplingRate : ℚ) / cur.fFundamental →
        f32 (((fundParams [100, 225 / 2]).iSamplingRate : ℚ) / cur.fFundamental *
            (fundParams [100, 225 / 2]).fSizeWindow) =
          ((fundParams [100, 225 / 2]).iSamplingRate : ℚ) / cur.fFundamental *
            (fundParams [100, 225 / 2]).fSizeWindow →
        ((prev.fFundamental > 0 ∧ cur.fFundamental ≠ 0 ∧
            |prev.fFundamental - cur.fFundamental| / cur.fFundamental ≤ 0.2) →
          w = min (2 * truncToInt (((fundParams [100, 225 / 2]).iSamplingRate : ℚ) /
            cur.fFundamental * (fundParams [100, 225 / 2]).fSizeWindow / 2) + 1)
              SMS_MAX_WINDOW) ∧
        (¬ (prev.fFundamental > 0 ∧ cur.fFundamental ≠ 0 ∧
            |prev.fFundamental - cur.fFundamental| / cur.fFundamental ≤ 0.2) →
          w = min (fundParams [100, 225 / 2]).iDefaultSizeWindow SMS_MAX_WINDOW)) :=
  ⟨by decide, by decide,
    sizeNextWindow_policy f32 1 (fundParams [100, 225 / 2]) (by decide) (by decide)⟩

/-- An example of the window policy in single precision: with the fundamentals
100 and 112.5, sampling rate 44100 and `fSizeWindow = 3.5` no operation is
rounded and the window size is `2*trunc(392 * 3.5 / 2) + 1 = 1373`. -/
theorem sizeNextWindow_exact_example :
    sms_sizeNextWindow_fl f32 1 (fundParams [100, 225 / 2]) = some 1373 := by
  have hrate : (((fundParams [100, 225 / 2]).iSamplingRate : Int) : ℚ) = 44100 := by
    norm_num [fundParams, exampleParams, freshParams]
  have hfs : (fundParams [100, 225 / 2]).fSizeWindow = 7 / 2 := rfl
  have hdef : (fundParams [100, 225 / 2]).iDefaultSizeWindow = 1001 := rfl
  have e0 : f32 ((100 : ℚ) - 225 / 2) = -(25 / 2) :=
    f32_eq _ _ 3 (-13107200) (by norm_num) (by norm_num [abs_of_neg])
      (by norm_num [abs_of_neg]) (by norm_num) (by norm_num) (by norm_num)
  have e1 : f32 ((44100 : ℚ) / (225 / 2)) = 392 :=
    f32_eq _ _ 8 12845056 (by norm_num) (by norm_num [abs_of_pos]) (by norm_num [abs_of_pos])
      (by norm_num) (by norm_num) (by norm_num)
  have e2 : f32 ((392 : ℚ) * (7 / 2)) = 1372 :=
    f32_eq _ _ 10 11239424 (by norm_num) (by norm_num [abs_of_pos]) (by norm_num [abs_of_pos])
      (by norm_num) (by norm_num) (by norm_num)
  have hv := sms_sizeNextWindow_fl_value f32 0 (fundParams [100, 225 / 2])
    (frameWithFund (225 / 2)) (frameWithFund 100) rfl rfl
  have hf : (frameWithFund (225 / 2)).fFundamental = 225 / 2 := rfl
  have hp : (frameWithFund 100).fFundamental = 100 := rfl
  rw [hf, hp, hrate, hfs, hdef, e0, f32_44100, e1, e2] at hv
  rw [hv]
  norm_num [truncToInt, SMS_MAX_WINDOW, abs_of_pos]

/-! ## `sms_clearAnalysisFrame` -/

theorem memsetZero_length : ∀ (n : Nat) (l : List ℚ), (memsetZero n l).length = l.length := by
  intro n
  induction n with
  | zero => intro l; rfl
  | succ n ih =>
    intro l
    cases l with
    | nil => rfl
    | cons a t => simp [memsetZero, ih]

theorem memsetZero_getElem? : ∀ (n : Nat) (l : List ℚ) (k : Nat) (v : ℚ), k < n →
    (memsetZero n l)[k]? = some v → v = 0 := by
  intro n
  induction n with
  | zero => intro l k v hk; omega
  | succ n ih =>
    intro l k v hk h
    cases l with
    | nil => simp [memsetZero] at h
    | cons a t =>
      cases k with
      | zero =>
        simp [memsetZero] at h
        exact h.symm
      | succ k =>
        simp only [memsetZero, List.getElem?_cons_succ] at h
        exact ih t k v (by omega) h

theorem clearPeaks_length : ∀ (n : Nat) (l : List SMS_Peak), (clearPeaks n l).length = l.length := by
  intro n
  induction n with
  | zero => intro l; rfl
  | succ n ih =>
    intro l
    cases l with
    | nil => rfl
    | cons a t => simp [clearPeaks, ih]

theorem clearPeaks_getElem? : ∀ (n : Nat) (l : List SMS_Peak) (k : Nat) (v : SMS_Peak), k < n →
    (clearPeaks n l)[k]? = some v → v = { fFreq := 0, fMag := 0, fPhase := 0 } := by
  intro n
  induction n with
  | zero => intro l k v hk; omega
  | succ n ih =>
    intro l k v hk h
    cases l with
    | nil => simp [clearPeaks] at h
    | cons a t =>
      cases k with
      | zero =>
        simp [clearPeaks] at h
        exact h.symm
      | succ k =>
        simp only [clearPeaks, List.getElem?_cons_succ] at h
        exact ih t k v (by omega) h

/-- C21: `sms_clearAnalysisFrame(i)` on a slot of the ring returns 0 and leaves
slot `i` with the first `nGuides` deterministic frequency, amplitude and phase
entries and the first `iMaxPeaks` peaks equal to 0 (the arrays keep their
lengths), `nPeaks = 0`, fundamental 0, frame number, size and centre 0 and
status `SMS_FRAME_EMPTY`; every other slot of the ring is unchanged. -/
theorem clearAnalysisFrame_resets (i : Nat) (p : SMS_AnalParams) (hi : i < p.ppFrames.length) :
    ∃ (r : Int × SMS_AnalParams) (old f : SMS_AnalFrame),
      sms_clearAnalysisFrame i p = some r ∧ r.1 = 0 ∧
      p.ppFrames[i]? = some old ∧ r.2.ppFrames[i]? = some f ∧
      (∀ (k : Nat) (v : ℚ), k < p.nGuides →
        (f.deterministic.pFSinFreq[k]? = some v → v = 0) ∧
        (f.deterministic.pFSinAmp[k]? = some v → v = 0) ∧
        (f.deterministic.pFSinPha[k]? = some v → v = 0)) ∧
      f.deterministic.pFSinFreq.length = old.deterministic.pFSinFreq.length ∧
      f.deterministic.pFSinAmp.length = old.deterministic.pFSinAmp.length ∧
      f.deterministic.pFSinPha.length = old.deterministic.pFSinPha.length ∧
      (∀ (k : Nat) (pk : SMS_Peak), k < p.iMaxPeaks → f.pSpectralPeaks[k]? = some pk →
        pk = { fFreq := 0, fMag := 0, fPhase := 0 }) ∧
      f.pSpectralPeaks.length = old.pSpectralPeaks.length ∧
      f.nPeaks = 0 ∧ f.fFundamental = 0 ∧ f.iFrameNum = 0 ∧ f.iFrameSize = 0 ∧
      f.iFrameSample = 0 ∧ f.iStatus = SMS_FRAME_EMPTY ∧
      (∀ j : Nat, j ≠ i → r.2.ppFrames[j]? = p.ppFrames[j]?) ∧
      r.2.ppFrames.length = p.ppFrames.length := by
  have hold : p.ppFrames[i]? = some p.ppFrames[i] := List.getElem?_eq_getElem hi
  let fNew := clearAnalysisFrameBody p.nGuides p.iMaxPeaks p.ppFrames[i]
  refine ⟨(0, { p with ppFrames := p.ppFrames.set i fNew }), p.ppFrames[i], fNew,
    ?_, rfl, hold, ?_, ?_, ?_, ?_, ?_, ?_, ?_, rfl, rfl, rfl, rfl, rfl, rfl, ?_, ?_⟩
  · simp only [sms_clearAnalysisFrame, hold]
  · simp [List.getElem?_set, hi]
  · intro k v hk
    exact ⟨memsetZero_getElem? _ _ k v hk, memsetZero_getElem? _ _ k v hk,
      memsetZero_getElem? _ _ k v hk⟩
  · exact memsetZero_length _ _
  · exact memsetZero_length _ _
  · exact memsetZero_length _ _
  · intro k pk hk h
    exact clearPeaks_getElem? _ _ k pk hk h
  · exact clearPeaks_length _ _
  · intro j hj
    simp only [List.getElem?_set]
    rw [if_neg (fun h => hj h.symm)]
  · simp

theorem clearAnalysisFrame_resets_witness :
    1 < busyParams.ppFrames.length ∧
    (sms_clearAnalysisFrame 1 busyParams).map (fun r => (r.1, r.2.ppFrames)) =
      some (0, [busyFrame, clearAnalysisFrameBody 2 2 (allocatedFrame 2 2), busyFrame]) ∧
    ∃ (r : Int × SMS_AnalParams) (old f : SMS_AnalFrame),
      sms_clearAnalysisFrame 1 busyParams = some r ∧ r.1 = 0 ∧
      busyParams.ppFrames[1]? = some old ∧ r.2.ppFrames[1]? = some f ∧
      (∀ (k : Nat) (v : ℚ), k < busyParams.nGuides →
        (f.deterministic.pFSinFreq[k]? = some v → v = 0) ∧
        (f.deterministic.pFSinAmp[k]? = some v → v = 0) ∧
        (f.deterministic.pFSinPha[k]? = some v → v = 0)) ∧
      f.deterministic.pFSinFreq.length = old.deterministic.pFSinFreq.length ∧
      f.deterministic.pFSinAmp.length = old.deterministic.pFSinAmp.length ∧
      f.deterministic.pFSinPha.length = old.deterministic.pFSinPha.length ∧
      (∀ (k : Nat) (pk : SMS_Peak), k < busyParams.iMaxPeaks → f.pSpectralPeaks[k]? = some pk →
        pk = { fFreq := 0, fMag := 0, fPhase := 0 }) ∧
      f.pSpectralPeaks.length = old.pSpectralPeaks.length ∧
      f.nPeaks = 0 ∧ f.fFundamental = 0 ∧ f.iFrameNum = 0 ∧ f.iFrameSize = 0 ∧
      f.iFrameSample = 0 ∧ f.iStatus = SMS_FRAME_EMPTY ∧
      (∀ j : Nat, j ≠ 1 → r.2.ppFrames[j]? = busyParams.ppFrames[j]?) ∧
      r.2.ppFrames.length = busyParams.ppFrames.length :=
  ⟨by decide, rfl, clearAnalysisFrame_resets 1 busyParams (by decide)⟩

/-! ## `sms_initFrame`: the runoff exit -/

/-- C25: `sms_initFrame(slot, w)` on a slot `i ≥ 1` of the ring returns `-1`
if and only if `soundBuffer.iMarker > newCenter - (w+1)/2` and returns 0
otherwise; when it returns `-1` the error status is `-1` and the slot's status
field keeps its previous value, while its frame number, size and centre have
been overwritten. -/
theorem initFrame_runoff_effect (i : Nat) (p : SMS_AnalParams) (e : ErrorState) (w : Int)
    (hi : 1 ≤ i) (hlen : i < p.ppFrames.length) :
    ∃ (r : InitFrameResult) (f prev cur : SMS_AnalFrame), sms_initFrame i p e w = some r ∧
      p.ppFrames[i - 1]? = some prev ∧ p.ppFrames[i]? = some cur ∧
      r.params.ppFrames[i]? = some f ∧
      f.iFrameSample = (if prev.iFrameNum + 1 = 1 then 0 else prev.iFrameSample + p.sizeHop) ∧
      (r.ret = -1 ↔ p.soundBuffer.iMarker > f.iFrameSample - halfWindow w) ∧
      (¬ p.soundBuffer.iMarker > f.iFrameSample - halfWindow w → r.ret = 0) ∧
      (r.ret = -1 → r.err.error_status = -1 ∧ f.iStatus = cur.iStatus ∧
        f.iFrameNum = prev.iFrameNum + 1 ∧ f.iFrameSize = w) := by
  obtain ⟨prev, cur, r, hprev, hcur, hr, hret, herr, -, hf, -⟩ :=
    sms_initFrame_spec i p e w hi hlen
  have hok : ¬ p.soundBuffer.iMarker >
      (initFrameBody p e prev cur w).2.1.iFrameSample - halfWindow w → r.ret = 0 := by
    intro hrun
    by_cases hend : (initFrameBody p e prev cur w).2.1.iFrameSample + halfWindow w ≥ p.iSizeSound
    · exact hret.trans (initFrameBody_end p e prev cur w hrun hend).1
    · exact hret.trans (initFrameBody_ready p e prev cur w hrun hend).1
  have hbad : p.soundBuffer.iMarker >
      (initFrameBody p e prev cur w).2.1.iFrameSample - halfWindow w →
      r.ret = -1 ∧ r.err.error_status = -1 ∧
        (initFrameBody p e prev cur w).2.1.iStatus = cur.iStatus ∧
        (initFrameBody p e prev cur w).2.1.iFrameNum = prev.iFrameNum + 1 ∧
        (initFrameBody p e prev cur w).2.1.iFrameSize = w := by
    intro hrun
    have h := initFrameBody_runoff p e prev cur w hrun
    refine ⟨hret.trans h.1, ?_, h.2.2.1, h.2.2.2.1, h.2.2.2.2⟩
    rw [herr, h.2.1]
    rfl
  refine ⟨r, _, prev, cur, hr, hprev, hcur, hf, initFrameBody_sample p e prev cur w,
    ⟨fun h => ?_, fun h => (hbad h).1⟩, hok, fun h => ?_⟩
  · by_contra hrun
    rw [hok hrun] at h
    exact absurd h (by decide)
  · have hrun : p.soundBuffer.iMarker >
        (initFrameBody p e prev cur w).2.1.iFrameSample - halfWindow w := by
      by_contra hrun
      rw [hok hrun] at h
      exact absurd h (by decide)
    exact (hbad hrun).2

theorem initFrame_runoff_effect_witness :
    1 ≤ 1 ∧ 1 < shortBufferParams.ppFrames.length ∧
    (sms_initFrame 1 shortBufferParams noError 5).map
        (fun r => (r.ret, r.err.error_status, r.params.ppFrames.map
          (fun f => (f.iFrameNum, f.iFrameSize, f.iFrameSample, f.iStatus)))) =
      some (-1, -1, [(0, 0, 0, SMS_FRAME_EMPTY), (1, 5, 0, SMS_FRAME_EMPTY),
        (0, 0, 0, SMS_FRAME_EMPTY)]) ∧
    ∃ (r : InitFrameResult) (f prev cur : SMS_AnalFrame),
      sms_initFrame 1 shortBufferParams noError 5 = some r ∧
      shortBufferParams.ppFrames[1 - 1]? = some prev ∧ shortBufferParams.ppFrames[1]? = some cur ∧
      r.params.ppFrames[1]? = some f ∧
      f.iFrameSample =
        (if prev.iFrameNum + 1 = 1 then 0 else prev.iFrameSample + shortBufferParams.sizeHop) ∧
      (r.ret = -1 ↔ shortBufferParams.soundBuffer.iMarker > f.iFrameSample - halfWindow 5) ∧
      (¬ shortBufferParams.soundBuffer.iMarker > f.iFrameSample - halfWindow 5 → r.ret = 0) ∧
      (r.ret = -1 → r.err.error_status = -1 ∧ f.iStatus = cur.iStatus ∧
        f.iFrameNum = prev.iFrameNum + 1 ∧ f.iFrameSize = 5) :=
  ⟨by decide, by decide, rfl,
    initFrame_runoff_effect 1 shortBufferParams noError 5 (by decide) (by decide)⟩

/-! ## Error reporting -/

theorem sms_error_message (m : String) (e : ErrorState) (hm : m.length < 256) :
    sms_error m e = { error_message := m, error_status := -1 } := by
  have h : m.take 256 = m := by
    rw [String.take_eq]
    have hl : m.data.length ≤ 256 := by
      have : m.length = m.data.length := rfl
      omega
    rw [List.take_of_length_le hl]
  simp only [sms_error, h]

/-- C22: the error mechanism is a set-and-clear-on-read flag. After
`sms_error(m)`, for a message that fits the 256-character buffer,
`sms_errorCheck` returns `-1` and leaves the flag set; `sms_errorString`
returns the message of the most recent `sms_error` and clears the flag; after
that `sms_errorCheck` returns 0 and `sms_errorString` returns `NULL`, and
neither changes the error variables, until the next `sms_error`, which sets
the flag again. -/
theorem error_flag_set_and_clear (e : ErrorState) (m0 m : String) (hm : m.length < 256) :
    sms_errorCheck (sms_error m (sms_error m0 e)) = (-1, sms_error m (sms_error m0 e)) ∧
    (sms_errorCheck (sms_errorCheck (sms_error m (sms_error m0 e))).2).1 = -1 ∧
    (sms_errorString (sms_error m (sms_error m0 e))).1 = some m ∧
    (sms_errorString (sms_error m (sms_error m0 e))).2.error_status = 0 ∧
    (sms_errorCheck (sms_errorString (sms_error m (sms_error m0 e))).2).1 = 0 ∧
    sms_errorString (sms_errorString (sms_error m (sms_error m0 e))).2 =
      (none, (sms_errorString (sms_error m (sms_error m0 e))).2) ∧
    (sms_errorCheck (sms_error m (sms_errorString (sms_error m (sms_error m0 e))).2)).1 = -1 := by
  rw [sms_error_message m _ hm, sms_error_message m _ hm]
  simp [sms_errorCheck, sms_errorString]

theorem error_flag_set_and_clear_witness :
    "could not allocate memory".length < 256 ∧
    sms_errorCheck (sms_error "could not allocate memory" noError) =
      (-1, { error_message := "could not allocate memory", error_status := -1 }) ∧
    sms_errorString (sms_error "could not allocate memory" noError) =
      (some "could not allocate memory",
        { error_message := "could not allocate memory", error_status := 0 }) ∧
    (sms_errorString (sms_error "could not allocate memory"
      (sms_error "runoff" noError))).1 = some "could not allocate memory" := by
  have hlen : "could not allocate memory".length < 256 := by
    show "could not allocate memory".data.length < 256
    decide
  refine ⟨hlen, ?_, ?_, ?_⟩
  · rw [sms_error_message _ _ hlen]
    rfl
  · rw [sms_error_message _ _ hlen]
    rfl
  · exact (error_flag_set_and_clear noError "runoff" "could not allocate memory" hlen).2.2.1

/-! ## The option `-d` of `smsSynth` -/

/-- C23, evaluation at the failing inputs: `-d 1` stores 1 in `iDetSynthType`,
which is `SMS_DET_SIN` and not `SMS_DET_IFFT`, and `-d 2` stores 2, which is
neither member of `SMS_DetSynthType`; the values 0 and 3 are rejected. -/
theorem optionD_stores_raw_value :
    smsSynth_optionD 1 = some SMS_DET_SIN ∧ smsSynth_optionD 1 ≠ some SMS_DET_IFFT ∧
    smsSynth_optionD 2 = some 2 ∧ smsSynth_optionD 2 ≠ some SMS_DET_SIN ∧
    smsSynth_optionD 2 ≠ some SMS_DET_IFFT ∧
    smsSynth_optionD 0 = none ∧ smsSynth_optionD 3 = none := by
  decide

/-! ## `sms_initAnalysis`: the first frame has no runoff -/

theorem halfWindow_le (w : Int) (h0 : 0 ≤ w) (h1 : w ≤ SMS_MAX_WINDOW) :
    0 ≤ halfWindow w ∧ halfWindow w ≤ 4095 := by
  unfold SMS_MAX_WINDOW at h1
  unfold halfWindow
  rw [Int.tdiv_eq_ediv (by omega) (by omega)]
  omega

theorem sms_initAnalysis_ok (p : SMS_AnalParams) (h : SMS_SndHeader) (e : ErrorState)
    (hfr : p.iFrameRate ≠ 0) (hfund : p.fDefaultFundamental ≠ 0) :
    ∃ r, sms_initAnalysis p h e true = some r ∧ r.ret = 0 ∧ r.err = e ∧
      r.params.sizeHop = truncToInt ((h.iSamplingRate : ℚ) / (p.iFrameRate : ℚ)) ∧
      r.params.iSizeSound = h.nSamples ∧
      r.params.soundBuffer.sizeBuffer =
        p.iMaxDelayFrames * r.params.sizeHop + SMS_MAX_WINDOW ∧
      r.params.soundBuffer.iMarker = -r.params.soundBuffer.sizeBuffer ∧
      r.params.ppFrames = initAnalysisRing p.iMaxDelayFrames.toNat p.nGuides p.iMaxPeaks := by
  have hc : ¬ (p.iFrameRate = 0 ∨ p.fDefaultFundamental = 0) := by
    rintro (h1 | h1)
    · exact hfr h1
    · exact hfund h1
  refine ⟨_, by simp only [sms_initAnalysis, if_neg hc]; rfl, rfl, rfl, rfl, rfl, rfl, rfl, rfl⟩

/-- C26: directly after a successful `sms_initAnalysis` with
`iMaxDelayFrames ≥ 0` and a hop size `sizeHop ≥ 0`, the sound buffer has
`sizeBuffer = iMaxDelayFrames*sizeHop + SMS_MAX_WINDOW` and
`iMarker = -sizeBuffer`, and `sms_initFrame` on any slot `i ≥ 1` of the fresh
ring, which is a first frame with centre 0, with any window size
`0 ≤ w ≤ SMS_MAX_WINDOW` does not report runoff. -/
theorem initAnalysis_first_frame_no_runoff (p : SMS_AnalParams) (h : SMS_SndHeader)
    (e : ErrorState) (hfr : p.iFrameRate ≠ 0) (hfund : p.fDefaultFundamental ≠ 0)
    (hD : 0 ≤ p.iMaxDelayFrames) :
    ∃ r, sms_initAnalysis p h e true = some r ∧ r.ret = 0 ∧
      (0 ≤ r.params.sizeHop →
        r.params.soundBuffer.sizeBuffer =
          p.iMaxDelayFrames * r.params.sizeHop + SMS_MAX_WINDOW ∧
        r.params.soundBuffer.iMarker = -r.params.soundBuffer.sizeBuffer ∧
        ∀ (i : Nat) (w : Int) (e' : ErrorState), 1 ≤ i → (i : Int) < p.iMaxDelayFrames →
          0 ≤ w → w ≤ SMS_MAX_WINDOW →
          ∃ (r' : InitFrameResult) (f : SMS_AnalFrame), sms_initFrame i r.params e' w = some r' ∧
            r'.params.ppFrames[i]? = some f ∧ f.iFrameSample = 0 ∧
            r'.ret = SMS_OK ∧ r'.ret ≠ -1 ∧ r'.err = e') := by
  obtain ⟨r, hr, hret, -, -, -, hsize, hmark, hring⟩ := sms_initAnalysis_ok p h e hfr hfund
  refine ⟨r, hr, hret, fun hhop => ⟨hsize, hmark, fun i w e' hi hlt hw0 hw1 => ?_⟩⟩
  have hlen : i < r.params.ppFrames.length := by
    rw [hring]
    simp only [initAnalysisRing, List.length_replicate]
    omega
  obtain ⟨prev, cur, r', hprev, -, hr', hret', herr', -, hf', -⟩ :=
    sms_initFrame_spec i r.params e' w hi hlen
  have hprevnum : prev.iFrameNum = 0 := by
    rw [hring] at hprev
    simp only [initAnalysisRing, List.getElem?_replicate] at hprev
    split_ifs at hprev
    · rw [← Option.some.inj hprev]
      rfl
  have hsample : (initFrameBody r.params e' prev cur w).2.1.iFrameSample = 0 := by
    rw [initFrameBody_sample, hprevnum]
    simp
  have hhalf := halfWindow_le w hw0 hw1
  have hprod : 0 ≤ p.iMaxDelayFrames * r.params.sizeHop := mul_nonneg hD hhop
  have hrun : ¬ r.params.soundBuffer.iMarker >
      (initFrameBody r.params e' prev cur w).2.1.iFrameSample - halfWindow w := by
    rw [hsample, hmark, hsize]
    unfold SMS_MAX_WINDOW
    omega
  have hok : (initFrameBody r.params e' prev cur w).1 = SMS_OK ∧
      (initFrameBody r.params e' prev cur w).2.2 = e' := by
    by_cases hend : (initFrameBody r.params e' prev cur w).2.1.iFrameSample + halfWindow w ≥
        r.params.iSizeSound
    · have hb := initFrameBody_end r.params e' prev cur w hrun hend
      exact ⟨hb.1, hb.2.1⟩
    · have hb := initFrameBody_ready r.params e' prev cur w hrun hend
      exact ⟨hb.1, hb.2.1⟩
  refine ⟨r', _, hr', hf', hsample, hret'.trans hok.1, ?_, herr'.trans hok.2⟩
  rw [hret', hok.1]
  decide

theorem initAnalysis_first_frame_no_runoff_witness :
    exampleParams.iFrameRate ≠ 0 ∧ exampleParams.fDefaultFundamental ≠ 0 ∧
    0 ≤ exampleParams.iMaxDelayFrames ∧
    ∃ r, sms_initAnalysis exampleParams exampleSndHeader noError true = some r ∧ r.ret = 0 ∧
      r.params.sizeHop = 147 ∧ r.params.soundBuffer.sizeBuffer = 145 * 147 + 8190 ∧
      r.params.soundBuffer.iMarker = -(145 * 147 + 8190) ∧
      ∃ (r' : InitFrameResult) (f : SMS_AnalFrame),
        sms_initFrame 1 r.params noError 8190 = some r' ∧
        r'.params.ppFrames[1]? = some f ∧ f.iFrameSample = 0 ∧ r'.ret = SMS_OK := by
  have hfund : exampleParams.fDefaultFundamental ≠ 0 := by
    show (100 : ℚ) ≠ 0
    norm_num
  obtain ⟨r, hr, hret, hrest⟩ :=
    initAnalysis_first_frame_no_runoff exampleParams exampleSndHeader noError (by decide) hfund
      (by decide)
  obtain ⟨r0, hr0, -, -, hhop0, -, -, -, -⟩ :=
    sms_initAnalysis_ok exampleParams exampleSndHeader noError (by decide) hfund
  obtain rfl : r0 = r := by rw [hr] at hr0; exact (Option.some.inj hr0).symm
  have hhop : r0.params.sizeHop = 147 := by
    rw [hhop0]
    norm_num [truncToInt, exampleSndHeader, exampleParams, freshParams]
  obtain ⟨hsize, hmark, hframe⟩ := hrest (by rw [hhop]; decide)
  have hD : exampleParams.iMaxDelayFrames = 145 := rfl
  rw [hhop, hD] at hsize
  rw [hsize] at hmark
  obtain ⟨r', f, hr', hf, hs, hok, -, -⟩ :=
    hframe 1 8190 noError (by decide) (by rw [hD]; decide) (by decide) (by decide)
  exact ⟨by decide, hfund, by decide, r0, hr, hret, hhop, hsize, hmark, r', f, hr', hf, hs, hok⟩

/-! ## The synthesis loop -/

theorem ceilDiv_bounds (H N : Int) (hH : 0 < H) :
    N ≤ H * ((N + H - 1) / H) ∧ H * ((N + H - 1) / H) < N + H := by
  have h1 := Int.ediv_add_emod (N + H - 1) H
  have h2 := Int.emod_nonneg (N + H - 1) (ne_of_gt hH)
  have h3 := Int.emod_lt_of_pos (N + H - 1) hH
  constructor <;> omega

theorem smsSynth_loop_run (H N : Int) (hH : 0 < H) (T : Nat)
    (hT : (T : Int) = (N + H - 1) / H) :
    ∀ (d k fuel : Nat), k + d = T → d ≤ fuel →
      smsSynth_loop H N fuel
        { iSample := (k : Int) * H, written := (k : Int) * H, iterations := k } =
      some { iSample := (T : Int) * H, written := (T : Int) * H, iterations := T } := by
  have hb := ceilDiv_bounds H N hH
  rw [← hT] at hb
  intro d
  induction d with
  | zero =>
    intro k fuel hk _
    obtain rfl : k = T := by omega
    have hcond : ¬ ((k : Int) * H < N) := by
      rw [mul_comm]
      omega
    cases fuel <;> simp only [smsSynth_loop, if_neg hcond]
  | succ d ih =>
    intro k fuel hk hfuel
    obtain ⟨fuel', rfl⟩ : ∃ fuel', fuel = fuel' + 1 := ⟨fuel - 1, by omega⟩
    have hle : (k : Int) + 1 ≤ (T : Int) := by omega
    have hmul : ((k : Int) + 1) * H ≤ (T : Int) * H :=
      mul_le_mul_of_nonneg_right hle (le_of_lt hH)
    have hcond : (k : Int) * H < N := by
      have hTH : (T : Int) * H = H * (T : Int) := mul_comm _ _
      have hk1 : ((k : Int) + 1) * H = (k : Int) * H + H := by ring
      omega
    simp only [smsSynth_loop, if_pos hcond]
    have hnext : ((k + 1 : Nat) : Int) * H = (k : Int) * H + H := by
      push_cast
      ring
    rw [← hnext]
    exact ih (k + 1) fuel' (by omega) (by omega)

/-- C27: for every hop size `sizeHop > 0` and target count `nSamples ≥ 0` the
synthesis loop ends after exactly `ceil(nSamples / sizeHop)` iterations (given
at least that much fuel), so the number of samples written is
`sizeHop * ceil(nSamples / sizeHop)`: at least `nSamples`, less than
`nSamples + sizeHop`, and equal to `nSamples` only when `sizeHop` divides
`nSamples`. -/
theorem smsSynth_loop_iterations (H N : Int) (fuel : Nat) (hH : 0 < H) (hN : 0 ≤ N)
    (hfuel : ⌈(N : ℚ) / (H : ℚ)⌉.toNat ≤ fuel) :
    smsSynth_loop H N fuel { iSample := 0, written := 0, iterations := 0 } =
      some { iSample := H * ⌈(N : ℚ) / (H : ℚ)⌉, written := H * ⌈(N : ℚ) / (H : ℚ)⌉,
             iterations := ⌈(N : ℚ) / (H : ℚ)⌉.toNat } ∧
    N ≤ H * ⌈(N : ℚ) / (H : ℚ)⌉ ∧ H * ⌈(N : ℚ) / (H : ℚ)⌉ < N + H ∧
    (H * ⌈(N : ℚ) / (H : ℚ)⌉ = N ↔ H ∣ N) := by
  have hb := ceilDiv_bounds H N hH
  have hHQ : (0 : ℚ) < (H : ℚ) := by exact_mod_cast hH
  have hceil : ⌈(N : ℚ) / (H : ℚ)⌉ = (N + H - 1) / H := by
    rw [Int.ceil_eq_iff]
    constructor
    · rw [lt_div_iff₀ hHQ]
      have h : ((N + H - 1) / H - 1) * H < N := by
        have : ((N + H - 1) / H - 1) * H = H * ((N + H - 1) / H) - H := by ring
        omega
      exact_mod_cast h
    · rw [div_le_iff₀ hHQ]
      have h : N ≤ (N + H - 1) / H * H := by
        rw [mul_comm]
        exact hb.1
      exact_mod_cast h
  rw [hceil] at hfuel ⊢
  have hq0 : 0 ≤ (N + H - 1) / H := Int.ediv_nonneg (by omega) (le_of_lt hH)
  have hT : (((N + H - 1) / H).toNat : Int) = (N + H - 1) / H := Int.toNat_of_nonneg hq0
  have hrun := smsSynth_loop_run H N hH ((N + H - 1) / H).toNat hT
    ((N + H - 1) / H).toNat 0 fuel (by omega) hfuel
  simp only [Nat.cast_zero, zero_mul] at hrun
  rw [hT, mul_comm] at hrun
  refine ⟨hrun, hb.1, hb.2, ⟨fun h => ⟨_, h.symm⟩, fun ⟨c, hc⟩ => ?_⟩⟩
  subst hc
  have h1 : H * c + H - 1 = H * c + (H - 1) := by ring
  rw [h1, Int.add_ediv_of_dvd_left (Dvd.intro c rfl),
    Int.mul_ediv_cancel_left _ (ne_of_gt hH), Int.ediv_eq_zero_of_lt (by omega) (by omega)]
  ring

theorem smsSynth_loop_iterations_witness :
    (0 : Int) < 128 ∧ (0 : Int) ≤ 44100 ∧ ⌈((44100 : Int) : ℚ) / ((128 : Int) : ℚ)⌉ = 345 ∧
    smsSynth_loop 128 44100 345 { iSample := 0, written := 0, iterations := 0 } =
      some { iSample := 44160, written := 44160, iterations := 345 } ∧
    (44100 : Int) ≤ 44160 ∧ (44160 : Int) < 44100 + 128 ∧ ¬ ((128 : Int) ∣ 44100) := by
  have hceil : ⌈((44100 : Int) : ℚ) / ((128 : Int) : ℚ)⌉ = 345 := by
    rw [Int.ceil_eq_iff]
    norm_num
  have h := smsSynth_loop_iterations 128 44100 345 (by decide) (by decide)
    (by rw [hceil]; decide)
  rw [hceil] at h
  exact ⟨by decide, by decide, hceil, h.1, by decide, by decide, by decide⟩

/-! ## `sms_sizeNextWindow`: range of the result -/

theorem sms_sizeNextWindow_value (j : Nat) (p : SMS_AnalParams) (cur prev : SMS_AnalFrame)
    (hcur : p.ppFrames[j + 1]? = some cur) (hprev : p.ppFrames[j]? = some prev) :
    sms_sizeNextWindow (j + 1) p =
      some (min
        (if prev.fFundamental > 0 ∧ cur.fFundamental ≠ 0 ∧
            |prev.fFundamental - cur.fFundamental| / cur.fFundamental ≤ 0.2 then
          truncToInt (((p.iSamplingRate : ℚ) / cur.fFundamental) * p.fSizeWindow * 0.5) * 2 + 1
        else p.iDefaultSizeWindow) SMS_MAX_WINDOW) := by
  have hclip : ∀ x : Int, (if x > SMS_MAX_WINDOW then SMS_MAX_WINDOW else x) =
      min x SMS_MAX_WINDOW := by
    intro x
    split_ifs with h
    · exact (min_eq_right (le_of_lt h)).symm
    · exact (min_eq_left (not_lt.1 h)).symm
  simp only [sms_sizeNextWindow, hcur, hprev, hclip]

/-- C28, counterexample: with the default window size 1001, the previous
fundamental 100 and the current fundamental `-100`, the test
`|fPrev - f| / f <= .2` holds (the quotient is negative) and
`sms_sizeNextWindow` returns `2*trunc(-771.75) + 1 = -1541`, which is below 1. -/
theorem sizeNextWindow_negative_fundamental :
    1 ≤ (fundParams [100, -100]).iDefaultSizeWindow ∧
    sms_sizeNextWindow 1 (fundParams [100, -100]) = some (-1541) ∧ ¬ ((1 : Int) ≤ -1541) := by
  have hc : ⌈(-(3087 / 4) : ℚ)⌉ = -771 := by
    rw [Int.ceil_eq_iff]
    norm_num
  refine ⟨by decide, ?_, by decide⟩
  simp [sms_sizeNextWindow, fundParams, frameWithFund, exampleParams, freshParams, truncToInt,
    SMS_MAX_WINDOW]
  norm_num [abs_of_pos]
  rw [hc]
  rfl

/-- C28, amended: for every analysis state with `1 ≤ iDefaultSizeWindow`, a
non-negative sampling rate and a non-negative `fSizeWindow`, and every pair of
previous and current fundamentals whose current one is zero or positive, the
window size returned by `sms_sizeNextWindow` is at least 1 and at most
`SMS_MAX_WINDOW`; the upper bound holds for every pair of fundamentals. -/
theorem sizeNextWindow_range (i : Nat) (p : SMS_AnalParams) (hi : 1 ≤ i)
    (hlen : i < p.ppFrames.length) (hdef : 1 ≤ p.iDefaultSizeWindow) :
    ∃ (cur : SMS_AnalFrame) (w : Int), p.ppFrames[i]? = some cur ∧
      sms_sizeNextWindow i p = some w ∧ w ≤ SMS_MAX_WINDOW ∧
      (0 ≤ p.iSamplingRate → 0 ≤ p.fSizeWindow → 0 ≤ cur.fFundamental → 1 ≤ w) := by
  obtain ⟨j, rfl⟩ : ∃ j, i = j + 1 := ⟨i - 1, by omega⟩
  have hj : j < p.ppFrames.length := by omega
  have hcur : p.ppFrames[j + 1]? = some p.ppFrames[j + 1] := List.getElem?_eq_getElem hlen
  have hprev : p.ppFrames[j]? = some p.ppFrames[j] := List.getElem?_eq_getElem hj
  refine ⟨p.ppFrames[j + 1], _, hcur, sms_sizeNextWindow_value j p _ _ hcur hprev,
    min_le_right _ _, fun hrate hfs hf => ?_⟩
  have hmax : (1 : Int) ≤ SMS_MAX_WINDOW := by decide
  refine le_min ?_ hmax
  split_ifs with hcond
  · have hpos : 0 < p.ppFrames[j + 1].fFundamental := lt_of_le_of_ne hf (Ne.symm hcond.2.1)
    have hrateQ : (0 : ℚ) ≤ (p.iSamplingRate : ℚ) := by exact_mod_cast hrate
    have hq : (0 : ℚ) ≤ (p.iSamplingRate : ℚ) / p.ppFrames[j + 1].fFundamental *
        p.fSizeWindow * 0.5 := by positivity
    have ht : 0 ≤ truncToInt ((p.iSamplingRate : ℚ) / p.ppFrames[j + 1].fFundamental *
        p.fSizeWindow * 0.5) := by
      rw [truncToInt, if_pos hq]
      exact Int.floor_nonneg.2 hq
    omega
  · exact hdef

theorem sizeNextWindow_range_witness :
    1 ≤ 1 ∧ 1 < (fundParams [100, 0]).ppFrames.length ∧
    1 ≤ (fundParams [100, 0]).iDefaultSizeWindow ∧
    sms_sizeNextWindow 1 (fundParams [100, 0]) = some 1001 ∧
    ∃ (cur : SMS_AnalFrame) (w : Int), (fundParams [100, 0]).ppFrames[1]? = some cur ∧
      sms_sizeNextWindow 1 (fundParams [100, 0]) = some w ∧ w ≤ SMS_MAX_WINDOW ∧
      (0 ≤ (fundParams [100, 0]).iSamplingRate → 0 ≤ (fundParams [100, 0]).fSizeWindow →
        0 ≤ cur.fFundamental → 1 ≤ w) := by
  refine ⟨by decide, by decide, by decide, ?_,
    sizeNextWindow_range 1 (fundParams [100, 0]) (by decide) (by decide) (by decide)⟩
  simp [sms_sizeNextWindow, fundParams, frameWithFund, exampleParams, freshParams, truncToInt,
    SMS_MAX_WINDOW]

/-! ## `sms_spectrum`: which samples the centring step places -/

theorem centerLoops_placed (base : Int) (window wave : Int → ℚ) (w sizeFft : Int)
    (buf : Int → ℚ) (hmid : 1 ≤ (w + 1) / 2) (hfft : 2 * ((w + 1) / 2) - 1 ≤ sizeFft) :
    (∀ j, 0 ≤ j → j < 2 * ((w + 1) / 2) - 1 →
      centerLoops base window wave w sizeFft buf (base + centrePos w sizeFft j) =
        window j * wave j ∧
      0 ≤ centrePos w sizeFft j ∧ centrePos w sizeFft j < sizeFft) ∧
    (∀ j j', 0 ≤ j → j < 2 * ((w + 1) / 2) - 1 → 0 ≤ j' → j' < 2 * ((w + 1) / 2) - 1 →
      centrePos w sizeFft j = centrePos w sizeFft j' → j = j') ∧
    (∀ k, (∀ j, 0 ≤ j → j < 2 * ((w + 1) / 2) - 1 → k ≠ base + centrePos w sizeFft j) →
      centerLoops base window wave w sizeFft buf k = buf k) := by
  have h3 : ((((w + 1) / 2) - 0).toNat : Int) = (w + 1) / 2 := by omega
  have h4 : ((((w + 1) / 2) - 1 - 0).toNat : Int) = (w + 1) / 2 - 1 := by omega
  simp only [centerLoops_apply, centrePos, shiftRight_one_eq, h3, h4]
  refine ⟨fun j hj0 hj1 => ?_, fun j j' hj0 hj1 hj0' hj1' h => ?_, fun k hk => ?_⟩
  · by_cases hfirst : j < (w + 1) / 2 - 1
    · rw [if_pos hfirst]
      refine ⟨?_, by omega, by omega⟩
      rw [if_neg (by omega), if_pos (by omega)]
      congr 2 <;> omega
    · rw [if_neg hfirst]
      refine ⟨?_, by omega, by omega⟩
      rw [if_pos (by omega)]
      congr 2 <;> omega
  · split_ifs at h <;> omega
  · by_cases h1 : base ≤ k ∧ k < base + (w + 1) / 2
    · exfalso
      refine hk ((w + 1) / 2 - 1 + (k - base)) (by omega) (by omega) ?_
      rw [if_neg (by omega)]
      omega
    · rw [if_neg h1]
      by_cases h2 : base + (sizeFft - ((w + 1) / 2 - 1)) ≤ k ∧
          k < base + (sizeFft - ((w + 1) / 2 - 1)) + ((w + 1) / 2 - 1)
      · exfalso
        refine hk (k - (base + (sizeFft - ((w + 1) / 2 - 1)))) (by omega) (by omega) ?_
        rw [if_pos (by omega)]
        omega
      · rw [if_neg h2]

theorem centerLoops_reads_below (base : Int) (window wave window' wave' : Int → ℚ)
    (w sizeFft : Int) (buf : Int → ℚ) (hmid : 1 ≤ (w + 1) / 2)
    (hsame : ∀ j, j < 2 * ((w + 1) / 2) - 1 → window' j = window j ∧ wave' j = wave j) :
    ∀ k, centerLoops base window' wave' w sizeFft buf k =
      centerLoops base window wave w sizeFft buf k := by
  intro k
  have h3 : ((((w + 1) / 2) - 0).toNat : Int) = (w + 1) / 2 := by omega
  have h4 : ((((w + 1) / 2) - 1 - 0).toNat : Int) = (w + 1) / 2 - 1 := by omega
  simp only [centerLoops_apply, h3, h4]
  by_cases h1 : base ≤ k ∧ k < base + (w + 1) / 2
  · rw [if_pos h1, if_pos h1, (hsame _ (by omega)).1, (hsame _ (by omega)).2]
  · rw [if_neg h1, if_neg h1]
    by_cases h2 : base + (sizeFft - ((w + 1) / 2 - 1)) ≤ k ∧
        k < base + (sizeFft - ((w + 1) / 2 - 1)) + ((w + 1) / 2 - 1)
    · rw [if_pos h2, if_pos h2, (hsame _ (by omega)).1, (hsame _ (by omega)).2]
    · rw [if_neg h2, if_neg h2]

theorem spectrumSizeFft_gt (w : Int) (hw : 1 ≤ w) : 2 * w < spectrumSizeFft w := by
  obtain ⟨m, rfl⟩ : ∃ m : Nat, w = (m : Int) := ⟨w.toNat, by omega⟩
  have hm : 1 ≤ m := by exact_mod_cast hw
  have hlt := Nat.lt_pow_succ_log_self (b := 2) (by decide) (2 * m)
  have hsucc : (Nat.log 2 (2 * m)).succ = 1 + Nat.log 2 (2 * m) := by omega
  rw [hsucc] at hlt
  rw [spectrumSizeFft_natCast m hm]
  exact_mod_cast hlt

/-- C29: in the centring step of `sms_spectrum`, with `sizeFft` the transform
size the function computes for a window of `w ≥ 1` samples, let `n = w` for
odd `w` and `n = w - 1` for even `w`. Every sample `j < n` is stored, multiplied
by the window, at its own index `centrePos w sizeFft j` of the transform
buffer (offset by one on the `realft` path), two different samples never share
an index, and every other entry of the buffer is zero; so an odd `w` places
each of the `w` samples exactly once. For even `w` the buffer does not depend
on the last sample: changing `wave[w-1]` and `window[w-1]` leaves every entry
of the buffer as it was, so only `w - 1` samples are placed. -/
theorem centring_places_samples (window wave : Int → ℚ) (w : Int) (hw : 1 ≤ w)
    (mem : Int → ℚ) :
    (∀ j, 0 ≤ j → j < (if w % 2 = 1 then w else w - 1) →
      0 ≤ centrePos w (spectrumSizeFft w) j ∧
      centrePos w (spectrumSizeFft w) j < spectrumSizeFft w ∧
      spectrumBufferFftw window wave w (spectrumSizeFft w) mem
        (centrePos w (spectrumSizeFft w) j) = window j * wave j ∧
      spectrumBufferRealft window wave w (spectrumSizeFft w) mem
        (1 + centrePos w (spectrumSizeFft w) j) = window j * wave j) ∧
    (∀ j j', 0 ≤ j → j < (if w % 2 = 1 then w else w - 1) →
      0 ≤ j' → j' < (if w % 2 = 1 then w else w - 1) →
      centrePos w (spectrumSizeFft w) j = centrePos w (spectrumSizeFft w) j' → j = j') ∧
    (∀ k, 0 ≤ k → k < spectrumSizeFft w →
      (∀ j, 0 ≤ j → j < (if w % 2 = 1 then w else w - 1) →
        k ≠ centrePos w (spectrumSizeFft w) j) →
      spectrumBufferFftw window wave w (spectrumSizeFft w) mem k = 0 ∧
      spectrumBufferRealft window wave w (spectrumSizeFft w) mem (1 + k) = 0) ∧
    (w % 2 = 0 → ∀ window' wave' : Int → ℚ,
      (∀ j, j ≠ w - 1 → window' j = window j ∧ wave' j = wave j) →
      ∀ k, spectrumBufferFftw window' wave' w (spectrumSizeFft w) mem k =
          spectrumBufferFftw window wave w (spectrumSizeFft w) mem k ∧
        spectrumBufferRealft window' wave' w (spectrumSizeFft w) mem k =
          spectrumBufferRealft window wave w (spectrumSizeFft w) mem k) := by
  have hgt := spectrumSizeFft_gt w hw
  have hn : (if w % 2 = 1 then w else w - 1) = 2 * ((w + 1) / 2) - 1 := by
    split_ifs <;> omega
  have hmid : 1 ≤ (w + 1) / 2 := by omega
  have hfft : 2 * ((w + 1) / 2) - 1 ≤ spectrumSizeFft w := by omega
  rw [hn]
  obtain ⟨a0, b0, c0⟩ := centerLoops_placed 0 window wave w (spectrumSizeFft w)
    (memsetMap (spectrumSizeFft w) mem) hmid hfft
  obtain ⟨a1, _, c1⟩ := centerLoops_placed 1 window wave w (spectrumSizeFft w)
    (memsetMap (spectrumSizeFft w + 1) mem) hmid hfft
  refine ⟨fun j hj0 hj1 => ?_, b0, fun k hk0 hk1 hk => ?_, fun hev window' wave' hsame k => ?_⟩
  · obtain ⟨e0, p0, p1⟩ := a0 j hj0 hj1
    refine ⟨p0, p1, ?_, (a1 j hj0 hj1).1⟩
    have := e0
    rw [zero_add] at this
    exact this
  · constructor
    · rw [spectrumBufferFftw, c0 k (fun j hj0 hj1 => by rw [zero_add]; exact hk j hj0 hj1),
        memsetMap, if_pos ⟨hk0, hk1⟩]
    · rw [spectrumBufferRealft, c1 (1 + k) (fun j hj0 hj1 h => hk j hj0 hj1 (by omega)),
        memsetMap, if_pos ⟨by omega, by omega⟩]
  · have hs : ∀ j, j < 2 * ((w + 1) / 2) - 1 → window' j = window j ∧ wave' j = wave j :=
      fun j hj => hsame j (by omega)
    exact ⟨centerLoops_reads_below 0 window wave window' wave' w _ _ hmid hs k,
      centerLoops_reads_below 1 window wave window' wave' w _ _ hmid hs k⟩

theorem centring_places_samples_witness :
    (1 : Int) ≤ 4 ∧
    ((∀ j, 0 ≤ j → j < (if (4 : Int) % 2 = 1 then 4 else 4 - 1) →
      0 ≤ centrePos 4 (spectrumSizeFft 4) j ∧
      centrePos 4 (spectrumSizeFft 4) j < spectrumSizeFft 4 ∧
      spectrumBufferFftw rampWindow rampWave 4 (spectrumSizeFft 4) zeroMap
        (centrePos 4 (spectrumSizeFft 4) j) = rampWindow j * rampWave j ∧
      spectrumBufferRealft rampWindow rampWave 4 (spectrumSizeFft 4) zeroMap
        (1 + centrePos 4 (spectrumSizeFft 4) j) = rampWindow j * rampWave j) ∧
    (∀ j j', 0 ≤ j → j < (if (4 : Int) % 2 = 1 then 4 else 4 - 1) →
      0 ≤ j' → j' < (if (4 : Int) % 2 = 1 then 4 else 4 - 1) →
      centrePos 4 (spectrumSizeFft 4) j = centrePos 4 (spectrumSizeFft 4) j' → j = j') ∧
    (∀ k, 0 ≤ k → k < spectrumSizeFft 4 →
      (∀ j, 0 ≤ j → j < (if (4 : Int) % 2 = 1 then 4 else 4 - 1) →
        k ≠ centrePos 4 (spectrumSizeFft 4) j) →
      spectrumBufferFftw rampWindow rampWave 4 (spectrumSizeFft 4) zeroMap k = 0 ∧
      spectrumBufferRealft rampWindow rampWave 4 (spectrumSizeFft 4) zeroMap (1 + k) = 0) ∧
    ((4 : Int) % 2 = 0 → ∀ window' wave' : Int → ℚ,
      (∀ j, j ≠ 4 - 1 → window' j = rampWindow j ∧ wave' j = rampWave j) →
      ∀ k, spectrumBufferFftw window' wave' 4 (spectrumSizeFft 4) zeroMap k =
          spectrumBufferFftw rampWindow rampWave 4 (spectrumSizeFft 4) zeroMap k ∧
        spectrumBufferRealft window' wave' 4 (spectrumSizeFft 4) zeroMap k =
          spectrumBufferRealft rampWindow rampWave 4 (spectrumSizeFft 4) zeroMap k)) :=
  ⟨by decide, centring_places_samples rampWindow rampWave 4 (by decide) zeroMap⟩

/-! ## `sms_init`: the flag is set before the tables are prepared -/

/-- C30: `sms_init` called with `initIsDone` nonzero returns 0 and changes
nothing (no table helper is called). A call with `initIsDone = 0` sets the
flag to 1 whatever the outcome, returns `-1` exactly when the sine preparation
or, after it, the sinc preparation reports a nonzero status (raising the error
flag), and returns 0 otherwise; in either case the next `sms_init` call returns
0 and leaves the whole state, tables included, as it is, so a failed
preparation is not retried. After `sms_free` the flag is 0 again and the next
`sms_init` call runs the preparation on the cleared tables. -/
theorem sms_init_flag_before_tables {T : Type} (ops : TableOps T) (g : SmsGlobals T)
    (h0 : g.initIsDone = 0) :
    (∀ g1 : SmsGlobals T, g1.initIsDone ≠ 0 → sms_init ops g1 = (0, g1)) ∧
    (sms_init ops g).2.initIsDone = 1 ∧
    ((sms_init ops g).1 = -1 ↔
      (ops.sms_prepSine SIZE_TABLES g.tables).1 ≠ 0 ∨
      (ops.sms_prepSinc SIZE_TABLES (ops.sms_prepSine SIZE_TABLES g.tables).2).1 ≠ 0) ∧
    ((sms_init ops g).1 = -1 → (sms_init ops g).2.err.error_status = -1) ∧
    ((sms_init ops g).1 ≠ -1 → (sms_init ops g).1 = 0 ∧ (sms_init ops g).2.err = g.err) ∧
    sms_init ops (sms_init ops g).2 = (0, (sms_init ops g).2) ∧
    (sms_free ops (sms_init ops g).2).initIsDone = 0 ∧
    ((sms_init ops (sms_free ops (sms_init ops g).2)).1 = -1 ↔
      (ops.sms_prepSine SIZE_TABLES
        (ops.sms_clearSinc (ops.sms_clearSine (sms_init ops g).2.tables))).1 ≠ 0 ∨
      (ops.sms_prepSinc SIZE_TABLES (ops.sms_prepSine SIZE_TABLES
        (ops.sms_clearSinc (ops.sms_clearSine (sms_init ops g).2.tables))).2).1 ≠ 0) := by
  have hskip : ∀ g1 : SmsGlobals T, g1.initIsDone ≠ 0 → sms_init ops g1 = (0, g1) := by
    intro g1 h1
    rw [sms_init, if_neg h1]
  have hret : ∀ g2 : SmsGlobals T, g2.initIsDone = 0 →
      ((sms_init ops g2).1 = -1 ↔
        (ops.sms_prepSine SIZE_TABLES g2.tables).1 ≠ 0 ∨
        (ops.sms_prepSinc SIZE_TABLES (ops.sms_prepSine SIZE_TABLES g2.tables).2).1 ≠ 0) := by
    intro g2 h2
    rw [sms_init, if_pos h2]
    by_cases hs : (ops.sms_prepSine SIZE_TABLES g2.tables).1 ≠ 0
    · simp [hs]
    · by_cases hc :
          (ops.sms_prepSinc SIZE_TABLES (ops.sms_prepSine SIZE_TABLES g2.tables).2).1 ≠ 0
      · simp [hs, hc]
      · simp [hs, hc]
  have hflag : (sms_init ops g).2.initIsDone = 1 := by
    rw [sms_init, if_pos h0]
    dsimp only
    split_ifs <;> rfl
  refine ⟨hskip, hflag, hret g h0, ?_, ?_, hskip _ (by rw [hflag]; decide), rfl,
    hret _ rfl⟩
  · rw [sms_init, if_pos h0]
    dsimp only
    split_ifs
    · intro _
      rfl
    · intro _
      rfl
    · intro h
      exact absurd h (by decide)
  · rw [sms_init, if_pos h0]
    dsimp only
    split_ifs
    · intro h
      exact absurd rfl h
    · intro h
      exact absurd rfl h
    · intro _
      exact ⟨rfl, rfl⟩

theorem sms_init_flag_before_tables_witness :
    freshGlobals.initIsDone = 0 ∧
    ((∀ g1 : SmsGlobals Nat, g1.initIsDone ≠ 0 → sms_init failOnceOps g1 = (0, g1)) ∧
    (sms_init failOnceOps freshGlobals).2.initIsDone = 1 ∧
    ((sms_init failOnceOps freshGlobals).1 = -1 ↔
      (failOnceOps.sms_prepSine SIZE_TABLES freshGlobals.tables).1 ≠ 0 ∨
      (failOnceOps.sms_prepSinc SIZE_TABLES
        (failOnceOps.sms_prepSine SIZE_TABLES freshGlobals.tables).2).1 ≠ 0) ∧
    ((sms_init failOnceOps freshGlobals).1 = -1 →
      (sms_init failOnceOps freshGlobals).2.err.error_status = -1) ∧
    ((sms_init failOnceOps freshGlobals).1 ≠ -1 →
      (sms_init failOnceOps freshGlobals).1 = 0 ∧
      (sms_init failOnceOps freshGlobals).2.err = freshGlobals.err) ∧
    sms_init failOnceOps (sms_init failOnceOps freshGlobals).2 =
      (0, (sms_init failOnceOps freshGlobals).2) ∧
    (sms_free failOnceOps (sms_init failOnceOps freshGlobals).2).initIsDone = 0 ∧
    ((sms_init failOnceOps (sms_free failOnceOps (sms_init failOnceOps freshGlobals).2)).1 = -1 ↔
      (failOnceOps.sms_prepSine SIZE_TABLES
        (failOnceOps.sms_clearSinc (failOnceOps.sms_clearSine
          (sms_init failOnceOps freshGlobals).2.tables))).1 ≠ 0 ∨
      (failOnceOps.sms_prepSinc SIZE_TABLES (failOnceOps.sms_prepSine SIZE_TABLES
        (failOnceOps.sms_clearSinc (failOnceOps.sms_clearSine
          (sms_init failOnceOps freshGlobals).2.tables))).2).1 ≠ 0)) :=
  ⟨rfl, sms_init_flag_before_tables failOnceOps freshGlobals rfl⟩

/-- With the example helpers the first `sms_init` call fails with `-1` after one
preparation call, the second call returns 0 with still one preparation call
made, and after `sms_free` the call prepares both tables and returns 0. -/
theorem sms_init_failOnce_run :
    (sms_init failOnceOps freshGlobals).1 = -1 ∧
    (sms_init failOnceOps freshGlobals).2.tables = 1 ∧
    (sms_init failOnceOps (sms_init failOnceOps freshGlobals).2).1 = 0 ∧
    (sms_init failOnceOps (sms_init failOnceOps freshGlobals).2).2.tables = 1 ∧
    (sms_init failOnceOps (sms_free failOnceOps (sms_init failOnceOps freshGlobals).2)).1 = 0 ∧
    (sms_init failOnceOps (sms_free failOnceOps
      (sms_init failOnceOps freshGlobals).2)).2.tables = 3 := by
  refine ⟨?_, ?_, ?_, ?_, ?_, ?_⟩ <;> rfl

/-! ## Round trip of `sms_quickSpectrum` and `sms_invQuickSpectrum` -/

end LibSms
